import Mathlib

/-!
# Shooting-canon 2D game: the game-state engine of `Sample_GL3_2D.cpp`

A shallow embedding of the global game variables, the input callbacks
(`keyboard`, `keyboardChar`, `mouseButton`, `scroll`) and the per-frame
function `draw` of `src/Sample_GL3_2D.cpp`, followed by theorems about them.

Modelling conventions.

* Every C++ global that the callbacks or `draw` read or write is a field of
  `State`, under its source name (`by` is a Lean keyword and is spelled `by_`).
* `float` and `double` values are exact rationals (`ℚ`): rounding is not
  modelled.  `int` values are `Int`; the only arithmetic on them is
  `flag ++` and the sum of three 0/1 scores, so no wrap-around can occur.
* The C library functions `cos`, `sin`, `atan` are a parameter `Trig`.
* `glfwGetTime()` is an input: a `Clock` carries the value returned at each
  of the four call sites inside `draw`.
* Rendering calls (matrices, `draw3DObject`) have no effect on the game
  variables and are omitted.  `quit` ends the process: a callback that calls
  it returns `none`.
-/

namespace ShootingCanon

/-- The C library functions used by the game, on exact rationals. -/
structure Trig where
  cos : ℚ → ℚ
  sin : ℚ → ℚ
  atan : ℚ → ℚ

/-- A polynomial stand-in for the C library, used to evaluate concrete runs.
It has `cos 0 = 1`, `sin 0 = 0` and `atan 0 = 0`. -/
def polyTrig : Trig where
  cos := fun x => 1 - x * x / 2 + x * x * x * x / 24
  sin := fun x => x - x * x * x / 6 + x * x * x * x * x / 120
  atan := fun x => x - x * x * x / 3

/-- The values returned by `glfwGetTime()` at its call sites inside one
`draw()`: line 1156 (`launch`), line 1160 (`update`), line 1239 (`rebound`)
and line 1242 (`contact`). -/
structure Clock where
  launch : ℚ
  update : ℚ
  rebound : ℚ
  contact : ℚ

/-- The global variables of the game (lines 210-237, 362-364, 403-404,
885-905), with their source names. -/
structure State where
  canon_rot_dir : ℚ
  triangle_rot_dir : ℚ
  rectangle_rot_dir : ℚ
  canon_rot_status : Bool
  triangle_rot_status : Bool
  rectangle_rot_status : Bool
  flag : Int
  flag1 : Int
  flag_s : Int
  flag_f : Int
  can_x : ℚ
  can_y : ℚ
  canon_rotation : ℚ
  start_t : ℚ
  u : ℚ
  score : Int
  up : Int
  down : Int
  panleft : Int
  panright : Int
  rot_a : Int
  rot_b : Int
  angle : ℚ
  gaga : Int
  score1 : Int
  score2 : Int
  score3 : Int
  over : Int
  ay : ℚ
  right_click : Int
  scroll_left : Int
  scroll_right : Int
  scroll_up : Int
  scroll_down : Int
  rectangle_rotation : ℚ
  triangle_rotation : ℚ
  t : ℚ
  curr_t : ℚ
  pos_x : ℚ
  pos_y : ℚ
  bx : ℚ
  by_ : ℚ
  t1 : Int
  t2 : Int
  t3 : Int
  lx : ℚ
  rx : ℚ
  dy : ℚ
  upy : ℚ
  haha : Int

/-- The values of the globals when `main` starts: the written initialisers,
and zero for every global declared without one. -/
def initState : State where
  canon_rot_dir := 1
  triangle_rot_dir := 1
  rectangle_rot_dir := 1
  canon_rot_status := false
  triangle_rot_status := true
  rectangle_rot_status := true
  flag := 0
  flag1 := 0
  flag_s := 0
  flag_f := 0
  can_x := 0
  can_y := 0
  canon_rotation := 0
  start_t := 0
  u := 10
  score := 0
  up := 0
  down := 0
  panleft := 0
  panright := 0
  rot_a := 0
  rot_b := 0
  angle := 0
  gaga := 0
  score1 := 0
  score2 := 0
  score3 := 0
  over := 0
  ay := 0
  right_click := 0
  scroll_left := 0
  scroll_right := 0
  scroll_up := 0
  scroll_down := 0
  rectangle_rotation := 0
  triangle_rotation := 0
  t := 0
  curr_t := 0
  pos_x := 0
  pos_y := 0
  bx := 0
  by_ := 0
  t1 := 1
  t2 := 1
  t3 := 1
  lx := -16.0
  rx := 16.0
  dy := -8.0
  upy := 8.0
  haha := 0

/-- The function `DEG2RAD` (lines 34-37): degrees to radians with 3.14 for pi. -/
def DEG2RAD (i : ℚ) : ℚ := (i * 3.14) / 180

/-- The keys that `keyboard` distinguishes; `OTHER` is any other key. -/
inductive Key where
  | GLFW_KEY_C
  | GLFW_KEY_P
  | GLFW_KEY_A
  | GLFW_KEY_B
  | GLFW_KEY_SPACE
  | GLFW_KEY_F
  | GLFW_KEY_S
  | GLFW_KEY_UP
  | GLFW_KEY_DOWN
  | GLFW_KEY_LEFT
  | GLFW_KEY_RIGHT
  | GLFW_KEY_ESCAPE
  | OTHER

/-- The GLFW key and button actions. -/
inductive Action where
  | GLFW_RELEASE
  | GLFW_PRESS
  | GLFW_REPEAT

/-- The mouse buttons that `mouseButton` distinguishes. -/
inductive Button where
  | GLFW_MOUSE_BUTTON_LEFT
  | GLFW_MOUSE_BUTTON_RIGHT
  | OTHER

/-- The callback `keyboard` (lines 241-348).  On release, `GLFW_KEY_SPACE` has no `break`
and falls through into the `GLFW_KEY_F` case.  `GLFW_KEY_ESCAPE` pressed calls
`quit`. -/
def keyboard (m : Trig) (key : Key) (action : Action) (s : State) : Option State :=
  match action with
  | .GLFW_RELEASE =>
    match key with
    | .GLFW_KEY_C => some { s with rectangle_rot_status := !s.rectangle_rot_status }
    | .GLFW_KEY_P => some { s with triangle_rot_status := !s.triangle_rot_status }
    | .GLFW_KEY_A => some { s with canon_rot_status := false, rot_a := 0 }
    | .GLFW_KEY_B => some { s with canon_rot_status := false, rot_b := 0 }
    | .GLFW_KEY_SPACE => some { s with flag1 := 1, flag_f := 0 }
    | .GLFW_KEY_F => some { s with flag_f := 0 }
    | .GLFW_KEY_S => some { s with flag_s := 0 }
    | .GLFW_KEY_UP => some { s with up := 0 }
    | .GLFW_KEY_DOWN => some { s with down := 0 }
    | .GLFW_KEY_LEFT => some { s with panleft := 0 }
    | .GLFW_KEY_RIGHT => some { s with panright := 0 }
    | _ => some s
  | .GLFW_PRESS =>
    match key with
    | .GLFW_KEY_ESCAPE => none
    | .GLFW_KEY_A => some { s with rot_a := 1 }
    | .GLFW_KEY_B => some { s with rot_b := 1 }
    | .GLFW_KEY_SPACE =>
      if s.flag = 0 then
        let s1 := { s with angle := s.canon_rotation }
        let s2 := { s1 with can_x := -12 + 2 * m.cos (DEG2RAD (s1.angle + m.atan (0.5 / 2))) }
        let s3 := { s2 with can_y := -6.5 + 2 * m.sin (DEG2RAD (s2.angle + m.atan (0.5 / 2))) }
        some { s3 with flag := 1 }
      else some s
    | .GLFW_KEY_F => some { s with flag_f := 1 }
    | .GLFW_KEY_S => some { s with flag_s := 1 }
    | .GLFW_KEY_UP => some { s with up := 1 }
    | .GLFW_KEY_DOWN => some { s with down := 1 }
    | .GLFW_KEY_LEFT => some { s with panleft := 1 }
    | .GLFW_KEY_RIGHT => some { s with panright := 1 }
    | _ => some s
  | .GLFW_REPEAT => some s

/-- The callback `keyboardChar` (lines 351-361): `Q` and `q` call `quit`, every other
character is ignored. -/
def keyboardChar (key : Char) (s : State) : Option State :=
  if key = 'Q' ∨ key = 'q' then none else some s

/-- The callback `mouseButton` (lines 366-402).  In the left-button case the
release test and the press test are two separate `if` statements. -/
def mouseButton (m : Trig) (button : Button) (action : Action) (s : State) : State :=
  match button with
  | .GLFW_MOUSE_BUTTON_LEFT =>
    let s1 :=
      match action with
      | .GLFW_RELEASE =>
        if s.flag = 0 then
          let a1 := { s with angle := s.canon_rotation }
          let a2 := { a1 with can_x := -12 + 2 * m.cos (DEG2RAD (a1.angle + m.atan (0.5 / 2))) }
          let a3 := { a2 with can_y := -6.5 + 2 * m.sin (DEG2RAD (a2.angle + m.atan (0.5 / 2))) }
          { a3 with flag := 1, flag_f := 0 }
        else s
      | _ => s
    match action with
    | .GLFW_PRESS => { s1 with flag_f := 1 }
    | _ => s1
  | .GLFW_MOUSE_BUTTON_RIGHT =>
    let s1 :=
      match action with
      | .GLFW_PRESS => { s with right_click := 1 }
      | _ => s
    match action with
    | .GLFW_RELEASE => { s1 with right_click := 0, scroll_left := 0, scroll_right := 0 }
    | _ => s1
  | .OTHER => s

/-- The callback `scroll` (lines 407-433). -/
def scroll (x y : ℚ) (s : State) : State :=
  let p : ℚ := y / 4
  let g : ℚ := x / 4
  let s1 := if p < 0 then { s with scroll_down := 1 } else s
  let s2 := if p > 0 then { s1 with scroll_up := 1 } else s1
  let s3 := if g > 0 then { s2 with scroll_left := 1 } else s2
  if g < 0 then { s3 with scroll_right := 1 } else s3

/-- Conversion of a `double` to `int`: truncation toward zero (the value is
assumed to lie within the range of `int`). -/
def toInt (q : ℚ) : Int := Int.tdiv q.num q.den

/-- The first statements of `draw` (lines 913-922): the two rotation guards. -/
def rotateGuards (s : State) : State :=
  let s1 :=
    if s.canon_rotation ≤ 90 ∧ s.rot_a = 1 then
      { s with canon_rot_dir := 1, canon_rot_status := true }
    else s
  if s1.canon_rotation ≥ 0 ∧ s1.rot_b = 1 then
    { s1 with canon_rot_dir := -1, canon_rot_status := true }
  else s1

/-- Zoom and pan of the orthographic bounds in `draw` (lines 936-965). -/
def viewport (s : State) : State :=
  let s1 :=
    if s.up = 1 ∨ s.scroll_up = 1 then
      { s with lx := s.lx + 0.1, rx := s.rx - 0.1, dy := s.dy + 0.1, upy := s.upy - 0.1,
               scroll_up := 0 }
    else s
  let s2 :=
    if s1.down = 1 ∨ s1.scroll_down = 1 then
      { s1 with lx := s1.lx - 0.1, rx := s1.rx + 0.1, dy := s1.dy - 0.1, upy := s1.upy + 0.1,
                scroll_down := 0 }
    else s1
  let s3 :=
    if s2.panleft = 1 ∨ (s2.right_click = 1 ∧ s2.scroll_right = 1) then
      { s2 with lx := s2.lx - 0.1, rx := s2.rx - 0.1 }
    else s2
  if s3.panright = 1 ∨ (s3.right_click = 1 ∧ s3.scroll_left = 1) then
    { s3 with lx := s3.lx + 0.1, rx := s3.rx + 0.1 }
  else s3

/-- Lines 1140-1146 of `draw`: the position `(bx, by)` at which the ball is
drawn and against which every test of this tick is made. -/
def placeBall (s : State) : State :=
  { s with gaga := 0, haha := 0, bx := s.can_x + s.pos_x, by_ := s.can_y + s.pos_y }

/-- Lines 1154-1159 of `draw`: the first tick after a launch stamps the start
time. -/
def stampLaunch (c : Clock) (s : State) : State :=
  if s.flag = 1 then { s with start_t := c.launch, flag := s.flag + 1, ay := 0 } else s

/-- Lines 1160-1172 of `draw`: elapsed time and the flight formula. -/
def kinematics (m : Trig) (c : Clock) (s : State) : State :=
  let s1 := { s with curr_t := c.update }
  let s2 := { s1 with t := s1.curr_t - s1.start_t }
  let s3 := { s2 with pos_x := s2.u * m.cos (DEG2RAD s2.angle) * s2.t }
  if s3.by_ > -7.25 then
    { s3 with pos_y := s3.u * m.sin (DEG2RAD s3.angle) * s3.t - 0.5 * 9.8 * s3.t * s3.t }
  else s3

/-- The condition of line 1173: the tested position is outside the world. -/
def outOfBounds (bx by_ : ℚ) : Prop := bx > 16.0 ∨ by_ < -8.0 ∨ by_ > 8.0 ∨ bx < -16.0

instance (bx by_ : ℚ) : Decidable (outOfBounds bx by_) := by
  unfold outOfBounds; infer_instance

/-- Lines 1173-1181 of `draw`: the out-of-bounds reset. -/
def boundsReset (s : State) : State :=
  if outOfBounds s.bx s.by_ then { s with flag := 0, u := 5, pos_x := 0, pos_y := 0 } else s

/-- Lines 1182-1201 of `draw`: ground contact.  `lala` is an `int`. -/
def groundContact (m : Trig) (s : State) : State :=
  if s.by_ ≤ -7.25 then
    let lala : Int := toInt (s.u - 0.1 * 9.8 * s.t)
    let s1 := { s with by_ := s.pos_y }
    let s2 := { s1 with pos_x := s1.u * m.cos (DEG2RAD 0) * s1.t - 0.5 * 0.1 * 9.8 * s1.t * s1.t }
    if (lala : ℚ) < -0.02 then
      { s2 with bx := 19.0, by_ := -10, pos_x := 0, pos_y := 0 }
    else s2
  else s

/-- The condition of line 1202 (target 1). -/
def hit1 (bx by_ : ℚ) : Prop :=
  (bx * bx + (by_ + 3.25) * (by_ + 3.25)) * (bx * bx + (by_ + 3.25) * (by_ + 3.25)) ≤ 1.5625

/-- The condition of line 1211 (target 2). -/
def hit2 (bx by_ : ℚ) : Prop := bx > 6.75 ∧ bx < 9.25 ∧ by_ < -3.75 ∧ by_ > -6.25

/-- The condition of line 1219 (target 3). -/
def hit3 (bx by_ : ℚ) : Prop :=
  ((bx - 9) * (bx - 9) + (by_ - 4) * (by_ - 4)) * ((bx - 9) * (bx - 9) + (by_ - 4) * (by_ - 4))
    ≤ 1.5625

instance (bx by_ : ℚ) : Decidable (hit1 bx by_) := by unfold hit1; infer_instance

instance (bx by_ : ℚ) : Decidable (hit2 bx by_) := by unfold hit2; infer_instance

instance (bx by_ : ℚ) : Decidable (hit3 bx by_) := by unfold hit3; infer_instance

/-- Lines 1202-1210 of `draw`.  The inner guard `if (t1=1)` is an assignment:
it stores 1 in `t1` and tests the stored value. -/
def hitTarget1 (s : State) : State :=
  if hit1 s.bx s.by_ then
    let s1 := { s with t1 := 1 }
    let s2 := if s1.t1 ≠ 0 then { s1 with score1 := 1 } else s1
    { s2 with t1 := 0 }
  else s

/-- Lines 1211-1218 of `draw`, with the assignment `if (t2=1)`. -/
def hitTarget2 (s : State) : State :=
  if hit2 s.bx s.by_ then
    let s1 := { s with t2 := 1 }
    let s2 := if s1.t2 ≠ 0 then { s1 with score2 := 1 } else s1
    { s2 with t2 := 0 }
  else s

/-- Lines 1219-1226 of `draw`, with the assignment `if (t3=1)`. -/
def hitTarget3 (s : State) : State :=
  if hit3 s.bx s.by_ then
    let s1 := { s with t3 := 1 }
    let s2 := if s1.t3 ≠ 0 then { s1 with score3 := 1 } else s1
    { s2 with t3 := 0 }
  else s

/-- Lines 1227-1232 of `draw`: the score and the end-of-game mark. -/
def tally (s : State) : State :=
  let s1 := { s with score := s.score1 + s.score2 + s.score3 }
  if s1.score = 3 then { s1 with over := 1 } else s1

/-- The condition of line 1234: the tested position is in an obstacle zone. -/
def inObstacle (bx by_ : ℚ) : Prop :=
  (bx ≥ -2 ∧ bx ≤ 1 ∧ by_ ≤ -4 ∧ by_ ≥ -6) ∨ (by_ ≥ 2.75 ∧ by_ ≤ 3.25 ∧ bx ≥ 7 ∧ bx ≤ 11) ∨
    (bx ≥ 12 ∧ bx ≤ 13 ∧ by_ ≥ -6 ∧ by_ ≤ -2)

instance (bx by_ : ℚ) : Decidable (inObstacle bx by_) := by unfold inObstacle; infer_instance

/-- Lines 1234-1248 of `draw`.  The inner guard `if (haha=0)` is an
assignment: it stores 0 in `haha` and tests the stored value. -/
def obstacle (m : Trig) (c : Clock) (s : State) : State :=
  if inObstacle s.bx s.by_ then
    let s1 := { s with haha := 0 }
    let s2 :=
      if s1.haha ≠ 0 then
        { s1 with can_x := 0, can_y := 0, start_t := c.rebound, haha := 1 }
      else s1
    let s3 := { s2 with curr_t := c.contact }
    let s4 := { s3 with pos_x := -1 * s3.u * m.cos (DEG2RAD s3.angle) * s3.t }
    let s5 := { s4 with pos_y := s4.u * m.sin (DEG2RAD s4.angle) * s4.t - 0.5 * 9.8 * s4.t * s4.t }
    { s5 with gaga := 1 }
  else s

/-- The state of a Flying tick just before the target tests of line 1202. -/
def beforeHitTests (m : Trig) (c : Clock) (s : State) : State :=
  groundContact m (boundsReset (kinematics m c (stampLaunch c (placeBall s))))

/-- Lines 1138-1320 of `draw`: the block run while the projectile is Flying. -/
def flight (m : Trig) (c : Clock) (s : State) : State :=
  if s.flag = 1 ∨ s.flag = 2 then
    obstacle m c (tally (hitTarget3 (hitTarget2 (hitTarget1 (beforeHitTests m c s)))))
  else s

/-- Lines 1321-1338 of `draw`: charging and discharging while Idle. -/
def charge (s : State) : State :=
  if s.flag = 0 then
    let s1 :=
      if s.flag_f = 1 then
        let a := if s.ay < 4.0 then { s with ay := s.ay + 0.05 } else s
        { a with u := a.u + 0.2 }
      else s
    if s1.flag_s = 1 ∧ s1.u ≥ 0.2 then
      let a := if s1.ay > 0 then { s1 with ay := s1.ay - 0.05 } else s1
      { a with u := a.u - 0.2 }
    else s1
  else s

/-- Lines 1364-1369 of `draw`: the rotation increments; a `bool` status
multiplies as 0 or 1. -/
def increment (s : State) : State :=
  let increments : ℚ := 1
  let s1 := { s with triangle_rotation :=
    s.triangle_rotation + increments * s.triangle_rot_dir * (if s.triangle_rot_status then 1 else 0) }
  let s2 := { s1 with rectangle_rotation :=
    s1.rectangle_rotation + increments * s1.rectangle_rot_dir *
      (if s1.rectangle_rot_status then 1 else 0) }
  { s2 with canon_rotation :=
    s2.canon_rotation + increments * s2.canon_rot_dir * (if s2.canon_rot_status then 1 else 0) }

/-- The function `draw` (lines 911-1370): one tick.  Its statements are the
five blocks above, in source order. -/
def draw (m : Trig) (c : Clock) (s : State) : State :=
  increment (charge (flight m c (viewport (rotateGuards s))))

/-- The inputs of the main loop: the callbacks registered in `initGLFW` and
the call of `draw`. -/
inductive Event where
  | key (k : Key) (a : Action)
  | char (c : Char)
  | mouse (b : Button) (a : Action)
  | wheel (x y : ℚ)
  | tick (c : Clock)

/-- One input applied to the game; `none` when the callback ends the process. -/
def step (m : Trig) (s : State) : Event → Option State
  | .key k a => keyboard m k a s
  | .char c => keyboardChar c s
  | .mouse b a => some (mouseButton m b a s)
  | .wheel x y => some (scroll x y s)
  | .tick c => some (draw m c s)

/-- A sequence of inputs applied in order; `none` once the process has ended. -/
def run (m : Trig) (s : State) : List Event → Option State
  | [] => some s
  | e :: es => (step m s e).bind (fun s1 => run m s1 es)

/-- The states the game can be in: those reached from `initState` by inputs. -/
inductive Reachable (m : Trig) : State → Prop where
  | init : Reachable m initState
  | next (s s1 : State) (e : Event) : Reachable m s → step m s e = some s1 → Reachable m s1

/-- The variables of the cannon rotation. -/
def rotPart (s : State) : ℚ × Int × Int × Bool × ℚ :=
  (s.canon_rotation, s.rot_a, s.rot_b, s.canon_rot_status, s.canon_rot_dir)

/-- The target and score variables. -/
def scorePart (s : State) : (Int × Int × Int) × (Int × Int × Int) × Int × Int :=
  ((s.t1, s.t2, s.t3), (s.score1, s.score2, s.score3), s.score, s.over)

/-- The variables read or written by the Flying block and by the charge block
of `draw`. -/
def gamePart (s : State) :
    (Int × Int × Int) × (ℚ × ℚ × ℚ × ℚ × ℚ × ℚ) × (ℚ × ℚ × ℚ × ℚ × ℚ × ℚ) × (Int × Int) ×
      ((Int × Int × Int) × (Int × Int × Int) × Int × Int) :=
  ((s.flag, s.flag_f, s.flag_s), (s.can_x, s.can_y, s.start_t, s.u, s.angle, s.ay),
    (s.t, s.curr_t, s.pos_x, s.pos_y, s.bx, s.by_), (s.gaga, s.haha), scorePart s)

/-- The number of inactive targets (those with `t_i = 0`). -/
def inactiveTargets (s : State) : Int :=
  (if s.t1 = 0 then 1 else 0) + (if s.t2 = 0 then 1 else 0) + (if s.t3 = 0 then 1 else 0)

/-- The invariant linking targets, scores and the end-of-game mark. -/
def scoreInv (s : State) : Prop :=
  (s.t1 = 0 ∨ s.t1 = 1) ∧ (s.t2 = 0 ∨ s.t2 = 1) ∧ (s.t3 = 0 ∨ s.t3 = 1) ∧
    s.score1 = 1 - s.t1 ∧ s.score2 = 1 - s.t2 ∧ s.score3 = 1 - s.t3 ∧
    s.score = s.score1 + s.score2 + s.score3 ∧ s.over = if s.score = 3 then 1 else 0

/-- The position `(bx, by)` against which the tick `draw m c s` makes the
target tests of lines 1202-1226 and the obstacle test of line 1234. -/
def testedPosition (m : Trig) (c : Clock) (s : State) : ℚ × ℚ :=
  ((beforeHitTests m c (viewport (rotateGuards s))).bx,
    (beforeHitTests m c (viewport (rotateGuards s))).by_)

/-- A Flying state whose ball is at (1.2, -3.25), at distance 1.2 from the
centre (0, -3.25) of target 1. -/
def nearTarget1 : State :=
  { initState with flag := 2, can_x := -10.2, can_y := -5.3, pos_x := 11.4, pos_y := 2.05 }

/-- A Flying state whose ball is at (10.2, 4), at distance 1.2 from the
centre (9, 4) of target 3. -/
def nearTarget3 : State :=
  { initState with flag := 2, can_x := -10.2, can_y := -5.3, pos_x := 20.4, pos_y := 9.3 }

/-- The variables of the launch power. -/
def powerPart (s : State) : ℚ × ℚ := (s.u, s.ay)

/-- The variables that decide what `charge` does, and those it writes. -/
def chargePart (s : State) : Int × Int × Int × ℚ × ℚ := (s.flag, s.flag_f, s.flag_s, s.u, s.ay)

/-- The launch snapshot and power variables. -/
def corePart (s : State) : (Int × Int × Int) × (ℚ × ℚ) × (ℚ × ℚ × ℚ × ℚ) :=
  ((s.flag, s.flag_f, s.flag_s), (s.u, s.ay), (s.angle, s.can_x, s.can_y, s.start_t))

/-- The state after the inputs `es`, provided the process is still running
and the projectile is Flying (`flag` is not 0) after each of them. -/
def flightRun (m : Trig) (s : State) : List Event → Option State
  | [] => some s
  | e :: es =>
    match step m s e with
    | some s1 => if s1.flag = 0 then none else flightRun m s1 es
    | none => none

/-- The trajectory parameters of a flight: launch angle, launch origin and
launch speed. -/
def snapPart (s : State) : ℚ × ℚ × ℚ × ℚ := (s.angle, s.can_x, s.can_y, s.u)

/-- The tested position, the elapsed time and the displacement of the ball. -/
def ballPart (s : State) : (ℚ × ℚ) × ℚ × ℚ × ℚ := ((s.bx, s.by_), s.t, s.pos_x, s.pos_y)

/-- A Flying state whose ball has rolled along the ground past the right edge
of the world: the tested position is (16.5, -7.3). -/
def groundExit : State :=
  { initState with flag := 2, can_x := -10, can_y := -6.5, pos_x := 26.5, pos_y := -0.8 }

/-- A Flying state whose ball has left the world through the right edge above
the ground line: the tested position is (17, 0). -/
def rightExit : State :=
  { initState with flag := 2, can_x := -10, can_y := -6.5, pos_x := 27, pos_y := 6.5 }

/-- The value of `u` left by the body of the `if(!flag)` block (lines
1323-1337) from the flags and the value of `u` before it. -/
def chargedU (flag_f flag_s : Int) (u : ℚ) : ℚ :=
  if flag_s = 1 ∧ (if flag_f = 1 then u + 0.2 else u) ≥ 0.2 then
    (if flag_f = 1 then u + 0.2 else u) - 0.2
  else (if flag_f = 1 then u + 0.2 else u)

/-- The value of `ay` left by the body of the `if(!flag)` block (lines
1323-1337) from the flags and the values of `u` and `ay` before it. -/
def chargedAy (flag_f flag_s : Int) (u ay : ℚ) : ℚ :=
  if flag_s = 1 ∧ (if flag_f = 1 then u + 0.2 else u) ≥ 0.2 then
    (if (if flag_f = 1 then (if ay < 4.0 then ay + 0.05 else ay) else ay) > 0 then
      (if flag_f = 1 then (if ay < 4.0 then ay + 0.05 else ay) else ay) - 0.05
    else (if flag_f = 1 then (if ay < 4.0 then ay + 0.05 else ay) else ay))
  else (if flag_f = 1 then (if ay < 4.0 then ay + 0.05 else ay) else ay)

/-- The orthographic bounds and the flags that move them. -/
def viewPart (s : State) :
    (ℚ × ℚ × ℚ × ℚ) × (Int × Int × Int × Int) × (Int × Int × Int × Int × Int) :=
  ((s.lx, s.rx, s.dy, s.upy), (s.up, s.down, s.panleft, s.panright),
    (s.right_click, s.scroll_left, s.scroll_right, s.scroll_up, s.scroll_down))

/-- The distance by which the zoom-in block (lines 936-944) moves each bound
in the tick that starts at `s`. -/
def zoomInStep (s : State) : ℚ := if s.up = 1 ∨ s.scroll_up = 1 then 0.1 else 0

/-- The distance by which the zoom-out block (lines 945-952) moves each bound
in the tick that starts at `s`. -/
def zoomOutStep (s : State) : ℚ := if s.down = 1 ∨ s.scroll_down = 1 then 0.1 else 0

/-- The distance by which the pan-left block (lines 955-959) moves `lx` and
`rx` in the tick that starts at `s`. -/
def panLeftStep (s : State) : ℚ :=
  if s.panleft = 1 ∨ (s.right_click = 1 ∧ s.scroll_right = 1) then 0.1 else 0

/-- The distance by which the pan-right block (lines 960-964) moves `lx` and
`rx` in the tick that starts at `s`. -/
def panRightStep (s : State) : ℚ :=
  if s.panright = 1 ∨ (s.right_click = 1 ∧ s.scroll_left = 1) then 0.1 else 0

/-- The orthographic bounds. -/
def boundsPart (s : State) : ℚ × ℚ × ℚ × ℚ := (s.lx, s.rx, s.dy, s.upy)

/-- The variables read by the obstacle block: the tested position, the
elapsed time, the launch speed and the launch angle. -/
def flyPart (s : State) : (ℚ × ℚ) × ℚ × ℚ × ℚ := ((s.bx, s.by_), s.t, s.u, s.angle)

/-- A Flying state on the free-flight path of a shot at 45 degrees with the
initial launch speed 10, 1.3 seconds after the launch: the tested position,
about (-1.40, -4.19), is in the first obstacle zone (the stand). -/
def standShot : State :=
  { initState with flag := 2, angle := 45, can_x := -10.6, can_y := -5.1,
                   pos_x := 10 * polyTrig.cos (DEG2RAD 45) * 1.3,
                   pos_y := 10 * polyTrig.sin (DEG2RAD 45) * 1.3 - 0.5 * 9.8 * 1.3 * 1.3 }

/-- A Flying state of a shot fired at 90 degrees with `u = 6` whose ball has
come down to the ground line and rolled to the foot of the stand of target 1:
the tested position is (0, -7.3), with displacement `pos_y = -2.8`. -/
def underTarget1 : State :=
  { initState with flag := 2, u := 6, angle := 90, can_x := -12, can_y := -4.5, pos_x := 12,
                   pos_y := -2.8 }

/-- A Flying state with the flight parameters of `nearTarget1` (angle, launch
speed, launch origin, start time) and another previous displacement: the
tested position (1.2, -7.3) is at the ground line. -/
def groundTwin : State :=
  { initState with flag := 2, can_x := -10.2, can_y := -5.3, pos_x := 11.4, pos_y := -2 }

/-- A Flying state of a weak shot (`u = 1`) whose ball lies on the ground
inside the world: the tested position is (-9.7, -7.3). -/
def spentBall : State :=
  { initState with flag := 2, u := 1, can_x := -10, can_y := -6.5, pos_x := 0.3,
                   pos_y := -0.8 }

/-- The state of the tick `draw m c s` just before the out-of-bounds test of
line 1173 (after lines 1140-1172). -/
def afterKinematics (m : Trig) (c : Clock) (s : State) : State :=
  kinematics m c (stampLaunch c (placeBall (viewport (rotateGuards s))))

/-- The initial state with the A key (rotate) and the F key (charge) down:
the state after the two key presses. -/
def aimStart : State := { initState with rot_a := 1, flag_f := 1 }

/-- The state after 25 ticks with A and F held from the initial state: the
cannon is at 25 degrees and the launch speed is 15. -/
def aimed : State := Nat.iterate (draw polyTrig ⟨0, 0, 0, 0⟩) 25 aimStart

/-- The state after the left mouse button is released at `aimed`: the
projectile is launched. -/
def launched : State := mouseButton polyTrig .GLFW_MOUSE_BUTTON_LEFT .GLFW_RELEASE aimed

/-- The state of that shot after the tick that stamps the start time (clock
1) and a tick 0.70 seconds later: the ball is on its way to target 1. -/
def inFlight : State :=
  draw polyTrig ⟨1.70, 1.70, 1.70, 1.70⟩ (draw polyTrig ⟨1, 1, 1, 1⟩ launched)

/-- The state of that shot one tick later (clock 1.71): this tick tests the
ball at about (-0.67, -3.61), inside the hit region of target 1. -/
def afterHit : State := draw polyTrig ⟨1.71, 1.71, 1.71, 1.71⟩ inFlight

/-- The inputs that lead from the initial state to `aimed`: A and F are
pressed and held for 25 ticks. -/
def aimRun : List Event :=
  [.key .GLFW_KEY_A .GLFW_PRESS, .key .GLFW_KEY_F .GLFW_PRESS] ++
    List.replicate 25 (.tick ⟨0, 0, 0, 0⟩)

/-- The inputs of the flight from `launched` to `afterHit`: the tick that
stamps the start time and the ticks at elapsed times 0.70 and 0.71. -/
def flightTicks : List Event :=
  [.tick ⟨1, 1, 1, 1⟩, .tick ⟨1.70, 1.70, 1.70, 1.70⟩, .tick ⟨1.71, 1.71, 1.71, 1.71⟩]

/-- The inputs that lead from the initial state to `afterHit`: aim and
charge, release the left mouse button, and let the ball fly. -/
def hitRun : List Event :=
  aimRun ++ [.mouse .GLFW_MOUSE_BUTTON_LEFT .GLFW_RELEASE] ++ flightTicks

/-- The state after S is pressed at the initial state and held for 50 ticks:
the launch speed has gone from 10 down to 0. -/
def drained : State := Nat.iterate (draw polyTrig ⟨0, 0, 0, 0⟩) 50 { initState with flag_s := 1 }

/-! ## The rotation variables -/

theorem rotPart_viewport (s : State) : rotPart (viewport s) = rotPart s := by
  unfold viewport; dsimp only; split_ifs <;> rfl

theorem rotPart_flight (m : Trig) (c : Clock) (s : State) :
    rotPart (flight m c s) = rotPart s := by
  have h1 : ∀ s, rotPart (placeBall s) = rotPart s := fun s => rfl
  have h2 : ∀ s, rotPart (stampLaunch c s) = rotPart s := fun s => by
    unfold stampLaunch; split_ifs <;> rfl
  have h3 : ∀ s, rotPart (kinematics m c s) = rotPart s := fun s => by
    unfold kinematics; dsimp only; split_ifs <;> rfl
  have h4 : ∀ s, rotPart (boundsReset s) = rotPart s := fun s => by
    unfold boundsReset; split_ifs <;> rfl
  have h5 : ∀ s, rotPart (groundContact m s) = rotPart s := fun s => by
    unfold groundContact; dsimp only; split_ifs <;> rfl
  have h6 : ∀ s, rotPart (hitTarget1 s) = rotPart s := fun s => by
    unfold hitTarget1; dsimp only; split_ifs <;> rfl
  have h7 : ∀ s, rotPart (hitTarget2 s) = rotPart s := fun s => by
    unfold hitTarget2; dsimp only; split_ifs <;> rfl
  have h8 : ∀ s, rotPart (hitTarget3 s) = rotPart s := fun s => by
    unfold hitTarget3; dsimp only; split_ifs <;> rfl
  have h9 : ∀ s, rotPart (tally s) = rotPart s := fun s => by
    unfold tally; dsimp only; split_ifs <;> rfl
  have h10 : ∀ s, rotPart (obstacle m c s) = rotPart s := fun s => by
    unfold obstacle; dsimp only; split_ifs <;> rfl
  unfold flight beforeHitTests
  split_ifs
  · rw [h10, h9, h8, h7, h6, h5, h4, h3, h2, h1]
  · rfl

theorem rotPart_charge (s : State) : rotPart (charge s) = rotPart s := by
  unfold charge; dsimp only; split_ifs <;> rfl

/-- The rotation variables after a tick are those left by the two guards,
with the angle advanced by `canon_rot_dir * canon_rot_status`. -/
theorem rotPart_draw (m : Trig) (c : Clock) (s : State) :
    rotPart (draw m c s) =
      ((rotateGuards s).canon_rotation +
          1 * (rotateGuards s).canon_rot_dir * (if (rotateGuards s).canon_rot_status then 1 else 0),
        (rotateGuards s).rot_a, (rotateGuards s).rot_b, (rotateGuards s).canon_rot_status,
        (rotateGuards s).canon_rot_dir) := by
  have e : rotPart (charge (flight m c (viewport (rotateGuards s)))) = rotPart (rotateGuards s) := by
    rw [rotPart_charge, rotPart_flight, rotPart_viewport]
  simp only [rotPart, Prod.mk.injEq] at e
  obtain ⟨e1, e2, e3, e4, e5⟩ := e
  simp only [rotPart, draw, increment, Prod.mk.injEq]
  rw [e1, e2, e3, e4, e5]
  simp

/-- With key A held (and B up) every tick adds one degree, also past 90: once
`canon_rot_status` is set nothing in `draw` clears it. -/
theorem hold_A (m : Trig) (c : Clock) (n : ℕ) (s : State) (ha : s.rot_a = 1) (hb : s.rot_b = 0)
    (hd : s.canon_rot_dir = 1) (hs : s.canon_rot_status = true ∨ s.canon_rotation ≤ 90) :
    (run m s (List.replicate n (.tick c))).map (fun x => x.canon_rotation)
      = some (s.canon_rotation + n) := by
  induction n generalizing s with
  | zero => simp [run]
  | succ k ih =>
    have e := rotPart_draw m c s
    have g : rotPart (rotateGuards s) = (s.canon_rotation, 1, 0, true, 1) := by
      unfold rotateGuards rotPart
      rcases hs with hs | hs
      · by_cases h90 : s.canon_rotation ≤ 90 <;> simp [h90, ha, hb, hd, hs]
      · simp [hs, ha, hb, hd]
    simp only [rotPart, Prod.mk.injEq] at e g
    obtain ⟨g1, g2, g3, g4, g5⟩ := g
    rw [g1, g2, g3, g4, g5] at e
    obtain ⟨e1, e2, e3, e4, e5⟩ := e
    simp only [List.replicate_succ, run, step, Option.some_bind]
    rw [ih (draw m c s) e2 e3 e5 (Or.inl e4), e1]
    simp
    ring

/-- With key B down and the angle at least 0, a tick subtracts one degree. -/
theorem press_B (m : Trig) (c : Clock) (s : State) (hb : s.rot_b = 1)
    (h0 : 0 ≤ s.canon_rotation) : (draw m c s).canon_rotation = s.canon_rotation - 1 := by
  have e := rotPart_draw m c s
  have g : rotPart (rotateGuards s) = (s.canon_rotation, s.rot_a, 1, true, -1) := by
    unfold rotateGuards rotPart
    by_cases h : s.canon_rotation ≤ 90 ∧ s.rot_a = 1 <;> simp [h, hb, h0]
  simp only [rotPart, Prod.mk.injEq] at e g
  obtain ⟨g1, g2, g3, g4, g5⟩ := g
  rw [g1, g2, g3, g4, g5] at e
  rw [e.1]
  simp
  ring

/-- C1 (the angle clamp fails on the code): from the initial state, pressing A
and running `n` ticks leaves `canon_rotation = n` for every `n` (91 after 91
ticks), and pressing B and running one tick leaves `canon_rotation = -1`. -/
theorem C1_angle_leaves_range (m : Trig) (c : Clock) :
    (∀ n : ℕ, (run m initState (.key .GLFW_KEY_A .GLFW_PRESS :: List.replicate n (.tick c))).map
        (fun s => s.canon_rotation) = some (n : ℚ)) ∧
      (run m initState [.key .GLFW_KEY_B .GLFW_PRESS, .tick c]).map
        (fun s => s.canon_rotation) = some (-1) := by
  constructor
  · intro n
    simp only [run, step, keyboard, Option.some_bind]
    rw [hold_A m c n _ rfl rfl rfl (Or.inr (by simp [initState]))]
    simp [initState]
  · simp only [run, step, keyboard, Option.some_bind, Option.map_some']
    rw [press_B m c _ rfl (by simp [initState])]
    simp [initState]

/-! ## Frame lemmas -/

theorem gamePart_rotateGuards (s : State) : gamePart (rotateGuards s) = gamePart s := by
  unfold rotateGuards; dsimp only; split_ifs <;> rfl

theorem gamePart_viewport (s : State) : gamePart (viewport s) = gamePart s := by
  unfold viewport; dsimp only; split_ifs <;> rfl

theorem gamePart_increment (s : State) : gamePart (increment s) = gamePart s := rfl

theorem gamePart_prelude (s : State) : gamePart (viewport (rotateGuards s)) = gamePart s := by
  rw [gamePart_viewport, gamePart_rotateGuards]

theorem scorePart_charge (s : State) : scorePart (charge s) = scorePart s := by
  unfold charge; dsimp only; split_ifs <;> rfl

theorem scorePart_beforeHitTests (m : Trig) (c : Clock) (s : State) :
    scorePart (beforeHitTests m c s) = scorePart s := by
  have h1 : ∀ s, scorePart (placeBall s) = scorePart s := fun s => rfl
  have h2 : ∀ s, scorePart (stampLaunch c s) = scorePart s := fun s => by
    unfold stampLaunch; split_ifs <;> rfl
  have h3 : ∀ s, scorePart (kinematics m c s) = scorePart s := fun s => by
    unfold kinematics; dsimp only; split_ifs <;> rfl
  have h4 : ∀ s, scorePart (boundsReset s) = scorePart s := fun s => by
    unfold boundsReset; split_ifs <;> rfl
  have h5 : ∀ s, scorePart (groundContact m s) = scorePart s := fun s => by
    unfold groundContact; dsimp only; split_ifs <;> rfl
  unfold beforeHitTests
  rw [h5, h4, h3, h2, h1]

theorem scorePart_obstacle (m : Trig) (c : Clock) (s : State) :
    scorePart (obstacle m c s) = scorePart s := by
  unfold obstacle; dsimp only; split_ifs <;> rfl

/-- The target and score variables after the Flying block, in terms of the
three tests made at the position `(p.bx, p.by_)`, `p = beforeHitTests m c s`. -/
theorem scorePart_flight (m : Trig) (c : Clock) (s : State) (hf : s.flag = 1 ∨ s.flag = 2) :
    scorePart (flight m c s) =
      ((if hit1 (beforeHitTests m c s).bx (beforeHitTests m c s).by_ then 0 else s.t1,
        if hit2 (beforeHitTests m c s).bx (beforeHitTests m c s).by_ then 0 else s.t2,
        if hit3 (beforeHitTests m c s).bx (beforeHitTests m c s).by_ then 0 else s.t3),
       (if hit1 (beforeHitTests m c s).bx (beforeHitTests m c s).by_ then 1 else s.score1,
        if hit2 (beforeHitTests m c s).bx (beforeHitTests m c s).by_ then 1 else s.score2,
        if hit3 (beforeHitTests m c s).bx (beforeHitTests m c s).by_ then 1 else s.score3),
       (if hit1 (beforeHitTests m c s).bx (beforeHitTests m c s).by_ then 1 else s.score1) +
        (if hit2 (beforeHitTests m c s).bx (beforeHitTests m c s).by_ then 1 else s.score2) +
        (if hit3 (beforeHitTests m c s).bx (beforeHitTests m c s).by_ then 1 else s.score3),
       if (if hit1 (beforeHitTests m c s).bx (beforeHitTests m c s).by_ then 1 else s.score1) +
          (if hit2 (beforeHitTests m c s).bx (beforeHitTests m c s).by_ then 1 else s.score2) +
          (if hit3 (beforeHitTests m c s).bx (beforeHitTests m c s).by_ then 1 else s.score3) = 3
        then 1 else s.over) := by
  have e := scorePart_beforeHitTests m c s
  simp only [scorePart, Prod.mk.injEq] at e
  obtain ⟨⟨e1, e2, e3⟩, ⟨e4, e5, e6⟩, e7, e8⟩ := e
  unfold flight
  rw [if_pos hf, scorePart_obstacle]
  generalize beforeHitTests m c s = p at *
  rw [← e1, ← e2, ← e3, ← e4, ← e5, ← e6, ← e8]
  by_cases h1 : hit1 p.bx p.by_ <;> by_cases h2 : hit2 p.bx p.by_ <;>
    by_cases h3 : hit3 p.bx p.by_ <;>
    simp [scorePart, tally, hitTarget1, hitTarget2, hitTarget3, h1, h2, h3] <;>
    split_ifs <;> simp_all

/-- The target and score variables are left alone by a tick that starts Idle. -/
theorem scorePart_flight_idle (m : Trig) (c : Clock) (s : State)
    (hf : ¬ (s.flag = 1 ∨ s.flag = 2)) : scorePart (flight m c s) = scorePart s := by
  unfold flight; rw [if_neg hf]

theorem scorePart_draw (m : Trig) (c : Clock) (s : State) :
    scorePart (draw m c s) = scorePart (flight m c (viewport (rotateGuards s))) := by
  unfold draw
  have h := gamePart_increment (charge (flight m c (viewport (rotateGuards s))))
  simp only [gamePart, Prod.mk.injEq] at h
  rw [h.2.2.2.2, scorePart_charge]

theorem scorePart_keyboard (m : Trig) (k : Key) (a : Action) (s s1 : State)
    (h : keyboard m k a s = some s1) : scorePart s1 = scorePart s := by
  cases a <;> cases k <;> simp only [keyboard, Option.some.injEq, reduceCtorEq] at h <;>
    first
    | (subst h; rfl)
    | (split_ifs at h <;> simp only [Option.some.injEq] at h <;> subst h <;> rfl)

theorem scorePart_keyboardChar (k : Char) (s s1 : State)
    (h : keyboardChar k s = some s1) : scorePart s1 = scorePart s := by
  unfold keyboardChar at h
  split_ifs at h
  simp only [Option.some.injEq] at h
  subst h; rfl

theorem scorePart_mouseButton (m : Trig) (b : Button) (a : Action) (s : State) :
    scorePart (mouseButton m b a s) = scorePart s := by
  cases b <;> cases a <;> simp only [mouseButton] <;> first | rfl | (split_ifs <;> rfl)

theorem scorePart_scroll (x y : ℚ) (s : State) : scorePart (scroll x y s) = scorePart s := by
  unfold scroll; dsimp only; split_ifs <;> rfl

theorem scoreInv_of_scorePart (s s1 : State) (h : scorePart s1 = scorePart s)
    (hs : scoreInv s) : scoreInv s1 := by
  simp only [scorePart, Prod.mk.injEq] at h
  obtain ⟨⟨e1, e2, e3⟩, ⟨e4, e5, e6⟩, e7, e8⟩ := h
  unfold scoreInv
  rw [e1, e2, e3, e4, e5, e6, e7, e8]
  exact hs

theorem scoreInv_draw (m : Trig) (c : Clock) (s : State) (hs : scoreInv s) :
    scoreInv (draw m c s) := by
  have g := gamePart_prelude s
  simp only [gamePart, scorePart, Prod.mk.injEq] at g
  obtain ⟨⟨g1, -, -⟩, -, -, -, ⟨g2, g3, g4⟩, ⟨g5, g6, g7⟩, g8, g9⟩ := g
  have hs1 : scoreInv (viewport (rotateGuards s)) := by
    unfold scoreInv; rw [g2, g3, g4, g5, g6, g7, g8, g9]; exact hs
  have e := scorePart_draw m c s
  generalize viewport (rotateGuards s) = x at *
  by_cases hf : x.flag = 1 ∨ x.flag = 2
  · rw [scorePart_flight m c _ hf] at e
    generalize beforeHitTests m c x = p at e
    simp only [scorePart, Prod.mk.injEq] at e
    obtain ⟨⟨e1, e2, e3⟩, ⟨e4, e5, e6⟩, e7, e8⟩ := e
    obtain ⟨a1, a2, a3, b1, b2, b3, hsc, hov⟩ := hs1
    unfold scoreInv
    rw [e1, e2, e3, e4, e5, e6, e7, e8]
    clear e1 e2 e3 e4 e5 e6 e7 e8 g1 g2 g3 g4 g5 g6 g7 g8 g9 hs
    by_cases h1 : hit1 p.bx p.by_ <;> by_cases h2 : hit2 p.bx p.by_ <;>
      by_cases h3 : hit3 p.bx p.by_ <;>
      simp only [h1, h2, h3, if_true, if_false] <;>
      rcases a1 with a1 | a1 <;> rcases a2 with a2 | a2 <;> rcases a3 with a3 | a3 <;>
      simp_all
  · rw [scorePart_flight_idle m c _ hf] at e
    exact scoreInv_of_scorePart _ _ e hs1

theorem scorePart_step (m : Trig) (s s1 : State) (e : Event) (hne : ∀ c, e ≠ .tick c)
    (h : step m s e = some s1) : scorePart s1 = scorePart s := by
  cases e with
  | key k a => exact scorePart_keyboard m k a s s1 h
  | char k => exact scorePart_keyboardChar k s s1 h
  | mouse b a =>
    simp only [step, Option.some.injEq] at h
    subst h; exact scorePart_mouseButton m b a s
  | wheel x y =>
    simp only [step, Option.some.injEq] at h
    subst h; exact scorePart_scroll x y s
  | tick c => exact absurd rfl (hne c)

theorem scoreInv_step (m : Trig) (s s1 : State) (e : Event) (h : step m s e = some s1)
    (hs : scoreInv s) : scoreInv s1 := by
  cases e with
  | tick c =>
    simp only [step, Option.some.injEq] at h
    subst h; exact scoreInv_draw m c s hs
  | key k a => exact scoreInv_of_scorePart _ _ (scorePart_step m s s1 _ (by simp) h) hs
  | char k => exact scoreInv_of_scorePart _ _ (scorePart_step m s s1 _ (by simp) h) hs
  | mouse b a => exact scoreInv_of_scorePart _ _ (scorePart_step m s s1 _ (by simp) h) hs
  | wheel x y => exact scoreInv_of_scorePart _ _ (scorePart_step m s s1 _ (by simp) h) hs

theorem scoreInv_init : scoreInv initState := by
  simp [scoreInv, initState]

theorem reachable_scoreInv (m : Trig) (s : State) (h : Reachable m s) : scoreInv s := by
  induction h with
  | init => exact scoreInv_init
  | next s s1 e _ hstep ih => exact scoreInv_step m s s1 e hstep ih

/-- C3: in every reachable state the score is the number of inactive
targets, it is 3 exactly when all three targets are inactive, and `over` is 1
exactly when the score is 3. -/
theorem C3_score_counts_inactive (m : Trig) (s : State) (h : Reachable m s) :
    s.score = inactiveTargets s ∧ (s.score = 3 ↔ s.t1 = 0 ∧ s.t2 = 0 ∧ s.t3 = 0) ∧
      (s.over = 1 ↔ s.score = 3) := by
  obtain ⟨a1, a2, a3, b1, b2, b3, hsc, hov⟩ := reachable_scoreInv m s h
  unfold inactiveTargets
  rw [hov, hsc, b1, b2, b3]
  rcases a1 with a1 | a1 <;> rcases a2 with a2 | a2 <;> rcases a3 with a3 | a3 <;>
    simp [a1, a2, a3]

/-- Above the ground line the tested position is the one computed at lines
1145-1146. -/
theorem beforeHitTests_position (m : Trig) (c : Clock) (s : State)
    (hy : s.can_y + s.pos_y > -7.25) :
    (beforeHitTests m c s).bx = s.can_x + s.pos_x ∧
      (beforeHitTests m c s).by_ = s.can_y + s.pos_y := by
  have h1 : (placeBall s).bx = s.can_x + s.pos_x ∧ (placeBall s).by_ = s.can_y + s.pos_y :=
    ⟨rfl, rfl⟩
  have h2 : ∀ s, (stampLaunch c s).bx = s.bx ∧ (stampLaunch c s).by_ = s.by_ := fun s => by
    unfold stampLaunch; split_ifs <;> exact ⟨rfl, rfl⟩
  have h3 : ∀ s, (kinematics m c s).bx = s.bx ∧ (kinematics m c s).by_ = s.by_ := fun s => by
    unfold kinematics; dsimp only; split_ifs <;> exact ⟨rfl, rfl⟩
  have h4 : ∀ s, (boundsReset s).bx = s.bx ∧ (boundsReset s).by_ = s.by_ := fun s => by
    unfold boundsReset; split_ifs <;> exact ⟨rfl, rfl⟩
  have h5 : ∀ s, s.by_ > -7.25 → groundContact m s = s := fun s h => by
    unfold groundContact; rw [if_neg (not_le.mpr h)]
  have hb : (boundsReset (kinematics m c (stampLaunch c (placeBall s)))).bx = s.can_x + s.pos_x ∧
      (boundsReset (kinematics m c (stampLaunch c (placeBall s)))).by_ = s.can_y + s.pos_y := by
    rw [(h4 _).1, (h4 _).2, (h3 _).1, (h3 _).2, (h2 _).1, (h2 _).2]
    exact h1
  unfold beforeHitTests
  rw [h5 _ (by rw [hb.2]; exact hy)]
  exact hb

theorem testedPosition_above (m : Trig) (c : Clock) (s : State)
    (hy : s.can_y + s.pos_y > -7.25) :
    testedPosition m c s = (s.can_x + s.pos_x, s.can_y + s.pos_y) := by
  have g := gamePart_prelude s
  simp only [gamePart, Prod.mk.injEq] at g
  obtain ⟨-, ⟨g1, g2, -, -, -, -⟩, ⟨-, -, g3, g4, -, -⟩, -, -⟩ := g
  unfold testedPosition
  have h := beforeHitTests_position m c (viewport (rotateGuards s)) (by rw [g2, g4]; exact hy)
  rw [h.1, h.2, g1, g2, g3, g4]

/-- The target and score variables after a tick that starts Flying, in terms
of the three tests at the tested position. -/
theorem scorePart_draw_flying (m : Trig) (c : Clock) (s : State)
    (hf : s.flag = 1 ∨ s.flag = 2) :
    scorePart (draw m c s) =
      ((if hit1 (testedPosition m c s).1 (testedPosition m c s).2 then 0 else s.t1,
        if hit2 (testedPosition m c s).1 (testedPosition m c s).2 then 0 else s.t2,
        if hit3 (testedPosition m c s).1 (testedPosition m c s).2 then 0 else s.t3),
       (if hit1 (testedPosition m c s).1 (testedPosition m c s).2 then 1 else s.score1,
        if hit2 (testedPosition m c s).1 (testedPosition m c s).2 then 1 else s.score2,
        if hit3 (testedPosition m c s).1 (testedPosition m c s).2 then 1 else s.score3),
       (if hit1 (testedPosition m c s).1 (testedPosition m c s).2 then 1 else s.score1) +
        (if hit2 (testedPosition m c s).1 (testedPosition m c s).2 then 1 else s.score2) +
        (if hit3 (testedPosition m c s).1 (testedPosition m c s).2 then 1 else s.score3),
       if (if hit1 (testedPosition m c s).1 (testedPosition m c s).2 then 1 else s.score1) +
          (if hit2 (testedPosition m c s).1 (testedPosition m c s).2 then 1 else s.score2) +
          (if hit3 (testedPosition m c s).1 (testedPosition m c s).2 then 1 else s.score3) = 3
        then 1 else s.over) := by
  have g := gamePart_prelude s
  simp only [gamePart, scorePart, Prod.mk.injEq] at g
  obtain ⟨⟨g1, -, -⟩, -, -, -, ⟨g2, g3, g4⟩, ⟨g5, g6, g7⟩, g8, g9⟩ := g
  rw [scorePart_draw, scorePart_flight m c _ (by rw [g1]; exact hf)]
  unfold testedPosition
  rw [g2, g3, g4, g5, g6, g7, g9]

/-- The target and score variables are left alone by a tick that starts Idle. -/
theorem scorePart_draw_idle (m : Trig) (c : Clock) (s : State)
    (hf : ¬ (s.flag = 1 ∨ s.flag = 2)) : scorePart (draw m c s) = scorePart s := by
  have g := gamePart_prelude s
  simp only [gamePart, Prod.mk.injEq] at g
  obtain ⟨⟨g1, -, -⟩, -, -, -, g2⟩ := g
  rw [scorePart_draw, scorePart_flight_idle m c _ (by rw [g1]; exact hf), g2]

/-- C2 (the circular hit tests use a smaller radius than 1.25): in a Flying
tick whose tested position is (1.2, -3.25), at squared distance 1.44 from the
centre of target 1, target 1 stays active and `score1` stays 0; likewise for
target 3 at the tested position (10.2, 4). -/
theorem C2_circle_test_misses (m : Trig) (c : Clock) :
    (testedPosition m c nearTarget1 = (1.2, -3.25) ∧
      (1.2 : ℚ) * 1.2 + (-3.25 + 3.25) * (-3.25 + 3.25) ≤ 1.5625 ∧
      (draw m c nearTarget1).t1 = 1 ∧ (draw m c nearTarget1).score1 = 0) ∧
    (testedPosition m c nearTarget3 = (10.2, 4) ∧
      ((10.2 : ℚ) - 9) * (10.2 - 9) + (4 - 4) * (4 - 4) ≤ 1.5625 ∧
      (draw m c nearTarget3).t3 = 1 ∧ (draw m c nearTarget3).score3 = 0) := by
  constructor
  · have hp := testedPosition_above m c nearTarget1 (by norm_num [nearTarget1])
    have e := scorePart_draw_flying m c nearTarget1 (Or.inr rfl)
    rw [hp] at e
    simp only [scorePart, Prod.mk.injEq] at e
    obtain ⟨⟨e1, -, -⟩, ⟨e4, -, -⟩, -, -⟩ := e
    refine ⟨?_, by norm_num, ?_, ?_⟩
    · rw [hp]; norm_num [nearTarget1]
    · rw [e1]; norm_num [hit1, nearTarget1, initState]
    · rw [e4]; norm_num [hit1, nearTarget1, initState]
  · have hp := testedPosition_above m c nearTarget3 (by norm_num [nearTarget3])
    have e := scorePart_draw_flying m c nearTarget3 (Or.inr rfl)
    rw [hp] at e
    simp only [scorePart, Prod.mk.injEq] at e
    obtain ⟨⟨-, -, e1⟩, ⟨-, -, e4⟩, -, -⟩ := e
    refine ⟨?_, by norm_num, ?_, ?_⟩
    · rw [hp]; norm_num [nearTarget3]
    · rw [e1]; norm_num [hit3, nearTarget3, initState]
    · rw [e4]; norm_num [hit3, nearTarget3, initState]

/-! ## The three hit regions are pairwise disjoint -/

theorem hit1_bound (x y : ℚ) (h : hit1 x y) : x * x + (y + 3.25) * (y + 3.25) ≤ 1.25 := by
  unfold hit1 at h
  by_contra hc
  push_neg at hc
  nlinarith [mul_self_nonneg x, mul_self_nonneg (y + 3.25)]

theorem hit3_bound (x y : ℚ) (h : hit3 x y) : (x - 9) * (x - 9) + (y - 4) * (y - 4) ≤ 1.25 := by
  unfold hit3 at h
  by_contra hc
  push_neg at hc
  nlinarith [mul_self_nonneg (x - 9), mul_self_nonneg (y - 4)]

theorem hit1_not_hit2 (x y : ℚ) (h : hit1 x y) : ¬ hit2 x y := by
  have hb := hit1_bound x y h
  rintro ⟨h1, -, -, -⟩
  nlinarith [mul_self_nonneg (y + 3.25)]

theorem hit1_not_hit3 (x y : ℚ) (h : hit1 x y) : ¬ hit3 x y := by
  have hb := hit1_bound x y h
  intro h3
  have hc := hit3_bound x y h3
  nlinarith [mul_self_nonneg (x - 9), mul_self_nonneg x, mul_self_nonneg (y + 3.25),
    mul_self_nonneg (y - 4), mul_self_nonneg (y + 1), mul_self_nonneg (y - 2)]

theorem hit2_not_hit3 (x y : ℚ) (h : hit2 x y) : ¬ hit3 x y := by
  obtain ⟨-, -, h3, -⟩ := h
  intro h4
  have hc := hit3_bound x y h4
  nlinarith [mul_self_nonneg (x - 9)]

/-- One input never reactivates a target and never lowers the score. -/
theorem targets_step (m : Trig) (s s1 : State) (e : Event) (h : step m s e = some s1)
    (hs : scoreInv s) :
    (s.t1 = 0 → s1.t1 = 0) ∧ (s.t2 = 0 → s1.t2 = 0) ∧ (s.t3 = 0 → s1.t3 = 0) ∧
      s.score ≤ s1.score := by
  have key : (∃ c, e = .tick c ∧ (s.flag = 1 ∨ s.flag = 2)) ∨ scorePart s1 = scorePart s := by
    cases e with
    | tick c =>
      by_cases hf : s.flag = 1 ∨ s.flag = 2
      · exact Or.inl ⟨c, rfl, hf⟩
      · simp only [step, Option.some.injEq] at h
        subst h; exact Or.inr (scorePart_draw_idle m c s hf)
    | key k a => exact Or.inr (scorePart_step m s s1 _ (by simp) h)
    | char k => exact Or.inr (scorePart_step m s s1 _ (by simp) h)
    | mouse b a => exact Or.inr (scorePart_step m s s1 _ (by simp) h)
    | wheel x y => exact Or.inr (scorePart_step m s s1 _ (by simp) h)
  rcases key with ⟨c, rfl, hf⟩ | hsame
  · simp only [step, Option.some.injEq] at h
    subst h
    have e := scorePart_draw_flying m c s hf
    generalize testedPosition m c s = p at e
    simp only [scorePart, Prod.mk.injEq] at e
    obtain ⟨⟨e1, e2, e3⟩, -, e7, -⟩ := e
    obtain ⟨a1, a2, a3, b1, b2, b3, hsc, -⟩ := hs
    rw [e1, e2, e3, e7, hsc, b1, b2, b3]
    refine ⟨?_, ?_, ?_, ?_⟩
    · intro h0; simp [h0]
    · intro h0; simp [h0]
    · intro h0; simp [h0]
    · rcases a1 with a1 | a1 <;> rcases a2 with a2 | a2 <;> rcases a3 with a3 | a3 <;>
        rw [a1, a2, a3] <;> split_ifs <;> norm_num
  · simp only [scorePart, Prod.mk.injEq] at hsame
    obtain ⟨⟨e1, e2, e3⟩, -, e7, -⟩ := hsame
    rw [e1, e2, e3, e7]
    exact ⟨id, id, id, le_refl _⟩

/-- Along any run no target is reactivated and the score does not decrease. -/
theorem targets_run (m : Trig) (es : List Event) (s s1 : State) (h : run m s es = some s1)
    (hs : scoreInv s) :
    (s.t1 = 0 → s1.t1 = 0) ∧ (s.t2 = 0 → s1.t2 = 0) ∧ (s.t3 = 0 → s1.t3 = 0) ∧
      s.score ≤ s1.score := by
  induction es generalizing s with
  | nil =>
    simp only [run, Option.some.injEq] at h
    subst h; exact ⟨id, id, id, le_refl _⟩
  | cons e es ih =>
    simp only [run] at h
    cases hst : step m s e with
    | none => rw [hst] at h; simp at h
    | some s2 =>
      rw [hst, Option.some_bind] at h
      obtain ⟨p1, p2, p3, p4⟩ := targets_step m s s2 e hst hs
      obtain ⟨q1, q2, q3, q4⟩ := ih s2 h (scoreInv_step m s s2 e hst hs)
      exact ⟨fun x => q1 (p1 x), fun x => q2 (p2 x), fun x => q3 (p3 x), le_trans p4 q4⟩

/-- A tick whose tested position is inside the region of an inactive target
leaves that target, its score and the total score as they were. -/
theorem rehit_idle (m : Trig) (c : Clock) (s : State) (hs : scoreInv s) :
    (s.t1 = 0 → hit1 (testedPosition m c s).1 (testedPosition m c s).2 →
        (draw m c s).t1 = s.t1 ∧ (draw m c s).score1 = s.score1 ∧
          (draw m c s).score = s.score) ∧
      (s.t2 = 0 → hit2 (testedPosition m c s).1 (testedPosition m c s).2 →
        (draw m c s).t2 = s.t2 ∧ (draw m c s).score2 = s.score2 ∧
          (draw m c s).score = s.score) ∧
      (s.t3 = 0 → hit3 (testedPosition m c s).1 (testedPosition m c s).2 →
        (draw m c s).t3 = s.t3 ∧ (draw m c s).score3 = s.score3 ∧
          (draw m c s).score = s.score) := by
  obtain ⟨a1, a2, a3, b1, b2, b3, hsc, -⟩ := hs
  by_cases hf : s.flag = 1 ∨ s.flag = 2
  · have e := scorePart_draw_flying m c s hf
    generalize testedPosition m c s = p at e ⊢
    simp only [scorePart, Prod.mk.injEq] at e
    obtain ⟨⟨e1, e2, e3⟩, ⟨e4, e5, e6⟩, e7, -⟩ := e
    rw [e1, e2, e3, e4, e5, e6, e7, hsc]
    refine ⟨?_, ?_, ?_⟩
    · intro h0 hh
      have n2 := hit1_not_hit2 _ _ hh
      have n3 := hit1_not_hit3 _ _ hh
      rw [if_pos hh, if_pos hh, if_neg n2, if_neg n3, b1, h0]
      simp
    · intro h0 hh
      have n1 : ¬ hit1 p.1 p.2 := fun x => hit1_not_hit2 _ _ x hh
      have n3 := hit2_not_hit3 _ _ hh
      rw [if_pos hh, if_pos hh, if_neg n1, if_neg n3, b2, h0]
      simp
    · intro h0 hh
      have n1 : ¬ hit1 p.1 p.2 := fun x => hit1_not_hit3 _ _ x hh
      have n2 : ¬ hit2 p.1 p.2 := fun x => hit2_not_hit3 _ _ x hh
      rw [if_pos hh, if_pos hh, if_neg n1, if_neg n2, b3, h0]
      simp
  · have e := scorePart_draw_idle m c s hf
    simp only [scorePart, Prod.mk.injEq] at e
    obtain ⟨⟨e1, e2, e3⟩, ⟨e4, e5, e6⟩, e7, -⟩ := e
    rw [e1, e2, e3, e4, e5, e6, e7]
    exact ⟨fun _ _ => ⟨rfl, rfl, rfl⟩, fun _ _ => ⟨rfl, rfl, rfl⟩, fun _ _ => ⟨rfl, rfl, rfl⟩⟩

/-- C4: from a reachable state `s`, along every run of inputs and ticks a
target that is inactive stays inactive and the score does not decrease; and a
tick whose tested position is inside the hit region of an inactive target
leaves that target, its score and the total score exactly as they were. -/
theorem C4_deactivation_permanent (m : Trig) (s s1 : State) (es : List Event)
    (hr : Reachable m s) (hrun : run m s es = some s1) :
    ((s.t1 = 0 → s1.t1 = 0) ∧ (s.t2 = 0 → s1.t2 = 0) ∧ (s.t3 = 0 → s1.t3 = 0) ∧
        s.score ≤ s1.score) ∧
      ∀ c : Clock,
        (s.t1 = 0 → hit1 (testedPosition m c s).1 (testedPosition m c s).2 →
          (draw m c s).t1 = s.t1 ∧ (draw m c s).score1 = s.score1 ∧
            (draw m c s).score = s.score) ∧
        (s.t2 = 0 → hit2 (testedPosition m c s).1 (testedPosition m c s).2 →
          (draw m c s).t2 = s.t2 ∧ (draw m c s).score2 = s.score2 ∧
            (draw m c s).score = s.score) ∧
        (s.t3 = 0 → hit3 (testedPosition m c s).1 (testedPosition m c s).2 →
          (draw m c s).t3 = s.t3 ∧ (draw m c s).score3 = s.score3 ∧
            (draw m c s).score = s.score) :=
  ⟨targets_run m es s s1 hrun (reachable_scoreInv m s hr),
    fun c => rehit_idle m c s (reachable_scoreInv m s hr)⟩

/-! ## The launch power -/

theorem powerPart_keyboard (m : Trig) (k : Key) (a : Action) (s s1 : State)
    (h : keyboard m k a s = some s1) : powerPart s1 = powerPart s := by
  cases a <;> cases k <;> simp only [keyboard, Option.some.injEq, reduceCtorEq] at h <;>
    first
    | (subst h; rfl)
    | (split_ifs at h <;> simp only [Option.some.injEq] at h <;> subst h <;> rfl)

theorem powerPart_keyboardChar (k : Char) (s s1 : State)
    (h : keyboardChar k s = some s1) : powerPart s1 = powerPart s := by
  unfold keyboardChar at h
  split_ifs at h
  simp only [Option.some.injEq] at h
  subst h; rfl

theorem powerPart_mouseButton (m : Trig) (b : Button) (a : Action) (s : State) :
    powerPart (mouseButton m b a s) = powerPart s := by
  cases b <;> cases a <;> simp only [mouseButton] <;> first | rfl | (split_ifs <;> rfl)

theorem powerPart_scroll (x y : ℚ) (s : State) : powerPart (scroll x y s) = powerPart s := by
  unfold scroll; dsimp only; split_ifs <;> rfl

/-- No callback writes `u` or `ay`. -/
theorem powerPart_step (m : Trig) (s s1 : State) (e : Event) (hne : ∀ c, e ≠ .tick c)
    (h : step m s e = some s1) : powerPart s1 = powerPart s := by
  cases e with
  | key k a => exact powerPart_keyboard m k a s s1 h
  | char k => exact powerPart_keyboardChar k s s1 h
  | mouse b a =>
    simp only [step, Option.some.injEq] at h
    subst h; exact powerPart_mouseButton m b a s
  | wheel x y =>
    simp only [step, Option.some.injEq] at h
    subst h; exact powerPart_scroll x y s
  | tick c => exact absurd rfl (hne c)

/-- The Flying block leaves `u` alone or sets it to 5. -/
theorem u_flight (m : Trig) (c : Clock) (s : State) :
    (flight m c s).u = s.u ∨ (flight m c s).u = 5 := by
  have h1 : ∀ s, (placeBall s).u = s.u := fun s => rfl
  have h2 : ∀ s, (stampLaunch c s).u = s.u := fun s => by
    unfold stampLaunch; split_ifs <;> rfl
  have h3 : ∀ s, (kinematics m c s).u = s.u := fun s => by
    unfold kinematics; dsimp only; split_ifs <;> rfl
  have h4 : ∀ s, (boundsReset s).u = s.u ∨ (boundsReset s).u = 5 := fun s => by
    unfold boundsReset; split_ifs
    · exact Or.inr rfl
    · exact Or.inl rfl
  have h5 : ∀ s, (groundContact m s).u = s.u := fun s => by
    unfold groundContact; dsimp only; split_ifs <;> rfl
  have h6 : ∀ s, (hitTarget1 s).u = s.u := fun s => by
    unfold hitTarget1; dsimp only; split_ifs <;> rfl
  have h7 : ∀ s, (hitTarget2 s).u = s.u := fun s => by
    unfold hitTarget2; dsimp only; split_ifs <;> rfl
  have h8 : ∀ s, (hitTarget3 s).u = s.u := fun s => by
    unfold hitTarget3; dsimp only; split_ifs <;> rfl
  have h9 : ∀ s, (tally s).u = s.u := fun s => by
    unfold tally; dsimp only; split_ifs <;> rfl
  have h10 : ∀ s, (obstacle m c s).u = s.u := fun s => by
    unfold obstacle; dsimp only; split_ifs <;> rfl
  unfold flight beforeHitTests
  split_ifs
  · rw [h10, h9, h8, h7, h6, h5]
    rcases h4 (kinematics m c (stampLaunch c (placeBall s))) with h | h
    · rw [h, h3, h2, h1]; exact Or.inl rfl
    · exact Or.inr h
  · exact Or.inl rfl

/-- The charge block never makes a non-negative `u` negative: the discharge
guard is `u >= 0.2`. -/
theorem u_charge_nonneg (s : State) (h : 0 ≤ s.u) : 0 ≤ (charge s).u := by
  unfold charge; dsimp only
  split_ifs <;> simp_all <;> linarith

theorem u_draw_nonneg (m : Trig) (c : Clock) (s : State) (h : 0 ≤ s.u) : 0 ≤ (draw m c s).u := by
  have g := gamePart_prelude s
  simp only [gamePart, Prod.mk.injEq] at g
  obtain ⟨-, ⟨-, -, -, g1, -, -⟩, -⟩ := g
  have i := gamePart_increment (charge (flight m c (viewport (rotateGuards s))))
  simp only [gamePart, Prod.mk.injEq] at i
  obtain ⟨-, ⟨-, -, -, i1, -, -⟩, -⟩ := i
  unfold draw
  rw [i1]
  apply u_charge_nonneg
  rcases u_flight m c (viewport (rotateGuards s)) with hu | hu
  · rw [hu, g1]; exact h
  · rw [hu]; norm_num

theorem reachable_u_nonneg (m : Trig) (s : State) (h : Reachable m s) : 0 ≤ s.u := by
  induction h with
  | init => norm_num [initState]
  | next s s1 e _ hstep ih =>
    cases e with
    | tick c =>
      simp only [step, Option.some.injEq] at hstep
      subst hstep; exact u_draw_nonneg m c s ih
    | key k a =>
      have p := powerPart_step m s s1 _ (by simp) hstep
      simp only [powerPart, Prod.mk.injEq] at p
      rw [p.1]; exact ih
    | char k =>
      have p := powerPart_step m s s1 _ (by simp) hstep
      simp only [powerPart, Prod.mk.injEq] at p
      rw [p.1]; exact ih
    | mouse b a =>
      have p := powerPart_step m s s1 _ (by simp) hstep
      simp only [powerPart, Prod.mk.injEq] at p
      rw [p.1]; exact ih
    | wheel x y =>
      have p := powerPart_step m s s1 _ (by simp) hstep
      simp only [powerPart, Prod.mk.injEq] at p
      rw [p.1]; exact ih

/-- The charge variables after a tick that starts Idle are those left by the
charge block. -/
theorem chargePart_draw_idle (m : Trig) (c : Clock) (s : State) (h0 : s.flag = 0) :
    chargePart (draw m c s) =
      (0, s.flag_f, s.flag_s,
        (if s.flag_s = 1 ∧ (if s.flag_f = 1 then s.u + 0.2 else s.u) ≥ 0.2 then
          (if s.flag_f = 1 then s.u + 0.2 else s.u) - 0.2
        else (if s.flag_f = 1 then s.u + 0.2 else s.u)),
        (if s.flag_s = 1 ∧ (if s.flag_f = 1 then s.u + 0.2 else s.u) ≥ 0.2 then
          (if (if s.flag_f = 1 then (if s.ay < 4.0 then s.ay + 0.05 else s.ay) else s.ay) > 0 then
            (if s.flag_f = 1 then (if s.ay < 4.0 then s.ay + 0.05 else s.ay) else s.ay) - 0.05
          else (if s.flag_f = 1 then (if s.ay < 4.0 then s.ay + 0.05 else s.ay) else s.ay))
        else (if s.flag_f = 1 then (if s.ay < 4.0 then s.ay + 0.05 else s.ay) else s.ay))) := by
  have g := gamePart_prelude s
  simp only [gamePart, Prod.mk.injEq] at g
  obtain ⟨⟨g1, g2, g3⟩, ⟨-, -, -, g4, -, g5⟩, -⟩ := g
  have hx : flight m c (viewport (rotateGuards s)) = viewport (rotateGuards s) := by
    unfold flight
    rw [if_neg (by rw [g1, h0]; norm_num)]
  unfold draw
  rw [hx]
  generalize viewport (rotateGuards s) = x at *
  rw [← g2, ← g3, ← g4, ← g5]
  rw [h0] at g1
  clear g2 g3 g4 g5 hx h0
  unfold chargePart increment charge
  dsimp only
  rw [if_pos g1]
  by_cases hf : x.flag_f = 1 <;> by_cases ha : x.ay < 4.0 <;> simp only [hf, ha, if_true, if_false] <;>
    split_ifs <;> simp_all

/-- Every state produced by a run from a reachable state is reachable. -/
theorem reachable_of_run (m : Trig) (es : List Event) (s s1 : State) (hr : Reachable m s)
    (h : run m s es = some s1) : Reachable m s1 := by
  induction es generalizing s with
  | nil =>
    simp only [run, Option.some.injEq] at h
    subst h; exact hr
  | cons e es ih =>
    simp only [run] at h
    cases hst : step m s e with
    | none => rw [hst] at h; simp at h
    | some s2 =>
      rw [hst, Option.some_bind] at h
      exact ih s2 (Reachable.next s s2 e hr hst) h

/-- With S held while Idle (F up) every tick takes 0.2 from `u`, as long as
`u` is at least 0.2 before the tick. -/
theorem hold_S (m : Trig) (c : Clock) (n : ℕ) (s : State) (h0 : s.flag = 0) (hf : s.flag_f = 0)
    (hs : s.flag_s = 1) (hu : 0.2 * (n : ℚ) ≤ s.u) :
    (run m s (List.replicate n (.tick c))).map (fun x => x.u) = some (s.u - 0.2 * n) := by
  induction n generalizing s with
  | zero => simp [run]
  | succ k ih =>
    have e := chargePart_draw_idle m c s h0
    simp only [chargePart, Prod.mk.injEq] at e
    obtain ⟨e1, e2, e3, e4, -⟩ := e
    push_cast at hu
    have hk : s.u ≥ 0.2 := by
      have : (0 : ℚ) ≤ k := Nat.cast_nonneg k
      linarith
    rw [hf, hs] at e4
    simp only [zero_ne_one, if_false, true_and, if_pos hk] at e4
    simp only [List.replicate_succ, run, step, Option.some_bind]
    rw [ih (draw m c s) e1 (by rw [e2, hf]) (by rw [e3, hs]) (by rw [e4]; linarith), e4]
    push_cast
    congr 1
    ring

/-- C5 as stated fails: from the initial state, pressing S and running 50
ticks brings `u` from 10 down to 0, below 0.2. -/
theorem C5_floor_counterexample :
    ∃ s, run polyTrig initState
        (.key .GLFW_KEY_S .GLFW_PRESS :: List.replicate 50 (.tick ⟨0, 0, 0, 0⟩)) = some s ∧
      s.u < 0.2 := by
  have h := hold_S polyTrig ⟨0, 0, 0, 0⟩ 50 { initState with flag_s := 1 } rfl rfl rfl
    (by norm_num [initState])
  have h2 : run polyTrig initState
      (.key .GLFW_KEY_S .GLFW_PRESS :: List.replicate 50 (.tick ⟨0, 0, 0, 0⟩)) =
      run polyTrig { initState with flag_s := 1 } (List.replicate 50 (.tick ⟨0, 0, 0, 0⟩)) := by
    simp only [run, step, keyboard, Option.some_bind]
  rw [h2]
  cases hr : run polyTrig { initState with flag_s := 1 } (List.replicate 50 (.tick ⟨0, 0, 0, 0⟩)) with
  | none => rw [hr] at h; simp at h
  | some s =>
    rw [hr] at h
    simp only [Option.map_some', Option.some.injEq] at h
    refine ⟨s, rfl, ?_⟩
    rw [h]
    norm_num [initState]

/-- C5 (amended): after every sequence of inputs and ticks from the initial
state the launch speed `u` is at least 0. -/
theorem C5_power_nonneg (m : Trig) (es : List Event) (s : State)
    (h : run m initState es = some s) : 0 ≤ s.u :=
  reachable_u_nonneg m s (reachable_of_run m es initState s Reachable.init h)

/-! ## The launch snapshot -/

/-- The effect of the Flying block on the launch snapshot and power variables:
only the launch stamp (first tick after a launch) and the out-of-bounds reset
write any of them. -/
theorem corePart_flight (m : Trig) (c : Clock) (s : State) (hf : s.flag = 1 ∨ s.flag = 2) :
    corePart (flight m c s) =
      ((if outOfBounds (s.can_x + s.pos_x) (s.can_y + s.pos_y) then 0
          else if s.flag = 1 then 2 else s.flag, s.flag_f, s.flag_s),
        (if outOfBounds (s.can_x + s.pos_x) (s.can_y + s.pos_y) then 5 else s.u,
          if s.flag = 1 then 0 else s.ay),
        (s.angle, s.can_x, s.can_y, if s.flag = 1 then c.launch else s.start_t)) := by
  have h5 : ∀ s, corePart (groundContact m s) = corePart s := fun s => by
    unfold groundContact; dsimp only; split_ifs <;> rfl
  have h6 : ∀ s, corePart (hitTarget1 s) = corePart s := fun s => by
    unfold hitTarget1; dsimp only; split_ifs <;> rfl
  have h7 : ∀ s, corePart (hitTarget2 s) = corePart s := fun s => by
    unfold hitTarget2; dsimp only; split_ifs <;> rfl
  have h8 : ∀ s, corePart (hitTarget3 s) = corePart s := fun s => by
    unfold hitTarget3; dsimp only; split_ifs <;> rfl
  have h9 : ∀ s, corePart (tally s) = corePart s := fun s => by
    unfold tally; dsimp only; split_ifs <;> rfl
  have h10 : ∀ s, corePart (obstacle m c s) = corePart s := fun s => by
    unfold obstacle; dsimp only
    split_ifs <;> first | rfl | (exfalso; simp_all)
  unfold flight beforeHitTests
  rw [if_pos hf, h10, h9, h8, h7, h6, h5]
  unfold boundsReset kinematics stampLaunch placeBall corePart
  dsimp only
  by_cases h1 : s.flag = 1 <;>
    by_cases ho : outOfBounds (s.can_x + s.pos_x) (s.can_y + s.pos_y) <;>
    simp only [h1, ho, if_true, if_false] <;> split_ifs <;> simp_all

theorem snapPart_keyboard (m : Trig) (k : Key) (a : Action) (s s1 : State) (hf : s.flag ≠ 0)
    (h : keyboard m k a s = some s1) : snapPart s1 = snapPart s := by
  cases a <;> cases k <;> simp only [keyboard, Option.some.injEq, reduceCtorEq, if_neg hf] at h <;>
    subst h <;> rfl

theorem snapPart_keyboardChar (k : Char) (s s1 : State)
    (h : keyboardChar k s = some s1) : snapPart s1 = snapPart s := by
  unfold keyboardChar at h
  split_ifs at h
  simp only [Option.some.injEq] at h
  subst h; rfl

theorem snapPart_mouseButton (m : Trig) (b : Button) (a : Action) (s : State) (hf : s.flag ≠ 0) :
    snapPart (mouseButton m b a s) = snapPart s := by
  cases b <;> cases a <;> simp only [mouseButton, if_neg hf] <;> rfl

theorem snapPart_scroll (x y : ℚ) (s : State) : snapPart (scroll x y s) = snapPart s := by
  unfold scroll; dsimp only; split_ifs <;> rfl

theorem charge_of_flying (s : State) (h : s.flag ≠ 0) : charge s = s := by
  unfold charge; rw [if_neg h]

theorem flag_charge (s : State) : (charge s).flag = s.flag := by
  unfold charge; dsimp only; split_ifs <;> rfl

/-- A tick that ends with `flag` not 0 keeps the trajectory
parameters. -/
theorem snapPart_draw (m : Trig) (c : Clock) (s : State)
    (h1 : (draw m c s).flag ≠ 0) : snapPart (draw m c s) = snapPart s := by
  have g := gamePart_prelude s
  simp only [gamePart, Prod.mk.injEq] at g
  obtain ⟨⟨g1, -, -⟩, ⟨g2, g3, -, g4, g5, -⟩, ⟨-, -, g6, g7, -, -⟩, -⟩ := g
  have i := gamePart_increment (charge (flight m c (viewport (rotateGuards s))))
  simp only [gamePart, Prod.mk.injEq] at i
  obtain ⟨⟨i1, -, -⟩, ⟨i2, i3, -, i4, i5, -⟩, -⟩ := i
  have hd : (draw m c s).flag = (flight m c (viewport (rotateGuards s))).flag := by
    unfold draw; rw [i1, flag_charge]
  rw [hd] at h1
  have hc := charge_of_flying _ h1
  unfold snapPart draw
  rw [i2, i3, i4, i5, hc]
  generalize viewport (rotateGuards s) = x at *
  rw [← g2, ← g3, ← g4, ← g5]
  by_cases hfl : x.flag = 1 ∨ x.flag = 2
  · have e := corePart_flight m c x hfl
    simp only [corePart, Prod.mk.injEq] at e
    obtain ⟨⟨e1, -, -⟩, ⟨e2, -⟩, e3, e4, e5, -⟩ := e
    rw [e3, e4, e5, e2]
    by_cases ho : outOfBounds (x.can_x + x.pos_x) (x.can_y + x.pos_y)
    · rw [e1, if_pos ho] at h1
      exact absurd rfl h1
    · rw [if_neg ho]
  · unfold flight
    rw [if_neg hfl]

/-- One input that finds and leaves the projectile Flying keeps the
trajectory parameters. -/
theorem snapPart_step (m : Trig) (s s1 : State) (e : Event) (hf : s.flag ≠ 0)
    (h : step m s e = some s1) (h1 : s1.flag ≠ 0) : snapPart s1 = snapPart s := by
  cases e with
  | key k a => exact snapPart_keyboard m k a s s1 hf h
  | char k => exact snapPart_keyboardChar k s s1 h
  | mouse b a =>
    simp only [step, Option.some.injEq] at h
    subst h; exact snapPart_mouseButton m b a s hf
  | wheel x y =>
    simp only [step, Option.some.injEq] at h
    subst h; exact snapPart_scroll x y s
  | tick c =>
    simp only [step, Option.some.injEq] at h
    subst h; exact snapPart_draw m c s h1

theorem snapPart_flightRun (m : Trig) (es : List Event) (s s1 : State) (hf : s.flag ≠ 0)
    (h : flightRun m s es = some s1) : snapPart s1 = snapPart s := by
  induction es generalizing s with
  | nil =>
    simp only [flightRun, Option.some.injEq] at h
    subst h; rfl
  | cons e es ih =>
    simp only [flightRun] at h
    cases hst : step m s e with
    | none => rw [hst] at h; simp at h
    | some s2 =>
      rw [hst] at h
      dsimp only at h
      by_cases h2 : s2.flag = 0
      · rw [if_pos h2] at h; simp at h
      · rw [if_neg h2] at h
        rw [ih s2 h2 h, snapPart_step m s s2 e hf hst h2]

/-- C6: from a launch out of an Idle state `s` (Space pressed or the left
button released), for every sequence of inputs and ticks after each of which
the projectile is still Flying, the launch angle, the launch origin and the
launch speed keep their launch-time values: the angle is the `canon_rotation`
of the launch, the origin is the muzzle position computed from it, the speed is
the `u` of the launch. -/
theorem C6_launch_snapshot (m : Trig) (s s1 : State) (es : List Event) (h0 : s.flag = 0)
    (h : flightRun m (mouseButton m .GLFW_MOUSE_BUTTON_LEFT .GLFW_RELEASE s) es = some s1 ∨
      ∃ s0, keyboard m .GLFW_KEY_SPACE .GLFW_PRESS s = some s0 ∧ flightRun m s0 es = some s1) :
    s1.angle = s.canon_rotation ∧
      s1.can_x = -12 + 2 * m.cos (DEG2RAD (s.canon_rotation + m.atan (0.5 / 2))) ∧
      s1.can_y = -6.5 + 2 * m.sin (DEG2RAD (s.canon_rotation + m.atan (0.5 / 2))) ∧
      s1.u = s.u := by
  rcases h with h | ⟨s0, hk, h⟩
  · have e := snapPart_flightRun m es _ s1 (by simp [mouseButton, h0]) h
    simp only [snapPart, Prod.mk.injEq] at e
    obtain ⟨e1, e2, e3, e4⟩ := e
    rw [e1, e2, e3, e4]
    simp [mouseButton, h0]
  · simp only [keyboard, if_pos h0, Option.some.injEq] at hk
    subst hk
    have e := snapPart_flightRun m es _ s1 (by simp) h
    simp only [snapPart, Prod.mk.injEq] at e
    obtain ⟨e1, e2, e3, e4⟩ := e
    rw [e1, e2, e3, e4]
    exact ⟨rfl, rfl, rfl, rfl⟩

/-! ## The fire signal -/

/-- C7: with `flag` not 0, pressing Space and releasing the left button each
leave the whole state unchanged (so `flag`, `angle`, `can_x`, `can_y`,
`start_t` and `u` are unchanged); with `flag = 0` each sets `flag = 1` and
`angle = canon_rotation`. -/
theorem C7_fire_only_when_idle (m : Trig) (s : State) :
    (s.flag ≠ 0 →
        keyboard m .GLFW_KEY_SPACE .GLFW_PRESS s = some s ∧
          mouseButton m .GLFW_MOUSE_BUTTON_LEFT .GLFW_RELEASE s = s) ∧
      (s.flag = 0 →
        (∃ s1, keyboard m .GLFW_KEY_SPACE .GLFW_PRESS s = some s1 ∧ s1.flag = 1 ∧
          s1.angle = s.canon_rotation) ∧
        (mouseButton m .GLFW_MOUSE_BUTTON_LEFT .GLFW_RELEASE s).flag = 1 ∧
        (mouseButton m .GLFW_MOUSE_BUTTON_LEFT .GLFW_RELEASE s).angle = s.canon_rotation) := by
  constructor
  · intro h
    simp only [keyboard, mouseButton, if_neg h, and_self]
  · intro h
    refine ⟨?_, ?_, ?_⟩
    · simp only [keyboard, if_pos h]
      exact ⟨_, rfl, rfl, rfl⟩
    · simp only [mouseButton, if_pos h]
    · simp only [mouseButton, if_pos h]

/-- C7 at the Flying state `nearTarget1` and at the Idle initial state. -/
theorem C7_fire_only_when_idle_witness :
    (nearTarget1.flag ≠ 0 ∧
        keyboard polyTrig .GLFW_KEY_SPACE .GLFW_PRESS nearTarget1 = some nearTarget1 ∧
        mouseButton polyTrig .GLFW_MOUSE_BUTTON_LEFT .GLFW_RELEASE nearTarget1 = nearTarget1) ∧
      (initState.flag = 0 ∧
        (mouseButton polyTrig .GLFW_MOUSE_BUTTON_LEFT .GLFW_RELEASE initState).flag = 1 ∧
        (mouseButton polyTrig .GLFW_MOUSE_BUTTON_LEFT .GLFW_RELEASE initState).angle =
          initState.canon_rotation) :=
  ⟨⟨by decide, (C7_fire_only_when_idle polyTrig nearTarget1).1 (by decide)⟩,
    ⟨rfl, ((C7_fire_only_when_idle polyTrig initState).2 rfl).2⟩⟩

/-! ## The flight formula -/

theorem ballPart_charge (s : State) : ballPart (charge s) = ballPart s := by
  unfold charge; dsimp only; split_ifs <;> rfl

/-- The target tests and the tally do not move the ball. -/
theorem ballPart_scoring (s : State) :
    ballPart (tally (hitTarget3 (hitTarget2 (hitTarget1 s)))) = ballPart s := by
  have h6 : ∀ s, ballPart (hitTarget1 s) = ballPart s := fun s => by
    unfold hitTarget1; dsimp only; split_ifs <;> rfl
  have h7 : ∀ s, ballPart (hitTarget2 s) = ballPart s := fun s => by
    unfold hitTarget2; dsimp only; split_ifs <;> rfl
  have h8 : ∀ s, ballPart (hitTarget3 s) = ballPart s := fun s => by
    unfold hitTarget3; dsimp only; split_ifs <;> rfl
  have h9 : ∀ s, ballPart (tally s) = ballPart s := fun s => by
    unfold tally; dsimp only; split_ifs <;> rfl
  rw [h9, h8, h7, h6]

/-- The ball after the Flying block when the position tested is outside every
obstacle zone: the obstacle branch is not taken. -/
theorem ballPart_flight_clear (m : Trig) (c : Clock) (s : State) (hf : s.flag = 1 ∨ s.flag = 2)
    (hno : ¬ inObstacle (beforeHitTests m c s).bx (beforeHitTests m c s).by_) :
    ballPart (flight m c s) = ballPart (beforeHitTests m c s) := by
  unfold flight
  rw [if_pos hf]
  have e := ballPart_scoring (beforeHitTests m c s)
  generalize beforeHitTests m c s = p at *
  have e2 := e
  simp only [ballPart, Prod.mk.injEq] at e2
  obtain ⟨⟨e3, e4⟩, -⟩ := e2
  unfold obstacle
  rw [if_neg (by rw [e3, e4]; exact hno)]
  exact e

/-- Above the ground line and inside the world the state before the target
tests carries the flight formula of lines 1160-1172. -/
theorem ballPart_beforeHitTests (m : Trig) (c : Clock) (s : State)
    (hy : s.can_y + s.pos_y > -7.25)
    (hin : ¬ outOfBounds (s.can_x + s.pos_x) (s.can_y + s.pos_y)) :
    ballPart (beforeHitTests m c s) =
      ((s.can_x + s.pos_x, s.can_y + s.pos_y),
        c.update - (if s.flag = 1 then c.launch else s.start_t),
        s.u * m.cos (DEG2RAD s.angle) * (c.update - (if s.flag = 1 then c.launch else s.start_t)),
        s.u * m.sin (DEG2RAD s.angle) * (c.update - (if s.flag = 1 then c.launch else s.start_t)) -
          0.5 * 9.8 * (c.update - (if s.flag = 1 then c.launch else s.start_t)) *
            (c.update - (if s.flag = 1 then c.launch else s.start_t))) := by
  have hg : ¬ (s.can_y + s.pos_y ≤ -7.25) := not_le.mpr hy
  unfold beforeHitTests groundContact boundsReset kinematics stampLaunch placeBall ballPart
  dsimp only
  by_cases h1 : s.flag = 1 <;> simp only [h1, if_true, if_false] <;>
    simp only [hy, hin, hg, if_true, if_false]

/-- The launch snapshot and power variables after a tick that starts Flying
with the tested position inside the world: the charge block is skipped. -/
theorem corePart_draw_inside (m : Trig) (c : Clock) (s : State) (hf : s.flag = 1 ∨ s.flag = 2)
    (hin : ¬ outOfBounds (s.can_x + s.pos_x) (s.can_y + s.pos_y)) :
    corePart (draw m c s) =
      ((2, s.flag_f, s.flag_s), (s.u, if s.flag = 1 then 0 else s.ay),
        (s.angle, s.can_x, s.can_y, if s.flag = 1 then c.launch else s.start_t)) := by
  have g := gamePart_prelude s
  simp only [gamePart, Prod.mk.injEq] at g
  obtain ⟨⟨g1, g2, g3⟩, ⟨g4, g5, g6, g7, g8, g9⟩, ⟨-, -, g10, g11, -, -⟩, -⟩ := g
  have i := gamePart_increment (charge (flight m c (viewport (rotateGuards s))))
  simp only [gamePart, Prod.mk.injEq] at i
  obtain ⟨⟨i1, i2, i3⟩, ⟨i4, i5, i6, i7, i8, i9⟩, -⟩ := i
  unfold draw corePart
  rw [i1, i2, i3, i4, i5, i6, i7, i8, i9]
  generalize viewport (rotateGuards s) = x at *
  rw [← g1] at hf
  rw [← g4, ← g5, ← g10, ← g11] at hin
  have e := corePart_flight m c x hf
  rw [if_neg hin, if_neg hin] at e
  have hfl : (flight m c x).flag = 2 := by
    simp only [corePart, Prod.mk.injEq] at e
    rw [e.1.1]
    rcases hf with h | h <;> simp [h]
  rw [charge_of_flying _ (by rw [hfl]; norm_num)]
  simp only [corePart, Prod.mk.injEq] at e
  obtain ⟨⟨-, e2, e3⟩, ⟨e4, e5⟩, e6, e7, e8, e9⟩ := e
  rw [hfl, e2, e3, e4, e5, e6, e7, e8, e9, g1, g2, g3, g4, g5, g6, g7, g8, g9]

/-- The ball after a tick that starts Flying with the tested position above
the ground line, inside the world and outside every obstacle zone. -/
theorem ballPart_draw_free (m : Trig) (c : Clock) (s : State) (hf : s.flag = 1 ∨ s.flag = 2)
    (hy : s.can_y + s.pos_y > -7.25)
    (hin : ¬ outOfBounds (s.can_x + s.pos_x) (s.can_y + s.pos_y))
    (hno : ¬ inObstacle (s.can_x + s.pos_x) (s.can_y + s.pos_y)) :
    ballPart (draw m c s) =
      ((s.can_x + s.pos_x, s.can_y + s.pos_y),
        c.update - (if s.flag = 1 then c.launch else s.start_t),
        s.u * m.cos (DEG2RAD s.angle) * (c.update - (if s.flag = 1 then c.launch else s.start_t)),
        s.u * m.sin (DEG2RAD s.angle) * (c.update - (if s.flag = 1 then c.launch else s.start_t)) -
          0.5 * 9.8 * (c.update - (if s.flag = 1 then c.launch else s.start_t)) *
            (c.update - (if s.flag = 1 then c.launch else s.start_t))) := by
  have g := gamePart_prelude s
  simp only [gamePart, Prod.mk.injEq] at g
  obtain ⟨⟨g1, -, -⟩, ⟨g4, g5, g6, g7, g8, -⟩, ⟨-, -, g10, g11, -, -⟩, -⟩ := g
  have i := gamePart_increment (charge (flight m c (viewport (rotateGuards s))))
  simp only [gamePart, Prod.mk.injEq] at i
  obtain ⟨-, -, ⟨i1, -, i2, i3, i4, i5⟩, -⟩ := i
  have hd : ballPart (draw m c s) =
      ballPart (charge (flight m c (viewport (rotateGuards s)))) := by
    unfold draw ballPart
    rw [i1, i2, i3, i4, i5]
  rw [hd, ballPart_charge]
  generalize viewport (rotateGuards s) = x at *
  rw [← g1, ← g4, ← g5, ← g6, ← g7, ← g8, ← g10, ← g11]
  rw [← g1] at hf
  rw [← g5, ← g11] at hy
  rw [← g4, ← g5, ← g10, ← g11] at hin hno
  have hp := beforeHitTests_position m c x hy
  rw [ballPart_flight_clear m c x hf (by rw [hp.1, hp.2]; exact hno)]
  exact ballPart_beforeHitTests m c x hy hin

/-- C8: in a Flying tick whose tested position `(bx, by) = (can_x + pos_x,
can_y + pos_y)` is above the ground line, inside the world bounds and outside
every obstacle zone, with `t` the time read at line 1160 minus the start time
of the flight, the tick leaves `pos_x = u*cos(a)*t` and
`pos_y = u*sin(a)*t - 0.5*9.8*t*t` with `a = DEG2RAD angle`; the projectile is
still Flying and the next tested position is `(can_x + pos_x, can_y + pos_y)`
for these new values. -/
theorem C8_free_flight (m : Trig) (c : Clock) (s : State) (hf : s.flag = 1 ∨ s.flag = 2)
    (hy : s.can_y + s.pos_y > -7.25)
    (hbx : -16 ≤ s.can_x + s.pos_x ∧ s.can_x + s.pos_x ≤ 16)
    (hby : -8 ≤ s.can_y + s.pos_y ∧ s.can_y + s.pos_y ≤ 8)
    (hno : ¬ inObstacle (s.can_x + s.pos_x) (s.can_y + s.pos_y)) :
    (draw m c s).t = c.update - (draw m c s).start_t ∧
      (draw m c s).start_t = (if s.flag = 1 then c.launch else s.start_t) ∧
      (draw m c s).pos_x = s.u * m.cos (DEG2RAD s.angle) * (draw m c s).t ∧
      (draw m c s).pos_y =
        s.u * m.sin (DEG2RAD s.angle) * (draw m c s).t -
          0.5 * 9.8 * (draw m c s).t * (draw m c s).t ∧
      (draw m c s).flag = 2 ∧
      (draw m c s).can_x + (draw m c s).pos_x =
        s.can_x + s.u * m.cos (DEG2RAD s.angle) * (draw m c s).t ∧
      (draw m c s).can_y + (draw m c s).pos_y =
        s.can_y + (s.u * m.sin (DEG2RAD s.angle) * (draw m c s).t -
          0.5 * 9.8 * (draw m c s).t * (draw m c s).t) := by
  have hin : ¬ outOfBounds (s.can_x + s.pos_x) (s.can_y + s.pos_y) := by
    unfold outOfBounds
    push_neg
    refine ⟨?_, ?_, ?_, ?_⟩ <;> norm_num <;> linarith
  have b := ballPart_draw_free m c s hf hy hin hno
  have k := corePart_draw_inside m c s hf hin
  simp only [ballPart, Prod.mk.injEq] at b
  simp only [corePart, Prod.mk.injEq] at k
  obtain ⟨-, b1, b2, b3⟩ := b
  obtain ⟨⟨k1, -, -⟩, -, -, k2, k3, k4⟩ := k
  rw [k1, k2, k3, k4, b1, b2, b3]
  exact ⟨rfl, rfl, rfl, rfl, rfl, rfl, rfl⟩

/-- C8 at the Flying state `nearTarget1`, one second into the flight. -/
theorem C8_free_flight_witness :
    ((nearTarget1.flag = 1 ∨ nearTarget1.flag = 2) ∧
        nearTarget1.can_y + nearTarget1.pos_y > -7.25 ∧
        ¬ inObstacle (nearTarget1.can_x + nearTarget1.pos_x)
          (nearTarget1.can_y + nearTarget1.pos_y)) ∧
      (draw polyTrig ⟨0, 1, 1, 1⟩ nearTarget1).t =
        1 - (draw polyTrig ⟨0, 1, 1, 1⟩ nearTarget1).start_t ∧
      (draw polyTrig ⟨0, 1, 1, 1⟩ nearTarget1).start_t = 0 :=
  have h := C8_free_flight polyTrig ⟨0, 1, 1, 1⟩ nearTarget1 (Or.inr rfl)
    (by norm_num [nearTarget1]) (by norm_num [nearTarget1]) (by norm_num [nearTarget1])
    (by norm_num [nearTarget1, inObstacle])
  ⟨⟨Or.inr rfl, by norm_num [nearTarget1], by norm_num [nearTarget1, inObstacle]⟩, h.1, h.2.1⟩

/-! ## Ground contact -/

/-- At or below the ground line the state before the target tests is the one
left by the out-of-bounds reset followed by the ground-contact block. -/
theorem ballPart_beforeHitTests_ground (m : Trig) (c : Clock) (s : State)
    (hy : s.can_y + s.pos_y ≤ -7.25) :
    ballPart (beforeHitTests m c s) =
      (if ((toInt ((if outOfBounds (s.can_x + s.pos_x) (s.can_y + s.pos_y) then 5 else s.u) -
            0.1 * 9.8 * (c.update - (if s.flag = 1 then c.launch else s.start_t))) : Int) : ℚ)
          < -0.02 then
        ((19.0, -10), c.update - (if s.flag = 1 then c.launch else s.start_t), 0, 0)
      else
        ((s.can_x + s.pos_x,
            if outOfBounds (s.can_x + s.pos_x) (s.can_y + s.pos_y) then 0 else s.pos_y),
          c.update - (if s.flag = 1 then c.launch else s.start_t),
          (if outOfBounds (s.can_x + s.pos_x) (s.can_y + s.pos_y) then 5 else s.u) *
              m.cos (DEG2RAD 0) * (c.update - (if s.flag = 1 then c.launch else s.start_t)) -
            0.5 * 0.1 * 9.8 * (c.update - (if s.flag = 1 then c.launch else s.start_t)) *
              (c.update - (if s.flag = 1 then c.launch else s.start_t)),
          if outOfBounds (s.can_x + s.pos_x) (s.can_y + s.pos_y) then 0 else s.pos_y)) := by
  have hg : ¬ (s.can_y + s.pos_y > -7.25) := not_lt.mpr hy
  unfold beforeHitTests groundContact boundsReset kinematics stampLaunch placeBall ballPart
  dsimp only
  by_cases h1 : s.flag = 1 <;>
    by_cases ho : outOfBounds (s.can_x + s.pos_x) (s.can_y + s.pos_y) <;>
    simp only [h1, ho, hy, hg, if_true, if_false] <;>
    split_ifs <;> rfl

/-- The comparison `lala < -.02` of line 1193 on the truncated value: it
holds exactly when the untruncated value is at most -1. -/
theorem toInt_spent_iff (q : ℚ) : ((toInt q : Int) : ℚ) < -0.02 ↔ q ≤ -1 := by
  have hd : (0 : Int) < (q.den : Int) := by exact_mod_cast q.pos
  have hq : q = (q.num : ℚ) / (q.den : ℚ) := (Rat.num_div_den q).symm
  have hdq : (0 : ℚ) < (q.den : ℚ) := by exact_mod_cast q.pos
  have key : toInt q ≤ -1 ↔ q.num ≤ -(q.den : Int) := by
    unfold toInt
    constructor
    · intro h
      by_contra hc
      push_neg at hc
      by_cases hn : 0 ≤ q.num
      · have := Int.tdiv_nonneg hn (le_of_lt hd)
        omega
      · push_neg at hn
        have h1 : (-q.num).tdiv q.den = 0 :=
          Int.tdiv_eq_zero_of_lt (by omega) (by omega)
        rw [Int.neg_tdiv] at h1
        omega
    · intro h
      have h1 : (1 : Int) ≤ (-q.num) / (q.den : Int) :=
        Int.le_ediv_of_mul_le hd (by omega)
      have h2 : (-q.num).tdiv q.den = (-q.num) / (q.den : Int) :=
        Int.tdiv_eq_ediv (by omega) (le_of_lt hd)
      rw [Int.neg_tdiv] at h2
      omega
  constructor
  · intro h
    have h1 : toInt q ≤ -1 := by
      by_contra hc
      push_neg at hc
      have : (0 : Int) ≤ toInt q := by omega
      have : (0 : ℚ) ≤ ((toInt q : Int) : ℚ) := by exact_mod_cast this
      norm_num at h
      linarith
    have h2 := key.mp h1
    have h3 : (q.num : ℚ) ≤ -(q.den : ℚ) := by exact_mod_cast h2
    rw [hq, div_le_iff₀ hdq]
    linarith
  · intro h
    rw [hq, div_le_iff₀ hdq] at h
    have h3 : q.num ≤ -(q.den : Int) := by
      have : (q.num : ℚ) ≤ ((-(q.den : Int) : Int) : ℚ) := by push_cast; linarith
      exact_mod_cast this
    have h1 := key.mpr h3
    have : ((toInt q : Int) : ℚ) ≤ ((-1 : Int) : ℚ) := by exact_mod_cast h1
    norm_num at this ⊢
    linarith

/-! ## The out-of-bounds reset -/

/-- The charge block on an Idle state, in closed form. -/
theorem chargePart_charge (y : State) (h0 : y.flag = 0) :
    chargePart (charge y) =
      (0, y.flag_f, y.flag_s, chargedU y.flag_f y.flag_s y.u,
        chargedAy y.flag_f y.flag_s y.u y.ay) := by
  unfold chargePart charge chargedU chargedAy
  dsimp only
  rw [if_pos h0]
  by_cases hf : y.flag_f = 1 <;> by_cases ha : y.ay < 4.0 <;>
    simp only [hf, ha, if_true, if_false] <;> split_ifs <;> simp_all

/-- A tick that starts Flying with the tested position outside the world ends
Idle, and its charge block runs on `u = 5`. -/
theorem chargePart_draw_outside (m : Trig) (c : Clock) (s : State)
    (hf : s.flag = 1 ∨ s.flag = 2)
    (ho : outOfBounds (s.can_x + s.pos_x) (s.can_y + s.pos_y)) :
    chargePart (draw m c s) =
      (0, s.flag_f, s.flag_s, chargedU s.flag_f s.flag_s 5,
        chargedAy s.flag_f s.flag_s 5 (if s.flag = 1 then 0 else s.ay)) := by
  have g := gamePart_prelude s
  simp only [gamePart, Prod.mk.injEq] at g
  obtain ⟨⟨g1, g2, g3⟩, ⟨g4, g5, -, -, -, g9⟩, ⟨-, -, g10, g11, -, -⟩, -⟩ := g
  have i := gamePart_increment (charge (flight m c (viewport (rotateGuards s))))
  simp only [gamePart, Prod.mk.injEq] at i
  obtain ⟨⟨i1, i2, i3⟩, ⟨-, -, -, i7, -, i9⟩, -⟩ := i
  have hd : chargePart (draw m c s) =
      chargePart (charge (flight m c (viewport (rotateGuards s)))) := by
    unfold draw chargePart
    rw [i1, i2, i3, i7, i9]
  rw [hd]
  generalize viewport (rotateGuards s) = x at *
  rw [← g1] at hf
  rw [← g4, ← g5, ← g10, ← g11] at ho
  have e := corePart_flight m c x hf
  rw [if_pos ho, if_pos ho] at e
  simp only [corePart, Prod.mk.injEq] at e
  obtain ⟨⟨e1, e2, e3⟩, ⟨e4, e5⟩, -⟩ := e
  rw [chargePart_charge _ e1, e2, e3, e4, e5, g1, g2, g3, g9]

/-- The ball after a tick that starts Flying, when the position tested is
outside every obstacle zone. -/
theorem ballPart_draw_clear (m : Trig) (c : Clock) (s : State) (hf : s.flag = 1 ∨ s.flag = 2)
    (hno : ¬ inObstacle (testedPosition m c s).1 (testedPosition m c s).2) :
    ballPart (draw m c s) = ballPart (beforeHitTests m c (viewport (rotateGuards s))) := by
  have g := gamePart_prelude s
  simp only [gamePart, Prod.mk.injEq] at g
  obtain ⟨⟨g1, -, -⟩, -⟩ := g
  have i := gamePart_increment (charge (flight m c (viewport (rotateGuards s))))
  simp only [gamePart, Prod.mk.injEq] at i
  obtain ⟨-, -, ⟨i1, -, i2, i3, i4, i5⟩, -⟩ := i
  have hd : ballPart (draw m c s) =
      ballPart (charge (flight m c (viewport (rotateGuards s)))) := by
    unfold draw ballPart
    rw [i1, i2, i3, i4, i5]
  rw [hd, ballPart_charge]
  exact ballPart_flight_clear m c _ (by rw [g1]; exact hf) hno

/-- The state before the target tests of a tick whose tested position is at or
below the ground line, in terms of the state at the start of the tick. -/
theorem ballPart_prelude_ground (m : Trig) (c : Clock) (s : State)
    (hy : s.can_y + s.pos_y ≤ -7.25) :
    ballPart (beforeHitTests m c (viewport (rotateGuards s))) =
      (if ((toInt ((if outOfBounds (s.can_x + s.pos_x) (s.can_y + s.pos_y) then 5 else s.u) -
            0.1 * 9.8 * (c.update - (if s.flag = 1 then c.launch else s.start_t))) : Int) : ℚ)
          < -0.02 then
        ((19.0, -10), c.update - (if s.flag = 1 then c.launch else s.start_t), 0, 0)
      else
        ((s.can_x + s.pos_x,
            if outOfBounds (s.can_x + s.pos_x) (s.can_y + s.pos_y) then 0 else s.pos_y),
          c.update - (if s.flag = 1 then c.launch else s.start_t),
          (if outOfBounds (s.can_x + s.pos_x) (s.can_y + s.pos_y) then 5 else s.u) *
              m.cos (DEG2RAD 0) * (c.update - (if s.flag = 1 then c.launch else s.start_t)) -
            0.5 * 0.1 * 9.8 * (c.update - (if s.flag = 1 then c.launch else s.start_t)) *
              (c.update - (if s.flag = 1 then c.launch else s.start_t)),
          if outOfBounds (s.can_x + s.pos_x) (s.can_y + s.pos_y) then 0 else s.pos_y)) := by
  have g := gamePart_prelude s
  simp only [gamePart, Prod.mk.injEq] at g
  obtain ⟨⟨g1, -, -⟩, ⟨g4, g5, g6, g7, -, -⟩, ⟨-, -, g10, g11, -, -⟩, -⟩ := g
  rw [← g1, ← g4, ← g5, ← g6, ← g7, ← g10, ← g11]
  rw [← g5, ← g11] at hy
  exact ballPart_beforeHitTests_ground m c _ hy

/-- C9 (the reset is overwritten at the ground line): in the Flying tick at
`groundExit`, whose tested position (16.5, -7.3) is outside the world and at
the ground line, three seconds into the flight, the tick ends Idle with
`u = 5` and `pos_y = 0`, but `pos_x` is left at `5*cos(0)*3 - 0.5*0.1*9.8*3*3`
by the ground-contact block that runs after the reset; with `cos 0 = 1` that is
10.59, not 0. -/
theorem C9_reset_overwritten (m : Trig) :
    outOfBounds (groundExit.can_x + groundExit.pos_x) (groundExit.can_y + groundExit.pos_y) ∧
      (draw m ⟨0, 3, 3, 3⟩ groundExit).flag = 0 ∧
      (draw m ⟨0, 3, 3, 3⟩ groundExit).u = 5 ∧
      (draw m ⟨0, 3, 3, 3⟩ groundExit).pos_y = 0 ∧
      (draw m ⟨0, 3, 3, 3⟩ groundExit).pos_x =
        5 * m.cos (DEG2RAD 0) * 3 - 0.5 * 0.1 * 9.8 * 3 * 3 ∧
      (draw polyTrig ⟨0, 3, 3, 3⟩ groundExit).pos_x = 10.59 := by
  have ho : outOfBounds (groundExit.can_x + groundExit.pos_x)
      (groundExit.can_y + groundExit.pos_y) := by
    norm_num [outOfBounds, groundExit]
  have hy : groundExit.can_y + groundExit.pos_y ≤ -7.25 := by norm_num [groundExit]
  have hnot : ¬ (((toInt ((if outOfBounds (groundExit.can_x + groundExit.pos_x)
      (groundExit.can_y + groundExit.pos_y) then 5 else groundExit.u) -
      0.1 * 9.8 * ((⟨0, 3, 3, 3⟩ : Clock).update -
        (if groundExit.flag = 1 then (⟨0, 3, 3, 3⟩ : Clock).launch else groundExit.start_t))) :
      Int) : ℚ) < -0.02) := by
    rw [toInt_spent_iff, if_pos ho]
    norm_num [groundExit, initState]
  have key : ∀ m : Trig, ballPart (draw m ⟨0, 3, 3, 3⟩ groundExit) =
      ((16.5, 0), 3, 5 * m.cos (DEG2RAD 0) * 3 - 0.5 * 0.1 * 9.8 * 3 * 3, 0) := by
    intro m
    have p := ballPart_prelude_ground m ⟨0, 3, 3, 3⟩ groundExit hy
    rw [if_neg hnot] at p
    simp only [if_pos ho] at p
    have p2 := p
    simp only [ballPart, Prod.mk.injEq] at p2
    obtain ⟨⟨p3, p4⟩, -⟩ := p2
    rw [ballPart_draw_clear m ⟨0, 3, 3, 3⟩ groundExit (Or.inr rfl)
      (by unfold testedPosition; rw [p3, p4]; norm_num [inObstacle, groundExit]), p]
    norm_num [groundExit, initState]
  have k := chargePart_draw_outside m ⟨0, 3, 3, 3⟩ groundExit (Or.inr rfl) ho
  simp only [chargePart, Prod.mk.injEq] at k
  obtain ⟨k1, -, -, k4, -⟩ := k
  have b := key m
  have b2 := key polyTrig
  simp only [ballPart, Prod.mk.injEq] at b b2
  refine ⟨ho, k1, ?_, b.2.2.2, b.2.2.1, ?_⟩
  · rw [k4]; norm_num [chargedU, groundExit, initState]
  · rw [b2.2.2.1]; norm_num [polyTrig, DEG2RAD]

/-- C10 as stated fails: in the Flying tick at `rightExit`, whose tested
position (17, 0) is outside the world, the tick ends with `u = 5.2` when the
charge flag is set and with `u = 5` when it is not. -/
theorem C10_charge_counterexample :
    (rightExit.flag = 2 ∧ ({ rightExit with flag_f := 1 } : State).flag = 2) ∧
      (draw polyTrig ⟨0, 3, 3, 3⟩ { rightExit with flag_f := 1 }).u = 5.2 ∧
      (draw polyTrig ⟨0, 3, 3, 3⟩ rightExit).u = 5 ∧
      (draw polyTrig ⟨0, 3, 3, 3⟩ { rightExit with flag_f := 1 }).u ≠
        (draw polyTrig ⟨0, 3, 3, 3⟩ rightExit).u := by
  have ho : outOfBounds (rightExit.can_x + rightExit.pos_x)
      (rightExit.can_y + rightExit.pos_y) := by
    norm_num [outOfBounds, rightExit]
  have k1 := chargePart_draw_outside polyTrig ⟨0, 3, 3, 3⟩ { rightExit with flag_f := 1 }
    (Or.inr rfl) ho
  have k2 := chargePart_draw_outside polyTrig ⟨0, 3, 3, 3⟩ rightExit (Or.inr rfl) ho
  simp only [chargePart, Prod.mk.injEq] at k1 k2
  have u1 : (draw polyTrig ⟨0, 3, 3, 3⟩ { rightExit with flag_f := 1 }).u = 5.2 := by
    rw [k1.2.2.2.1]; norm_num [chargedU, rightExit, initState]
  have u2 : (draw polyTrig ⟨0, 3, 3, 3⟩ rightExit).u = 5 := by
    rw [k2.2.2.2.1]; norm_num [chargedU, rightExit, initState]
  refine ⟨⟨rfl, rfl⟩, u1, u2, ?_⟩
  rw [u1, u2]
  norm_num

/-- C10 (amended): in a tick that begins Flying with the tested position
inside the world bounds, `u` and `ay` after the tick do not depend on the
charge and discharge flags: two starts that differ only in `flag_f` and
`flag_s` end with the same `u` and `ay` (`u` is unchanged, and `ay` is
unchanged or zeroed by the launch stamp). -/
theorem C10_charge_ignored_in_flight (m : Trig) (c : Clock) (s : State) (f g f1 g1 : Int)
    (hf : s.flag = 1 ∨ s.flag = 2)
    (hin : ¬ outOfBounds (s.can_x + s.pos_x) (s.can_y + s.pos_y)) :
    (draw m c { s with flag_f := f, flag_s := g }).u =
        (draw m c { s with flag_f := f1, flag_s := g1 }).u ∧
      (draw m c { s with flag_f := f, flag_s := g }).ay =
        (draw m c { s with flag_f := f1, flag_s := g1 }).ay ∧
      (draw m c { s with flag_f := f, flag_s := g }).u = s.u ∧
      (draw m c { s with flag_f := f, flag_s := g }).ay = (if s.flag = 1 then 0 else s.ay) := by
  have a := corePart_draw_inside m c { s with flag_f := f, flag_s := g } hf hin
  have b := corePart_draw_inside m c { s with flag_f := f1, flag_s := g1 } hf hin
  simp only [corePart, Prod.mk.injEq] at a b
  obtain ⟨-, ⟨a1, a2⟩, -⟩ := a
  obtain ⟨-, ⟨b1, b2⟩, -⟩ := b
  rw [a1, a2, b1, b2]
  exact ⟨rfl, rfl, rfl, rfl⟩

/-- C10 (amended) at the Flying state `nearTarget1`, with the charge flag set
in one start and the discharge flag set in the other. -/
theorem C10_charge_ignored_in_flight_witness :
    ((nearTarget1.flag = 1 ∨ nearTarget1.flag = 2) ∧
        ¬ outOfBounds (nearTarget1.can_x + nearTarget1.pos_x)
          (nearTarget1.can_y + nearTarget1.pos_y)) ∧
      (draw polyTrig ⟨0, 1, 1, 1⟩ { nearTarget1 with flag_f := 1, flag_s := 0 }).u =
        (draw polyTrig ⟨0, 1, 1, 1⟩ { nearTarget1 with flag_f := 0, flag_s := 1 }).u ∧
      (draw polyTrig ⟨0, 1, 1, 1⟩ { nearTarget1 with flag_f := 1, flag_s := 0 }).ay =
        (draw polyTrig ⟨0, 1, 1, 1⟩ { nearTarget1 with flag_f := 0, flag_s := 1 }).ay :=
  have h := C10_charge_ignored_in_flight polyTrig ⟨0, 1, 1, 1⟩ nearTarget1 1 0 0 1 (Or.inr rfl)
    (by norm_num [outOfBounds, nearTarget1])
  ⟨⟨Or.inr rfl, by norm_num [outOfBounds, nearTarget1]⟩, h.1, h.2.1⟩

/-! ## Opposing rotate flags -/

/-- C20: with both rotate flags set and the angle within [0, 90], one tick
takes exactly 1 from `canon_rotation`: the B guard runs last and leaves
`canon_rot_dir = -1`. -/
theorem C20_opposing_flags_B_wins (m : Trig) (c : Clock) (s : State) (ha : s.rot_a = 1)
    (hb : s.rot_b = 1) (h0 : 0 ≤ s.canon_rotation) (h90 : s.canon_rotation ≤ 90) :
    (draw m c s).canon_rotation = s.canon_rotation - 1 ∧ (draw m c s).canon_rot_dir = -1 := by
  have e := rotPart_draw m c s
  have g : rotPart (rotateGuards s) = (s.canon_rotation, 1, 1, true, -1) := by
    unfold rotateGuards rotPart
    simp [ha, hb, h0, h90]
  simp only [rotPart, Prod.mk.injEq] at e g
  obtain ⟨g1, g2, g3, g4, g5⟩ := g
  rw [g1, g2, g3, g4, g5] at e
  rw [e.1, e.2.2.2.2]
  constructor
  · simp
    ring
  · rfl

/-- C20 at the initial state with both keys down. -/
theorem C20_opposing_flags_B_wins_witness :
    (({ initState with rot_a := 1, rot_b := 1 } : State).rot_a = 1 ∧
        ({ initState with rot_a := 1, rot_b := 1 } : State).rot_b = 1 ∧
        0 ≤ ({ initState with rot_a := 1, rot_b := 1 } : State).canon_rotation ∧
        ({ initState with rot_a := 1, rot_b := 1 } : State).canon_rotation ≤ 90) ∧
      (draw polyTrig ⟨0, 0, 0, 0⟩ { initState with rot_a := 1, rot_b := 1 }).canon_rotation =
        ({ initState with rot_a := 1, rot_b := 1 } : State).canon_rotation - 1 :=
  ⟨⟨rfl, rfl, by norm_num [initState], by norm_num [initState]⟩,
    (C20_opposing_flags_B_wins polyTrig ⟨0, 0, 0, 0⟩ { initState with rot_a := 1, rot_b := 1 }
      rfl rfl (by norm_num [initState]) (by norm_num [initState])).1⟩

/-! ## The charge indicator -/

/-- With the charge flag set and the discharge flag clear, every tick of an
Idle state adds 0.2 to `u` and leaves the state Idle. -/
theorem hold_F (m : Trig) (cs : List Clock) (s : State) (h0 : s.flag = 0) (hf : s.flag_f = 1)
    (hs : s.flag_s = 0) :
    ∃ sn, run m s (cs.map Event.tick) = some sn ∧ sn.flag = 0 ∧ sn.flag_f = 1 ∧
      sn.flag_s = 0 ∧ sn.u = s.u + (cs.length : ℚ) * 0.2 := by
  induction cs generalizing s with
  | nil => exact ⟨s, rfl, h0, hf, hs, by simp⟩
  | cons c cs ih =>
    have e := chargePart_draw_idle m c s h0
    simp only [chargePart, Prod.mk.injEq] at e
    obtain ⟨e1, e2, e3, e4, -⟩ := e
    rw [hf, hs] at e4
    simp only [if_true, zero_ne_one, false_and, if_false] at e4
    obtain ⟨sn, r, a1, a2, a3, a4⟩ := ih (draw m c s) e1 (by rw [e2, hf]) (by rw [e3, hs])
    refine ⟨sn, ?_, a1, a2, a3, ?_⟩
    · simp only [List.map_cons, run, step, Option.some_bind]
      exact r
    · rw [a4, e4]
      simp only [List.length_cons]
      push_cast
      ring

/-- C13: from an Idle state with the charge flag set and the discharge flag
clear, `n` consecutive ticks (with any clock readings) leave the state Idle
with `u` raised by exactly `n * 0.2`; a fire signal given then (Space pressed,
or the left button released) launches with that `u` and with `angle` equal to
`canon_rotation` at that moment, and they keep these values for as long as the
projectile stays Flying. -/
theorem C13_charge_then_fire (m : Trig) (cs : List Clock) (s : State) (h0 : s.flag = 0)
    (hf : s.flag_f = 1) (hs : s.flag_s = 0) :
    ∃ sn, run m s (cs.map Event.tick) = some sn ∧ sn.flag = 0 ∧
      sn.u = s.u + (cs.length : ℚ) * 0.2 ∧
      (∃ s1, keyboard m .GLFW_KEY_SPACE .GLFW_PRESS sn = some s1 ∧ s1.flag = 1 ∧
        s1.u = s.u + (cs.length : ℚ) * 0.2 ∧ s1.angle = sn.canon_rotation ∧
        ∀ es s2, flightRun m s1 es = some s2 →
          s2.u = s.u + (cs.length : ℚ) * 0.2 ∧ s2.angle = sn.canon_rotation) ∧
      ((mouseButton m .GLFW_MOUSE_BUTTON_LEFT .GLFW_RELEASE sn).flag = 1 ∧
        (mouseButton m .GLFW_MOUSE_BUTTON_LEFT .GLFW_RELEASE sn).u =
          s.u + (cs.length : ℚ) * 0.2 ∧
        (mouseButton m .GLFW_MOUSE_BUTTON_LEFT .GLFW_RELEASE sn).angle = sn.canon_rotation ∧
        ∀ es s2, flightRun m (mouseButton m .GLFW_MOUSE_BUTTON_LEFT .GLFW_RELEASE sn) es =
            some s2 →
          s2.u = s.u + (cs.length : ℚ) * 0.2 ∧ s2.angle = sn.canon_rotation) := by
  obtain ⟨sn, r, a1, -, -, a4⟩ := hold_F m cs s h0 hf hs
  refine ⟨sn, r, a1, a4, ?_, ?_⟩
  · simp only [keyboard, if_pos a1]
    refine ⟨_, rfl, rfl, a4, rfl, ?_⟩
    intro es s2 hrun
    have e := snapPart_flightRun m es _ s2 (by simp) hrun
    simp only [snapPart, Prod.mk.injEq] at e
    obtain ⟨e1, -, -, e4⟩ := e
    rw [e1, e4]
    exact ⟨a4, rfl⟩
  · have hm : mouseButton m .GLFW_MOUSE_BUTTON_LEFT .GLFW_RELEASE sn =
        { sn with angle := sn.canon_rotation,
                  can_x := -12 + 2 * m.cos (DEG2RAD (sn.canon_rotation + m.atan (0.5 / 2))),
                  can_y := -6.5 + 2 * m.sin (DEG2RAD (sn.canon_rotation + m.atan (0.5 / 2))),
                  flag := 1, flag_f := 0 } := by
      simp only [mouseButton, if_pos a1]
    rw [hm]
    refine ⟨rfl, a4, rfl, ?_⟩
    intro es s2 hrun
    have e := snapPart_flightRun m es _ s2 (by simp) hrun
    simp only [snapPart, Prod.mk.injEq] at e
    obtain ⟨e1, -, -, e4⟩ := e
    rw [e1, e4]
    exact ⟨a4, rfl⟩

/-- C13 for three charge ticks from the initial state with F down: the launch
speed is 10 + 3 * 0.2 = 10.6. -/
theorem C13_charge_then_fire_witness :
    (({ initState with flag_f := 1 } : State).flag = 0 ∧
        ({ initState with flag_f := 1 } : State).flag_f = 1 ∧
        ({ initState with flag_f := 1 } : State).flag_s = 0) ∧
      ∃ sn, run polyTrig { initState with flag_f := 1 }
          (List.map Event.tick [⟨0, 0, 0, 0⟩, ⟨0, 0, 0, 0⟩, ⟨0, 0, 0, 0⟩]) = some sn ∧
        sn.flag = 0 ∧ sn.u = 10.6 := by
  obtain ⟨sn, r, a1, a4, -⟩ := C13_charge_then_fire polyTrig
    [⟨0, 0, 0, 0⟩, ⟨0, 0, 0, 0⟩, ⟨0, 0, 0, 0⟩] { initState with flag_f := 1 } rfl rfl rfl
  refine ⟨⟨rfl, rfl, rfl⟩, sn, r, a1, ?_⟩
  rw [a4]
  norm_num [initState]

/-! ## The viewport -/

theorem viewPart_rotateGuards (s : State) : viewPart (rotateGuards s) = viewPart s := by
  unfold rotateGuards; dsimp only; split_ifs <;> rfl

theorem viewPart_flight (m : Trig) (c : Clock) (s : State) :
    viewPart (flight m c s) = viewPart s := by
  have h1 : ∀ s, viewPart (placeBall s) = viewPart s := fun s => rfl
  have h2 : ∀ s, viewPart (stampLaunch c s) = viewPart s := fun s => by
    unfold stampLaunch; split_ifs <;> rfl
  have h3 : ∀ s, viewPart (kinematics m c s) = viewPart s := fun s => by
    unfold kinematics; dsimp only; split_ifs <;> rfl
  have h4 : ∀ s, viewPart (boundsReset s) = viewPart s := fun s => by
    unfold boundsReset; split_ifs <;> rfl
  have h5 : ∀ s, viewPart (groundContact m s) = viewPart s := fun s => by
    unfold groundContact; dsimp only; split_ifs <;> rfl
  have h6 : ∀ s, viewPart (hitTarget1 s) = viewPart s := fun s => by
    unfold hitTarget1; dsimp only; split_ifs <;> rfl
  have h7 : ∀ s, viewPart (hitTarget2 s) = viewPart s := fun s => by
    unfold hitTarget2; dsimp only; split_ifs <;> rfl
  have h8 : ∀ s, viewPart (hitTarget3 s) = viewPart s := fun s => by
    unfold hitTarget3; dsimp only; split_ifs <;> rfl
  have h9 : ∀ s, viewPart (tally s) = viewPart s := fun s => by
    unfold tally; dsimp only; split_ifs <;> rfl
  have h10 : ∀ s, viewPart (obstacle m c s) = viewPart s := fun s => by
    unfold obstacle; dsimp only; split_ifs <;> rfl
  unfold flight beforeHitTests
  split_ifs
  · rw [h10, h9, h8, h7, h6, h5, h4, h3, h2, h1]
  · rfl

theorem viewPart_charge (s : State) : viewPart (charge s) = viewPart s := by
  unfold charge; dsimp only; split_ifs <;> rfl

/-- The bounds after the zoom and pan blocks, in closed form. -/
theorem bounds_viewport (s : State) :
    (viewport s).lx = s.lx + zoomInStep s - zoomOutStep s - panLeftStep s + panRightStep s ∧
      (viewport s).rx = s.rx - zoomInStep s + zoomOutStep s - panLeftStep s + panRightStep s ∧
      (viewport s).dy = s.dy + zoomInStep s - zoomOutStep s ∧
      (viewport s).upy = s.upy - zoomInStep s + zoomOutStep s := by
  unfold viewport zoomInStep zoomOutStep panLeftStep panRightStep
  dsimp only
  by_cases h1 : s.up = 1 ∨ s.scroll_up = 1 <;>
    by_cases h2 : s.down = 1 ∨ s.scroll_down = 1 <;>
    by_cases h3 : s.panleft = 1 ∨ (s.right_click = 1 ∧ s.scroll_right = 1) <;>
    by_cases h4 : s.panright = 1 ∨ (s.right_click = 1 ∧ s.scroll_left = 1) <;>
    simp only [h1, h2, h3, h4, if_true, if_false] <;>
    refine ⟨?_, ?_, ?_, ?_⟩ <;> norm_num

/-- The zoom flags after the zoom and pan blocks: the key flags stay, a scroll
flag is cleared by the block it triggers. -/
theorem flags_viewport (s : State) :
    (viewport s).up = s.up ∧ (viewport s).down = s.down ∧
      (viewport s).scroll_up = (if s.up = 1 ∨ s.scroll_up = 1 then 0 else s.scroll_up) ∧
      (viewport s).scroll_down =
        (if s.down = 1 ∨ s.scroll_down = 1 then 0 else s.scroll_down) := by
  unfold viewport
  dsimp only
  by_cases h1 : s.up = 1 ∨ s.scroll_up = 1 <;>
    by_cases h2 : s.down = 1 ∨ s.scroll_down = 1 <;>
    by_cases h3 : s.panleft = 1 ∨ (s.right_click = 1 ∧ s.scroll_right = 1) <;>
    by_cases h4 : s.panright = 1 ∨ (s.right_click = 1 ∧ s.scroll_left = 1) <;>
    simp [h1, h2, h3, h4]

/-- The bounds and zoom flags after a tick, in terms of the state at its
start. -/
theorem view_draw (m : Trig) (c : Clock) (s : State) :
    ((draw m c s).lx = s.lx + zoomInStep s - zoomOutStep s - panLeftStep s + panRightStep s ∧
      (draw m c s).rx = s.rx - zoomInStep s + zoomOutStep s - panLeftStep s + panRightStep s ∧
      (draw m c s).dy = s.dy + zoomInStep s - zoomOutStep s ∧
      (draw m c s).upy = s.upy - zoomInStep s + zoomOutStep s) ∧
    ((draw m c s).up = s.up ∧ (draw m c s).down = s.down ∧
      (draw m c s).scroll_down =
        (if s.down = 1 ∨ s.scroll_down = 1 then 0 else s.scroll_down)) := by
  have e : viewPart (draw m c s) = viewPart (viewport (rotateGuards s)) := by
    unfold draw
    have i : ∀ x, viewPart (increment x) = viewPart x := fun x => rfl
    rw [i, viewPart_charge, viewPart_flight]
  have g := viewPart_rotateGuards s
  have b := bounds_viewport (rotateGuards s)
  have f := flags_viewport (rotateGuards s)
  have z : zoomInStep (rotateGuards s) = zoomInStep s ∧
      zoomOutStep (rotateGuards s) = zoomOutStep s ∧
      panLeftStep (rotateGuards s) = panLeftStep s ∧
      panRightStep (rotateGuards s) = panRightStep s := by
    simp only [viewPart, Prod.mk.injEq] at g
    obtain ⟨-, ⟨g5, g6, g7, g8⟩, ⟨g9, g10, g11, g12, g13⟩⟩ := g
    unfold zoomInStep zoomOutStep panLeftStep panRightStep
    rw [g5, g6, g7, g8, g9, g10, g11, g12, g13]
    exact ⟨rfl, rfl, rfl, rfl⟩
  simp only [viewPart, Prod.mk.injEq] at e g
  obtain ⟨⟨e1, e2, e3, e4⟩, ⟨e5, e6, -, -⟩, ⟨-, -, -, -, e13⟩⟩ := e
  obtain ⟨⟨g1, g2, g3, g4⟩, ⟨g5, g6, -, -⟩, ⟨-, -, -, -, g13⟩⟩ := g
  obtain ⟨b1, b2, b3, b4⟩ := b
  obtain ⟨f1, f2, -, f4⟩ := f
  obtain ⟨z1, z2, z3, z4⟩ := z
  rw [e1, e2, e3, e4, e5, e6, e13, b1, b2, b3, b4, f1, f2, f4, z1, z2, z3, z4, g1, g2, g3, g4,
    g5, g6, g13]
  exact ⟨⟨rfl, rfl, rfl, rfl⟩, rfl, rfl, rfl⟩

theorem boundsPart_keyboard (m : Trig) (k : Key) (a : Action) (s s1 : State)
    (h : keyboard m k a s = some s1) : boundsPart s1 = boundsPart s := by
  cases a <;> cases k <;> simp only [keyboard, Option.some.injEq, reduceCtorEq] at h <;>
    first
    | (subst h; rfl)
    | (split_ifs at h <;> simp only [Option.some.injEq] at h <;> subst h <;> rfl)

theorem boundsPart_keyboardChar (k : Char) (s s1 : State)
    (h : keyboardChar k s = some s1) : boundsPart s1 = boundsPart s := by
  unfold keyboardChar at h
  split_ifs at h
  simp only [Option.some.injEq] at h
  subst h; rfl

theorem boundsPart_mouseButton (m : Trig) (b : Button) (a : Action) (s : State) :
    boundsPart (mouseButton m b a s) = boundsPart s := by
  cases b <;> cases a <;> simp only [mouseButton] <;> first | rfl | (split_ifs <;> rfl)

theorem boundsPart_scroll (x y : ℚ) (s : State) : boundsPart (scroll x y s) = boundsPart s := by
  unfold scroll; dsimp only; split_ifs <;> rfl

/-- No callback writes the bounds. -/
theorem boundsPart_step (m : Trig) (s s1 : State) (e : Event) (hne : ∀ c, e ≠ .tick c)
    (h : step m s e = some s1) : boundsPart s1 = boundsPart s := by
  cases e with
  | key k a => exact boundsPart_keyboard m k a s s1 h
  | char k => exact boundsPart_keyboardChar k s s1 h
  | mouse b a =>
    simp only [step, Option.some.injEq] at h
    subst h; exact boundsPart_mouseButton m b a s
  | wheel x y =>
    simp only [step, Option.some.injEq] at h
    subst h; exact boundsPart_scroll x y s
  | tick c => exact absurd rfl (hne c)

/-- Zoom moves the four bounds by the same distance and pan moves `lx` and
`rx` together, so the width stays 16 more than the height. -/
theorem reachable_width_height (m : Trig) (s : State) (h : Reachable m s) :
    s.rx - s.lx = (s.upy - s.dy) + 16 := by
  induction h with
  | init => norm_num [initState]
  | next s s1 e _ hstep ih =>
    have aux : boundsPart s1 = boundsPart s → s1.rx - s1.lx = (s1.upy - s1.dy) + 16 := by
      intro p
      simp only [boundsPart, Prod.mk.injEq] at p
      obtain ⟨p1, p2, p3, p4⟩ := p
      rw [p1, p2, p3, p4]; exact ih
    cases e with
    | tick c =>
      simp only [step, Option.some.injEq] at hstep
      subst hstep
      obtain ⟨⟨b1, b2, b3, b4⟩, -⟩ := view_draw m c s
      rw [b1, b2, b3, b4]
      linarith
    | key k a => exact aux (boundsPart_step m s s1 _ (by simp) hstep)
    | char k => exact aux (boundsPart_step m s s1 _ (by simp) hstep)
    | mouse b a => exact aux (boundsPart_step m s s1 _ (by simp) hstep)
    | wheel x y => exact aux (boundsPart_step m s s1 _ (by simp) hstep)

/-- With the zoom-in key held (and no zoom-out) every tick raises `dy` and
lowers `upy` by 0.1. -/
theorem hold_UP (m : Trig) (c : Clock) (n : ℕ) (s : State) (hu : s.up = 1)
    (hd : ¬ (s.down = 1 ∨ s.scroll_down = 1)) :
    ∃ sn, run m s (List.replicate n (.tick c)) = some sn ∧
      sn.dy = s.dy + 0.1 * (n : ℚ) ∧ sn.upy = s.upy - 0.1 * (n : ℚ) := by
  induction n generalizing s with
  | zero => exact ⟨s, rfl, by simp, by simp⟩
  | succ k ih =>
    obtain ⟨⟨-, -, b3, b4⟩, f1, f2, f3⟩ := view_draw m c s
    have zi : zoomInStep s = 0.1 := by unfold zoomInStep; rw [if_pos (Or.inl hu)]
    have zo : zoomOutStep s = 0 := by unfold zoomOutStep; rw [if_neg hd]
    rw [if_neg hd] at f3
    obtain ⟨sn, r, a1, a2⟩ := ih (draw m c s) (by rw [f1, hu]) (by rw [f2, f3]; exact hd)
    refine ⟨sn, ?_, ?_, ?_⟩
    · simp only [List.replicate_succ, run, step, Option.some_bind]
      exact r
    · rw [a1, b3, zi, zo]; push_cast; ring
    · rw [a2, b4, zi, zo]; push_cast; ring

/-- C12 as stated fails: from the initial state, pressing the zoom-in key and
running 80 ticks brings `dy` up and `upy` down to the same value, so `upy > dy`
no longer holds. -/
theorem C12_zoom_counterexample :
    ∃ s, run polyTrig initState
        (.key .GLFW_KEY_UP .GLFW_PRESS :: List.replicate 80 (.tick ⟨0, 0, 0, 0⟩)) = some s ∧
      ¬ (s.upy > s.dy) := by
  obtain ⟨sn, r, a1, a2⟩ := hold_UP polyTrig ⟨0, 0, 0, 0⟩ 80 { initState with up := 1 } rfl
    (by decide)
  refine ⟨sn, ?_, ?_⟩
  · simp only [run, step, keyboard, Option.some_bind]
    exact r
  · rw [a1, a2]
    norm_num [initState]

/-- C12 (amended): after every sequence of inputs and ticks from the initial
state the width of the bounds is 16 more than their height
(`rx - lx = (upy - dy) + 16`), and a tick ends with `rx > lx` and `upy > dy`
whenever the height before it is more than 0.2, or is positive with no zoom-in
in that tick. -/
theorem C12_viewport_while_open (m : Trig) (c : Clock) (es : List Event) (s : State)
    (h : run m initState es = some s) :
    s.rx - s.lx = (s.upy - s.dy) + 16 ∧
      (0.2 < s.upy - s.dy →
        (draw m c s).rx > (draw m c s).lx ∧ (draw m c s).upy > (draw m c s).dy) ∧
      (¬ (s.up = 1 ∨ s.scroll_up = 1) → 0 < s.upy - s.dy →
        (draw m c s).rx > (draw m c s).lx ∧ (draw m c s).upy > (draw m c s).dy) := by
  have w := reachable_width_height m s (reachable_of_run m es initState s Reachable.init h)
  obtain ⟨⟨b1, b2, b3, b4⟩, -⟩ := view_draw m c s
  have zi0 : 0 ≤ zoomInStep s ∧ zoomInStep s ≤ 0.1 := by
    unfold zoomInStep; split_ifs <;> norm_num
  have zo0 : 0 ≤ zoomOutStep s := by
    unfold zoomOutStep; split_ifs <;> norm_num
  refine ⟨w, ?_, ?_⟩
  · intro hh
    rw [b1, b2, b3, b4]
    norm_num at hh zi0
    constructor <;> linarith [zi0.1, zi0.2]
  · intro hz hh
    have zi : zoomInStep s = 0 := by unfold zoomInStep; rw [if_neg hz]
    rw [b1, b2, b3, b4, zi]
    constructor <;> linarith

/-- C12 (amended) at the run that presses the zoom-in key. -/
theorem C12_viewport_while_open_witness :
    run polyTrig initState [.key .GLFW_KEY_UP .GLFW_PRESS] = some { initState with up := 1 } ∧
      0.2 < ({ initState with up := 1 } : State).upy - ({ initState with up := 1 } : State).dy ∧
      (draw polyTrig ⟨0, 0, 0, 0⟩ { initState with up := 1 }).rx >
        (draw polyTrig ⟨0, 0, 0, 0⟩ { initState with up := 1 }).lx ∧
      (draw polyTrig ⟨0, 0, 0, 0⟩ { initState with up := 1 }).upy >
        (draw polyTrig ⟨0, 0, 0, 0⟩ { initState with up := 1 }).dy :=
  ⟨rfl, by norm_num [initState],
    (C12_viewport_while_open polyTrig ⟨0, 0, 0, 0⟩ [.key .GLFW_KEY_UP .GLFW_PRESS]
      { initState with up := 1 } rfl).2.1 (by norm_num [initState])⟩

/-! ## Obstacle contact -/

/-- Every obstacle zone is above the ground line and inside the world. -/
theorem inObstacle_inside (x y : ℚ) (h : inObstacle x y) :
    y > -7.25 ∧ ¬ outOfBounds x y := by
  unfold inObstacle at h
  unfold outOfBounds
  rcases h with ⟨h1, h2, h3, h4⟩ | ⟨h1, h2, h3, h4⟩ | ⟨h1, h2, h3, h4⟩ <;>
    (constructor
     · norm_num at *; linarith
     · norm_num at *; refine ⟨?_, ?_, ?_, ?_⟩ <;> linarith)

theorem flyPart_scoring (s : State) :
    flyPart (tally (hitTarget3 (hitTarget2 (hitTarget1 s)))) = flyPart s := by
  have h6 : ∀ s, flyPart (hitTarget1 s) = flyPart s := fun s => by
    unfold hitTarget1; dsimp only; split_ifs <;> rfl
  have h7 : ∀ s, flyPart (hitTarget2 s) = flyPart s := fun s => by
    unfold hitTarget2; dsimp only; split_ifs <;> rfl
  have h8 : ∀ s, flyPart (hitTarget3 s) = flyPart s := fun s => by
    unfold hitTarget3; dsimp only; split_ifs <;> rfl
  have h9 : ∀ s, flyPart (tally s) = flyPart s := fun s => by
    unfold tally; dsimp only; split_ifs <;> rfl
  rw [h9, h8, h7, h6]

/-- The obstacle block when its condition holds: the guard `if (haha=0)`
stores 0 and is false, so only the two displacement lines run. -/
theorem ballPart_obstacle (m : Trig) (c : Clock) (q : State) (hz : inObstacle q.bx q.by_) :
    ballPart (obstacle m c q) =
      ((q.bx, q.by_), q.t, -1 * q.u * m.cos (DEG2RAD q.angle) * q.t,
        q.u * m.sin (DEG2RAD q.angle) * q.t - 0.5 * 9.8 * q.t * q.t) := by
  unfold obstacle ballPart
  rw [if_pos hz]
  simp

/-- Above the ground line and inside the world the state before the target
tests still has the launch speed and angle of the start of the tick. -/
theorem flyPart_beforeHitTests (m : Trig) (c : Clock) (s : State)
    (hy : s.can_y + s.pos_y > -7.25)
    (hin : ¬ outOfBounds (s.can_x + s.pos_x) (s.can_y + s.pos_y)) :
    flyPart (beforeHitTests m c s) =
      ((s.can_x + s.pos_x, s.can_y + s.pos_y),
        c.update - (if s.flag = 1 then c.launch else s.start_t), s.u, s.angle) := by
  have hg : ¬ (s.can_y + s.pos_y ≤ -7.25) := not_le.mpr hy
  unfold beforeHitTests groundContact boundsReset kinematics stampLaunch placeBall flyPart
  dsimp only
  by_cases h1 : s.flag = 1 <;> simp only [h1, if_true, if_false] <;>
    simp only [hy, hin, hg, if_true, if_false]

/-- The ball after a tick that starts Flying with the tested position in an
obstacle zone: the displacement of the flight formula with `pos_x` negated. -/
theorem ballPart_draw_obstacle (m : Trig) (c : Clock) (s : State)
    (hf : s.flag = 1 ∨ s.flag = 2)
    (hz : inObstacle (s.can_x + s.pos_x) (s.can_y + s.pos_y)) :
    ballPart (draw m c s) =
      ((s.can_x + s.pos_x, s.can_y + s.pos_y),
        c.update - (if s.flag = 1 then c.launch else s.start_t),
        -1 * s.u * m.cos (DEG2RAD s.angle) *
          (c.update - (if s.flag = 1 then c.launch else s.start_t)),
        s.u * m.sin (DEG2RAD s.angle) * (c.update - (if s.flag = 1 then c.launch else s.start_t)) -
          0.5 * 9.8 * (c.update - (if s.flag = 1 then c.launch else s.start_t)) *
            (c.update - (if s.flag = 1 then c.launch else s.start_t))) := by
  have g := gamePart_prelude s
  simp only [gamePart, Prod.mk.injEq] at g
  obtain ⟨⟨g1, -, -⟩, ⟨g4, g5, g6, g7, g8, -⟩, ⟨-, -, g10, g11, -, -⟩, -⟩ := g
  have i := gamePart_increment (charge (flight m c (viewport (rotateGuards s))))
  simp only [gamePart, Prod.mk.injEq] at i
  obtain ⟨-, -, ⟨i1, -, i2, i3, i4, i5⟩, -⟩ := i
  have hd : ballPart (draw m c s) =
      ballPart (charge (flight m c (viewport (rotateGuards s)))) := by
    unfold draw ballPart
    rw [i1, i2, i3, i4, i5]
  rw [hd, ballPart_charge]
  generalize viewport (rotateGuards s) = x at *
  rw [← g1, ← g4, ← g5, ← g6, ← g7, ← g8, ← g10, ← g11]
  rw [← g1] at hf
  rw [← g4, ← g5, ← g10, ← g11] at hz
  obtain ⟨hy, hin⟩ := inObstacle_inside _ _ hz
  have p := flyPart_beforeHitTests m c x hy hin
  have q := flyPart_scoring (beforeHitTests m c x)
  rw [p] at q
  simp only [flyPart, Prod.mk.injEq] at q
  obtain ⟨⟨q1, q2⟩, q3, q4, q5⟩ := q
  unfold flight
  rw [if_pos hf, ballPart_obstacle m c _ (by rw [q1, q2]; exact hz), q1, q2, q3, q4, q5]

theorem standShot_in_zone :
    inObstacle (standShot.can_x + standShot.pos_x) (standShot.can_y + standShot.pos_y) := by
  unfold inObstacle
  left
  norm_num [standShot, initState, polyTrig, DEG2RAD]

/-- C16 (the start time is not captured): in the Flying tick at `standShot`,
whose tested position is in the first obstacle zone, with every clock read of
the tick returning 1.32, `pos_x` is set to `-u*cos(a)*t` with `t = 1.32`, but
`start_t` keeps its old value 0 and the launch origin is unchanged. -/
theorem C16_start_time_not_captured :
    inObstacle (standShot.can_x + standShot.pos_x) (standShot.can_y + standShot.pos_y) ∧
      (draw polyTrig ⟨1.32, 1.32, 1.32, 1.32⟩ standShot).start_t = 0 ∧
      (draw polyTrig ⟨1.32, 1.32, 1.32, 1.32⟩ standShot).start_t ≠ 1.32 ∧
      (draw polyTrig ⟨1.32, 1.32, 1.32, 1.32⟩ standShot).t = 1.32 ∧
      (draw polyTrig ⟨1.32, 1.32, 1.32, 1.32⟩ standShot).pos_x =
        -1 * 10 * polyTrig.cos (DEG2RAD 45) * 1.32 ∧
      (draw polyTrig ⟨1.32, 1.32, 1.32, 1.32⟩ standShot).can_x = -10.6 ∧
      (draw polyTrig ⟨1.32, 1.32, 1.32, 1.32⟩ standShot).can_y = -5.1 := by
  have hz := standShot_in_zone
  have b := ballPart_draw_obstacle polyTrig ⟨1.32, 1.32, 1.32, 1.32⟩ standShot (Or.inr rfl) hz
  have k := corePart_draw_inside polyTrig ⟨1.32, 1.32, 1.32, 1.32⟩ standShot (Or.inr rfl)
    (inObstacle_inside _ _ hz).2
  simp only [ballPart, Prod.mk.injEq] at b
  simp only [corePart, Prod.mk.injEq] at k
  obtain ⟨-, b1, b2, -⟩ := b
  obtain ⟨-, -, -, k2, k3, k4⟩ := k
  have hs : (draw polyTrig ⟨1.32, 1.32, 1.32, 1.32⟩ standShot).start_t = 0 := by
    rw [k4]; norm_num [standShot, initState]
  refine ⟨hz, hs, ?_, ?_, ?_, ?_, ?_⟩
  · rw [hs]; norm_num
  · rw [b1]; norm_num [standShot, initState]
  · rw [b2]; norm_num [standShot, initState]
  · rw [k2]; norm_num [standShot]
  · rw [k3]; norm_num [standShot]

/-- After an obstacle tick the inverted displacement is applied from the
launch origin: for a shot from the cannon side (`can_x ≤ -10`) moving right,
whose ball was on its free-flight path, the next tested position is left of
the world (`bx ≤ -18`) and the next tick ends the flight. -/
theorem rebound_leaves_world (m : Trig) (c1 c2 : Clock) (s : State) (t0 : ℚ)
    (hf : s.flag = 1 ∨ s.flag = 2) (hc : s.can_x ≤ -10)
    (hz : inObstacle (s.can_x + s.pos_x) (s.can_y + s.pos_y))
    (hp : s.pos_x = s.u * m.cos (DEG2RAD s.angle) * t0)
    (hv : 0 ≤ s.u * m.cos (DEG2RAD s.angle))
    (ht : t0 ≤ c1.update - (if s.flag = 1 then c1.launch else s.start_t)) :
    (draw m c1 s).flag = 2 ∧ (draw m c1 s).can_x + (draw m c1 s).pos_x ≤ -18 ∧
      (draw m c2 (draw m c1 s)).flag = 0 := by
  have b := ballPart_draw_obstacle m c1 s hf hz
  have k := corePart_draw_inside m c1 s hf (inObstacle_inside _ _ hz).2
  simp only [ballPart, Prod.mk.injEq] at b
  simp only [corePart, Prod.mk.injEq] at k
  obtain ⟨-, -, b2, -⟩ := b
  obtain ⟨⟨k1, -, -⟩, -, -, k2, -, -⟩ := k
  have hx : -2 ≤ s.can_x + s.pos_x := by
    unfold inObstacle at hz
    rcases hz with ⟨h1, -, -, -⟩ | ⟨-, -, h1, -⟩ | ⟨h1, -, -, -⟩ <;> linarith
  have hm : s.u * m.cos (DEG2RAD s.angle) * t0 ≤
      s.u * m.cos (DEG2RAD s.angle) *
        (c1.update - (if s.flag = 1 then c1.launch else s.start_t)) :=
    mul_le_mul_of_nonneg_left ht hv
  have hb : (draw m c1 s).can_x + (draw m c1 s).pos_x ≤ -18 := by
    rw [k2, b2]
    linarith
  refine ⟨k1, hb, ?_⟩
  have ho : outOfBounds ((draw m c1 s).can_x + (draw m c1 s).pos_x)
      ((draw m c1 s).can_y + (draw m c1 s).pos_y) := by
    unfold outOfBounds
    right; right; right
    norm_num
    linarith
  have e := chargePart_draw_outside m c2 (draw m c1 s) (Or.inr k1) ho
  simp only [chargePart, Prod.mk.injEq] at e
  exact e.1

/-- C17 (obstacle contact ends the flight): `standShot` is on the free-flight
path of a shot from the cannon (`can_x = -10.6`, `u*cos(a) ≥ 0`) and its tested
position is in the first obstacle zone; after the obstacle tick (clock 1.32)
the projectile is still Flying, but the tick after it (clock 1.34) tests a
position left of the world and ends with `flag = 0`. -/
theorem C17_rebound_ends_flight :
    (standShot.can_x ≤ -10 ∧ 0 ≤ standShot.u * polyTrig.cos (DEG2RAD standShot.angle) ∧
        standShot.pos_x = standShot.u * polyTrig.cos (DEG2RAD standShot.angle) * 1.3 ∧
        standShot.pos_y = standShot.u * polyTrig.sin (DEG2RAD standShot.angle) * 1.3 -
          0.5 * 9.8 * 1.3 * 1.3 ∧
        inObstacle (standShot.can_x + standShot.pos_x) (standShot.can_y + standShot.pos_y)) ∧
      (draw polyTrig ⟨1.32, 1.32, 1.32, 1.32⟩ standShot).flag = 2 ∧
      (draw polyTrig ⟨1.34, 1.34, 1.34, 1.34⟩
        (draw polyTrig ⟨1.32, 1.32, 1.32, 1.32⟩ standShot)).flag = 0 := by
  have hc : standShot.can_x ≤ -10 := by norm_num [standShot]
  have hv : 0 ≤ standShot.u * polyTrig.cos (DEG2RAD standShot.angle) := by
    norm_num [standShot, initState, polyTrig, DEG2RAD]
  have hp : standShot.pos_x = standShot.u * polyTrig.cos (DEG2RAD standShot.angle) * 1.3 := by
    norm_num [standShot, initState]
  have hq : standShot.pos_y = standShot.u * polyTrig.sin (DEG2RAD standShot.angle) * 1.3 -
      0.5 * 9.8 * 1.3 * 1.3 := by
    norm_num [standShot, initState]
  have r := rebound_leaves_world polyTrig ⟨1.32, 1.32, 1.32, 1.32⟩ ⟨1.34, 1.34, 1.34, 1.34⟩
    standShot 1.3 (Or.inr rfl) hc standShot_in_zone hp hv (by norm_num [standShot, initState])
  exact ⟨⟨hc, hv, hp, hq, standShot_in_zone⟩, r.1, r.2.2⟩

/-! ## The rolling regime and the spent branch -/

/-- A ground-contact tick inside the world whose spent branch is not taken:
the ground-contact block stores the displacement `pos_y` in `by`, so the target
and obstacle tests of the tick are made at `(bx, pos_y)`. -/
theorem rolling_tick (m : Trig) (c : Clock) (s : State)
    (hy : s.can_y + s.pos_y ≤ -7.25)
    (hin : ¬ outOfBounds (s.can_x + s.pos_x) (s.can_y + s.pos_y))
    (hns : -1 < s.u - 0.1 * 9.8 * (c.update - (if s.flag = 1 then c.launch else s.start_t))) :
    ballPart (beforeHitTests m c (viewport (rotateGuards s))) =
        ((s.can_x + s.pos_x, s.pos_y), c.update - (if s.flag = 1 then c.launch else s.start_t),
          s.u * m.cos (DEG2RAD 0) * (c.update - (if s.flag = 1 then c.launch else s.start_t)) -
            0.5 * 0.1 * 9.8 * (c.update - (if s.flag = 1 then c.launch else s.start_t)) *
              (c.update - (if s.flag = 1 then c.launch else s.start_t)),
          s.pos_y) ∧
      testedPosition m c s = (s.can_x + s.pos_x, s.pos_y) := by
  have p := ballPart_prelude_ground m c s hy
  simp only [if_neg hin] at p
  rw [if_neg (by rw [toInt_spent_iff]; exact not_le.mpr hns)] at p
  refine ⟨p, ?_⟩
  simp only [ballPart, Prod.mk.injEq] at p
  unfold testedPosition
  rw [p.1.1, p.1.2]

/-- A ground-contact tick inside the world whose spent branch is taken: the
ball is moved to (19, -10) and its displacement is zeroed, after the
out-of-bounds test of the tick has been made; `flag` is not written. -/
theorem spent_tick (m : Trig) (c : Clock) (s : State) (hf : s.flag = 1 ∨ s.flag = 2)
    (hy : s.can_y + s.pos_y ≤ -7.25)
    (hin : ¬ outOfBounds (s.can_x + s.pos_x) (s.can_y + s.pos_y))
    (hsp : s.u - 0.1 * 9.8 * (c.update - (if s.flag = 1 then c.launch else s.start_t)) ≤ -1) :
    ballPart (draw m c s) =
        ((19, -10), c.update - (if s.flag = 1 then c.launch else s.start_t), 0, 0) ∧
      (draw m c s).flag = 2 := by
  have p := ballPart_prelude_ground m c s hy
  simp only [if_neg hin] at p
  rw [if_pos (by rw [toInt_spent_iff]; exact hsp)] at p
  have p2 := p
  simp only [ballPart, Prod.mk.injEq] at p2
  obtain ⟨⟨p3, p4⟩, -⟩ := p2
  have hno : ¬ inObstacle (testedPosition m c s).1 (testedPosition m c s).2 := by
    unfold testedPosition
    rw [p3, p4]
    norm_num [inObstacle]
  have k := corePart_draw_inside m c s hf hin
  simp only [corePart, Prod.mk.injEq] at k
  refine ⟨?_, k.1.1⟩
  rw [ballPart_draw_clear m c s hf hno, p]
  norm_num

/-- C14 (a ball on the ground scores): in the Flying tick at `underTarget1`,
whose tested position (0, -7.3) is at the ground line with `bx` within
[-16, 16], the ground-contact block replaces `by` by the displacement
`pos_y = -2.8`, the test of target 1 is made at (0, -2.8) and succeeds: target
1 goes from active to inactive and the score from 0 to 1. -/
theorem C14_ground_ball_scores (m : Trig) :
    (underTarget1.can_y + underTarget1.pos_y ≤ -7.25 ∧
        -16 ≤ underTarget1.can_x + underTarget1.pos_x ∧
        underTarget1.can_x + underTarget1.pos_x ≤ 16) ∧
      (underTarget1.t1 = 1 ∧ underTarget1.score = 0) ∧
      testedPosition m ⟨0, 2.52, 2.52, 2.52⟩ underTarget1 = (0, -2.8) ∧
      (draw m ⟨0, 2.52, 2.52, 2.52⟩ underTarget1).t1 = 0 ∧
      (draw m ⟨0, 2.52, 2.52, 2.52⟩ underTarget1).score = 1 := by
  have hy : underTarget1.can_y + underTarget1.pos_y ≤ -7.25 := by norm_num [underTarget1]
  have hin : ¬ outOfBounds (underTarget1.can_x + underTarget1.pos_x)
      (underTarget1.can_y + underTarget1.pos_y) := by
    norm_num [outOfBounds, underTarget1]
  have r := rolling_tick m ⟨0, 2.52, 2.52, 2.52⟩ underTarget1 hy hin
    (by norm_num [underTarget1, initState])
  have hp : testedPosition m ⟨0, 2.52, 2.52, 2.52⟩ underTarget1 = (0, -2.8) := by
    rw [r.2]; norm_num [underTarget1]
  have e := scorePart_draw_flying m ⟨0, 2.52, 2.52, 2.52⟩ underTarget1 (Or.inr rfl)
  rw [hp] at e
  simp only [scorePart, Prod.mk.injEq] at e
  obtain ⟨⟨e1, -, -⟩, -, e7, -⟩ := e
  have h1 : hit1 (0 : ℚ) (-2.8) := by norm_num [hit1]
  have h2 : ¬ hit2 (0 : ℚ) (-2.8) := by norm_num [hit2]
  have h3 : ¬ hit3 (0 : ℚ) (-2.8) := by norm_num [hit3]
  refine ⟨⟨hy, by norm_num [underTarget1], by norm_num [underTarget1]⟩, ⟨rfl, rfl⟩, hp, ?_, ?_⟩
  · rw [e1, if_pos h1]
  · rw [e7, if_pos h1, if_neg h2, if_neg h3]
    norm_num [underTarget1, initState]

/-- C19 (the spent branch does not reset to Idle): in the ground-contact tick
at `spentBall` (tested position (-9.7, -7.3), `u = 1`, elapsed time 2.1, so
`u - 0.1*9.8*t = -1.058` and the spent branch is taken) the ball is moved to
(19, -10) and its displacement is zeroed, but the tick ends with `flag = 2`:
the projectile is still Flying.  The next tick (clock 2.12) tests the launch
origin (-10, -6.5), resumes the flight formula and also ends Flying; only the
tick after it (clock 2.14) finds the ball out of bounds and ends with
`flag = 0`. -/
theorem C19_spent_not_idle :
    (spentBall.can_y + spentBall.pos_y ≤ -7.25 ∧
        ((toInt (spentBall.u - 0.1 * 9.8 * (2.1 - spentBall.start_t)) : Int) : ℚ) < -0.02) ∧
      ((draw polyTrig ⟨0, 2.1, 2.1, 2.1⟩ spentBall).bx = 19 ∧
        (draw polyTrig ⟨0, 2.1, 2.1, 2.1⟩ spentBall).by_ = -10 ∧
        (draw polyTrig ⟨0, 2.1, 2.1, 2.1⟩ spentBall).pos_x = 0 ∧
        (draw polyTrig ⟨0, 2.1, 2.1, 2.1⟩ spentBall).pos_y = 0 ∧
        (draw polyTrig ⟨0, 2.1, 2.1, 2.1⟩ spentBall).flag = 2) ∧
      (draw polyTrig ⟨0, 2.12, 2.12, 2.12⟩
        (draw polyTrig ⟨0, 2.1, 2.1, 2.1⟩ spentBall)).flag = 2 ∧
      (draw polyTrig ⟨0, 2.14, 2.14, 2.14⟩
        (draw polyTrig ⟨0, 2.12, 2.12, 2.12⟩
          (draw polyTrig ⟨0, 2.1, 2.1, 2.1⟩ spentBall))).flag = 0 := by
  have hy : spentBall.can_y + spentBall.pos_y ≤ -7.25 := by norm_num [spentBall]
  have hin : ¬ outOfBounds (spentBall.can_x + spentBall.pos_x)
      (spentBall.can_y + spentBall.pos_y) := by
    norm_num [outOfBounds, spentBall]
  have hsp : ((toInt (spentBall.u - 0.1 * 9.8 * (2.1 - spentBall.start_t)) : Int) : ℚ)
      < -0.02 := by
    rw [toInt_spent_iff]; norm_num [spentBall, initState]
  -- the spent tick
  obtain ⟨b, f1⟩ := spent_tick polyTrig ⟨0, 2.1, 2.1, 2.1⟩ spentBall (Or.inr rfl) hy hin
    (by norm_num [spentBall, initState])
  have k := corePart_draw_inside polyTrig ⟨0, 2.1, 2.1, 2.1⟩ spentBall (Or.inr rfl) hin
  simp only [ballPart, Prod.mk.injEq] at b
  simp only [corePart, Prod.mk.injEq] at k
  obtain ⟨⟨b1, b2⟩, -, b3, b4⟩ := b
  obtain ⟨-, ⟨k1, -⟩, k2, k3, k4, k5⟩ := k
  generalize draw polyTrig ⟨0, 2.1, 2.1, 2.1⟩ spentBall = d1 at *
  have hx1 : d1.can_x + d1.pos_x = -10 := by rw [k3, b3]; norm_num [spentBall]
  have hy1 : d1.can_y + d1.pos_y = -6.5 := by rw [k4, b4]; norm_num [spentBall]
  -- the tick after it: free flight from the launch origin
  have hin2 : ¬ outOfBounds (d1.can_x + d1.pos_x) (d1.can_y + d1.pos_y) := by
    rw [hx1, hy1]; norm_num [outOfBounds]
  have b' := ballPart_draw_free polyTrig ⟨0, 2.12, 2.12, 2.12⟩ d1 (Or.inr f1)
    (by rw [hy1]; norm_num) hin2 (by rw [hx1, hy1]; norm_num [inObstacle])
  have k' := corePart_draw_inside polyTrig ⟨0, 2.12, 2.12, 2.12⟩ d1 (Or.inr f1) hin2
  simp only [ballPart, Prod.mk.injEq] at b'
  simp only [corePart, Prod.mk.injEq] at k'
  obtain ⟨-, -, -, c4⟩ := b'
  obtain ⟨⟨j1, -, -⟩, -, -, -, j4, -⟩ := k'
  have hf1 : ¬ d1.flag = 1 := by rw [f1]; norm_num
  rw [if_neg hf1, k1, k2, k5] at c4
  generalize draw polyTrig ⟨0, 2.12, 2.12, 2.12⟩ d1 = d2 at *
  -- two ticks later: out of bounds
  have ho3 : outOfBounds (d2.can_x + d2.pos_x) (d2.can_y + d2.pos_y) := by
    unfold outOfBounds
    right; left
    rw [j4, k4, c4]
    norm_num [spentBall, initState, polyTrig, DEG2RAD]
  have e := chargePart_draw_outside polyTrig ⟨0, 2.14, 2.14, 2.14⟩ d2 (Or.inr j1) ho3
  simp only [chargePart, Prod.mk.injEq] at e
  exact ⟨⟨hy, hsp⟩, ⟨b1, b2, b3, b4, f1⟩, j1, e.1⟩

/-! ## Dependence of the displacement on the previous one -/

/-- Above the ground line and outside the world the state before the target
tests has a zeroed displacement. -/
theorem ballPart_beforeHitTests_out (m : Trig) (c : Clock) (s : State)
    (hy : s.can_y + s.pos_y > -7.25)
    (ho : outOfBounds (s.can_x + s.pos_x) (s.can_y + s.pos_y)) :
    ballPart (beforeHitTests m c s) =
      ((s.can_x + s.pos_x, s.can_y + s.pos_y),
        c.update - (if s.flag = 1 then c.launch else s.start_t), 0, 0) := by
  have hg : ¬ (s.can_y + s.pos_y ≤ -7.25) := not_le.mpr hy
  unfold beforeHitTests groundContact boundsReset kinematics stampLaunch placeBall ballPart
  dsimp only
  by_cases h1 : s.flag = 1 <;> simp only [h1, if_true, if_false] <;>
    simp only [hy, ho, hg, if_true, if_false]

/-- The displacement after a tick that starts Flying with the tested position
above the ground line and outside the world is zero. -/
theorem ballPart_draw_out_above (m : Trig) (c : Clock) (s : State)
    (hf : s.flag = 1 ∨ s.flag = 2) (hy : s.can_y + s.pos_y > -7.25)
    (ho : outOfBounds (s.can_x + s.pos_x) (s.can_y + s.pos_y)) :
    (draw m c s).pos_x = 0 ∧ (draw m c s).pos_y = 0 := by
  have hno : ¬ inObstacle (s.can_x + s.pos_x) (s.can_y + s.pos_y) :=
    fun hz => (inObstacle_inside _ _ hz).2 ho
  have tp := testedPosition_above m c s hy
  have e := ballPart_draw_clear m c s hf (by rw [tp]; exact hno)
  have g := gamePart_prelude s
  simp only [gamePart, Prod.mk.injEq] at g
  obtain ⟨-, ⟨g4, g5, -, -, -, -⟩, ⟨-, -, g10, g11, -, -⟩, -⟩ := g
  have p := ballPart_beforeHitTests_out m c (viewport (rotateGuards s))
    (by rw [g5, g11]; exact hy) (by rw [g4, g5, g10, g11]; exact ho)
  rw [p] at e
  simp only [ballPart, Prod.mk.injEq] at e
  exact ⟨e.2.2.1, e.2.2.2⟩

/-- C15 as stated fails: `nearTarget1` and `groundTwin` are Flying states with
the same launch angle, launch speed, launch origin and start time, ticked with
the same clock (elapsed time 1), and differing only in the previous
displacement; the first ends with `pos_y = -4.9` (flight formula), the second,
whose tested position is at the ground line, keeps its previous `pos_y = -2`. -/
theorem C15_displacement_counterexample :
    (nearTarget1.flag = groundTwin.flag ∧ nearTarget1.angle = groundTwin.angle ∧
        nearTarget1.u = groundTwin.u ∧ nearTarget1.can_x = groundTwin.can_x ∧
        nearTarget1.can_y = groundTwin.can_y ∧ nearTarget1.start_t = groundTwin.start_t) ∧
      ((draw polyTrig ⟨0, 1, 1, 1⟩ nearTarget1).t = 1 ∧
        (draw polyTrig ⟨0, 1, 1, 1⟩ groundTwin).t = 1) ∧
      (draw polyTrig ⟨0, 1, 1, 1⟩ nearTarget1).pos_y = -4.9 ∧
      (draw polyTrig ⟨0, 1, 1, 1⟩ groundTwin).pos_y = -2 ∧
      (draw polyTrig ⟨0, 1, 1, 1⟩ nearTarget1).pos_y ≠
        (draw polyTrig ⟨0, 1, 1, 1⟩ groundTwin).pos_y := by
  have a := ballPart_draw_free polyTrig ⟨0, 1, 1, 1⟩ nearTarget1 (Or.inr rfl)
    (by norm_num [nearTarget1]) (by norm_num [outOfBounds, nearTarget1])
    (by norm_num [inObstacle, nearTarget1])
  have hy : groundTwin.can_y + groundTwin.pos_y ≤ -7.25 := by norm_num [groundTwin]
  have hin : ¬ outOfBounds (groundTwin.can_x + groundTwin.pos_x)
      (groundTwin.can_y + groundTwin.pos_y) := by
    norm_num [outOfBounds, groundTwin]
  obtain ⟨r1, r2⟩ := rolling_tick polyTrig ⟨0, 1, 1, 1⟩ groundTwin hy hin
    (by norm_num [groundTwin, initState])
  have b := ballPart_draw_clear polyTrig ⟨0, 1, 1, 1⟩ groundTwin (Or.inr rfl)
    (by rw [r2]; norm_num [inObstacle, groundTwin])
  rw [r1] at b
  simp only [ballPart, Prod.mk.injEq] at a b
  obtain ⟨-, a1, -, a3⟩ := a
  obtain ⟨-, b1, -, b3⟩ := b
  have ha : (draw polyTrig ⟨0, 1, 1, 1⟩ nearTarget1).pos_y = -4.9 := by
    rw [a3]; norm_num [nearTarget1, initState, polyTrig, DEG2RAD]
  have hb : (draw polyTrig ⟨0, 1, 1, 1⟩ groundTwin).pos_y = -2 := by
    rw [b3]; norm_num [groundTwin]
  refine ⟨⟨rfl, rfl, rfl, rfl, rfl, rfl⟩, ⟨?_, ?_⟩, ha, hb, ?_⟩
  · rw [a1]; norm_num [nearTarget1, initState]
  · rw [b1]; norm_num [groundTwin, initState]
  · rw [ha, hb]; norm_num

/-- C15 (amended): two Flying states that agree on launch angle, launch speed
and elapsed time, and whose tested positions are both above the ground line,
on the same side of the world-bounds test and on the same side of the
obstacle-zone test, have the same `pos_x` and `pos_y` after the tick, whatever
their previous displacement and launch origin. -/
theorem C15_same_branch_same_displacement (m : Trig) (c c1 : Clock) (s s1 : State)
    (hf : s.flag = 1 ∨ s.flag = 2) (hf1 : s1.flag = 1 ∨ s1.flag = 2)
    (ha : s.angle = s1.angle) (hu : s.u = s1.u)
    (ht : c.update - (if s.flag = 1 then c.launch else s.start_t) =
      c1.update - (if s1.flag = 1 then c1.launch else s1.start_t))
    (hy : s.can_y + s.pos_y > -7.25) (hy1 : s1.can_y + s1.pos_y > -7.25)
    (hb : outOfBounds (s.can_x + s.pos_x) (s.can_y + s.pos_y) ↔
      outOfBounds (s1.can_x + s1.pos_x) (s1.can_y + s1.pos_y))
    (hz : inObstacle (s.can_x + s.pos_x) (s.can_y + s.pos_y) ↔
      inObstacle (s1.can_x + s1.pos_x) (s1.can_y + s1.pos_y)) :
    (draw m c s).pos_x = (draw m c1 s1).pos_x ∧ (draw m c s).pos_y = (draw m c1 s1).pos_y := by
  by_cases z : inObstacle (s.can_x + s.pos_x) (s.can_y + s.pos_y)
  · have a := ballPart_draw_obstacle m c s hf z
    have b := ballPart_draw_obstacle m c1 s1 hf1 (hz.mp z)
    simp only [ballPart, Prod.mk.injEq] at a b
    rw [a.2.2.1, a.2.2.2, b.2.2.1, b.2.2.2, ha, hu, ht]
    exact ⟨rfl, rfl⟩
  · by_cases o : outOfBounds (s.can_x + s.pos_x) (s.can_y + s.pos_y)
    · have a := ballPart_draw_out_above m c s hf hy o
      have b := ballPart_draw_out_above m c1 s1 hf1 hy1 (hb.mp o)
      rw [a.1, a.2, b.1, b.2]
      exact ⟨rfl, rfl⟩
    · have a := ballPart_draw_free m c s hf hy o z
      have b := ballPart_draw_free m c1 s1 hf1 hy1 (fun h => o (hb.mpr h))
        (fun h => z (hz.mpr h))
      simp only [ballPart, Prod.mk.injEq] at a b
      rw [a.2.2.1, a.2.2.2, b.2.2.1, b.2.2.2, ha, hu, ht]
      exact ⟨rfl, rfl⟩

/-- C15 (amended) at `nearTarget1` and `nearTarget3`, two Flying states in free
flight with the same flight parameters and different previous displacements. -/
theorem C15_same_branch_same_displacement_witness :
    (nearTarget1.angle = nearTarget3.angle ∧ nearTarget1.u = nearTarget3.u ∧
        nearTarget1.can_y + nearTarget1.pos_y > -7.25 ∧
        nearTarget3.can_y + nearTarget3.pos_y > -7.25 ∧
        nearTarget1.pos_x ≠ nearTarget3.pos_x) ∧
      (draw polyTrig ⟨0, 1, 1, 1⟩ nearTarget1).pos_x =
        (draw polyTrig ⟨0, 1, 1, 1⟩ nearTarget3).pos_x ∧
      (draw polyTrig ⟨0, 1, 1, 1⟩ nearTarget1).pos_y =
        (draw polyTrig ⟨0, 1, 1, 1⟩ nearTarget3).pos_y :=
  ⟨⟨rfl, rfl, by norm_num [nearTarget1], by norm_num [nearTarget3],
      by norm_num [nearTarget1, nearTarget3]⟩,
    C15_same_branch_same_displacement polyTrig ⟨0, 1, 1, 1⟩ ⟨0, 1, 1, 1⟩ nearTarget1 nearTarget3
      (Or.inr rfl) (Or.inr rfl) rfl rfl rfl (by norm_num [nearTarget1])
      (by norm_num [nearTarget3])
      (by norm_num [outOfBounds, nearTarget1, nearTarget3])
      (by norm_num [inObstacle, nearTarget1, nearTarget3])⟩

/-! ## Order of the out-of-bounds reset and the ground-contact block -/

/-- The position tested at line 1173 is the one computed at lines 1145-1146. -/
theorem afterKinematics_position (m : Trig) (c : Clock) (s : State) :
    (afterKinematics m c s).bx = s.can_x + s.pos_x ∧
      (afterKinematics m c s).by_ = s.can_y + s.pos_y := by
  have g := gamePart_prelude s
  simp only [gamePart, Prod.mk.injEq] at g
  obtain ⟨-, ⟨g4, g5, -, -, -, -⟩, ⟨-, -, g10, g11, -, -⟩, -⟩ := g
  have h2 : ∀ s, (stampLaunch c s).bx = s.bx ∧ (stampLaunch c s).by_ = s.by_ := fun s => by
    unfold stampLaunch; split_ifs <;> exact ⟨rfl, rfl⟩
  have h3 : ∀ s, (kinematics m c s).bx = s.bx ∧ (kinematics m c s).by_ = s.by_ := fun s => by
    unfold kinematics; dsimp only; split_ifs <;> exact ⟨rfl, rfl⟩
  unfold afterKinematics
  rw [(h3 _).1, (h3 _).2, (h2 _).1, (h2 _).2, ← g4, ← g5, ← g10, ← g11]
  exact ⟨rfl, rfl⟩

/-- The out-of-bounds reset zeroes `pos_x` when its condition holds. -/
theorem boundsReset_pos_x (s : State) (ho : outOfBounds s.bx s.by_) :
    (boundsReset s).pos_x = 0 := by
  unfold boundsReset; rw [if_pos ho]

/-- C18 (the reset runs first, the ground-contact block second): in the Flying
tick at `groundExit` both conditions hold for the tested position
(16.5, -7.3); the out-of-bounds reset is applied first and leaves `pos_x = 0`,
the ground-contact block is applied to its result, and the tick ends with
`pos_x = 10.59`, not 0. -/
theorem C18_reset_before_ground :
    (outOfBounds (afterKinematics polyTrig ⟨0, 3, 3, 3⟩ groundExit).bx
          (afterKinematics polyTrig ⟨0, 3, 3, 3⟩ groundExit).by_ ∧
        (afterKinematics polyTrig ⟨0, 3, 3, 3⟩ groundExit).by_ ≤ -7.25) ∧
      (boundsReset (afterKinematics polyTrig ⟨0, 3, 3, 3⟩ groundExit)).pos_x = 0 ∧
      (draw polyTrig ⟨0, 3, 3, 3⟩ groundExit).pos_x =
        (groundContact polyTrig
          (boundsReset (afterKinematics polyTrig ⟨0, 3, 3, 3⟩ groundExit))).pos_x ∧
      (draw polyTrig ⟨0, 3, 3, 3⟩ groundExit).pos_x = 10.59 ∧
      (draw polyTrig ⟨0, 3, 3, 3⟩ groundExit).pos_x ≠ 0 := by
  obtain ⟨q1, q2⟩ := afterKinematics_position polyTrig ⟨0, 3, 3, 3⟩ groundExit
  have ho : outOfBounds (groundExit.can_x + groundExit.pos_x)
      (groundExit.can_y + groundExit.pos_y) := by
    norm_num [outOfBounds, groundExit]
  have hy : groundExit.can_y + groundExit.pos_y ≤ -7.25 := by norm_num [groundExit]
  have p := ballPart_prelude_ground polyTrig ⟨0, 3, 3, 3⟩ groundExit hy
  simp only [if_pos ho] at p
  rw [if_neg (by rw [toInt_spent_iff]; norm_num [groundExit, initState])] at p
  have p2 := p
  simp only [ballPart, Prod.mk.injEq] at p2
  obtain ⟨⟨p3, p4⟩, -, p5, -⟩ := p2
  have b := ballPart_draw_clear polyTrig ⟨0, 3, 3, 3⟩ groundExit (Or.inr rfl)
    (by unfold testedPosition; rw [p3, p4]; norm_num [inObstacle, groundExit])
  simp only [ballPart, Prod.mk.injEq] at b
  have hd : (draw polyTrig ⟨0, 3, 3, 3⟩ groundExit).pos_x = 10.59 := by
    rw [b.2.2.1, p5]; norm_num [groundExit, initState, polyTrig, DEG2RAD]
  refine ⟨⟨by rw [q1, q2]; exact ho, by rw [q2]; exact hy⟩,
    boundsReset_pos_x _ (by rw [q1, q2]; exact ho), b.2.2.1, hd, ?_⟩
  rw [hd]; norm_num

/-! ## The effective spent threshold -/

/-- The ground-contact block on a state at or below the ground line, by the
value of `u - 0.98*t`: at most -1, the spent branch runs; above -1, it does
not. -/
theorem groundContact_by_residual (m : Trig) (s : State) (hy : s.by_ ≤ -7.25) :
    (s.u - 0.98 * s.t ≤ -1 → ballPart (groundContact m s) = ((19, -10), s.t, 0, 0)) ∧
      (-1 < s.u - 0.98 * s.t →
        ballPart (groundContact m s) =
          ((s.bx, s.pos_y), s.t,
            s.u * m.cos (DEG2RAD 0) * s.t - 0.5 * 0.1 * 9.8 * s.t * s.t, s.pos_y)) := by
  have e : s.u - 0.1 * 9.8 * s.t = s.u - 0.98 * s.t := by norm_num
  unfold groundContact ballPart
  rw [if_pos hy]
  dsimp only
  constructor
  · intro h
    rw [if_pos (by rw [toInt_spent_iff, e]; exact h)]
    norm_num
  · intro h
    rw [if_neg (by rw [toInt_spent_iff, e]; exact not_le.mpr h)]

/-- C21: in a tick whose tested position is at or below the ground line, with
`u` the launch speed left by the out-of-bounds test (5 if it fired) and `t` the
elapsed time, the comparison `lala < -.02` on the truncated value holds, and
the spent branch is taken (the ball is moved to (19, -10)), if and only if
`u - 0.98*t ≤ -1`; while `u - 0.98*t > -1`, in particular for every positive
value, the branch is not taken and the ball stays at `bx`. -/
theorem C21_effective_spent_threshold (m : Trig) (c : Clock) (s : State)
    (hy : s.can_y + s.pos_y ≤ -7.25) :
    ((((toInt ((if outOfBounds (s.can_x + s.pos_x) (s.can_y + s.pos_y) then 5 else s.u) -
            0.1 * 9.8 * (c.update - (if s.flag = 1 then c.launch else s.start_t))) : Int) : ℚ)
          < -0.02) ↔
        (if outOfBounds (s.can_x + s.pos_x) (s.can_y + s.pos_y) then 5 else s.u) -
          0.98 * (c.update - (if s.flag = 1 then c.launch else s.start_t)) ≤ -1) ∧
      (testedPosition m c s = (19, -10) ↔
        (if outOfBounds (s.can_x + s.pos_x) (s.can_y + s.pos_y) then 5 else s.u) -
          0.98 * (c.update - (if s.flag = 1 then c.launch else s.start_t)) ≤ -1) ∧
      (-1 < (if outOfBounds (s.can_x + s.pos_x) (s.can_y + s.pos_y) then 5 else s.u) -
          0.98 * (c.update - (if s.flag = 1 then c.launch else s.start_t)) →
        testedPosition m c s =
          (s.can_x + s.pos_x,
            if outOfBounds (s.can_x + s.pos_x) (s.can_y + s.pos_y) then 0 else s.pos_y)) := by
  have p := ballPart_prelude_ground m c s hy
  generalize hU : (if outOfBounds (s.can_x + s.pos_x) (s.can_y + s.pos_y) then 5 else s.u) = U
    at p ⊢
  generalize hT : c.update - (if s.flag = 1 then c.launch else s.start_t) = T at p ⊢
  have e : U - 0.1 * 9.8 * T = U - 0.98 * T := by norm_num
  have k : (((toInt (U - 0.1 * 9.8 * T) : Int) : ℚ) < -0.02) ↔ U - 0.98 * T ≤ -1 := by
    rw [toInt_spent_iff, e]
  have hnot : -1 < U - 0.98 * T →
      testedPosition m c s =
        (s.can_x + s.pos_x,
          if outOfBounds (s.can_x + s.pos_x) (s.can_y + s.pos_y) then 0 else s.pos_y) := by
    intro h
    rw [if_neg (fun hc => absurd (k.mp hc) (not_le.mpr h))] at p
    simp only [ballPart, Prod.mk.injEq] at p
    unfold testedPosition
    rw [p.1.1, p.1.2]
  refine ⟨k, ⟨?_, ?_⟩, hnot⟩
  · intro ht
    by_contra hc
    have h := hnot (not_le.mp hc)
    rw [ht] at h
    simp only [Prod.mk.injEq] at h
    obtain ⟨h1, h2⟩ := h
    by_cases ho : outOfBounds (s.can_x + s.pos_x) (s.can_y + s.pos_y)
    · rw [if_pos ho] at h2
      norm_num at h2
    · apply ho
      unfold outOfBounds
      left
      rw [← h1]
      norm_num
  · intro h
    rw [if_pos (k.mpr h)] at p
    simp only [ballPart, Prod.mk.injEq] at p
    unfold testedPosition
    rw [p.1.1, p.1.2]
    norm_num

/-- C21 at `spentBall` (`u - 0.98*t = -1.058`, branch taken) and at
`groundTwin` (`u - 0.98*t = 9.02`, branch not taken). -/
theorem C21_effective_spent_threshold_witness :
    (spentBall.can_y + spentBall.pos_y ≤ -7.25 ∧
        testedPosition polyTrig ⟨0, 2.1, 2.1, 2.1⟩ spentBall = (19, -10)) ∧
      (groundTwin.can_y + groundTwin.pos_y ≤ -7.25 ∧
        testedPosition polyTrig ⟨0, 1, 1, 1⟩ groundTwin ≠ (19, -10)) := by
  have h1 : spentBall.can_y + spentBall.pos_y ≤ -7.25 := by norm_num [spentBall]
  have h2 : groundTwin.can_y + groundTwin.pos_y ≤ -7.25 := by norm_num [groundTwin]
  refine ⟨⟨h1, ?_⟩, h2, ?_⟩
  · exact (C21_effective_spent_threshold polyTrig ⟨0, 2.1, 2.1, 2.1⟩ spentBall h1).2.1.mpr
      (by norm_num [spentBall, initState, outOfBounds])
  · intro hc
    have h := (C21_effective_spent_threshold polyTrig ⟨0, 1, 1, 1⟩ groundTwin h2).2.1.mp hc
    norm_num [groundTwin, initState, outOfBounds] at h

/-! ## A run that hits target 1 -/

theorem ballPart_draw_idle (m : Trig) (c : Clock) (s : State)
    (hf : ¬ (s.flag = 1 ∨ s.flag = 2)) : ballPart (draw m c s) = ballPart s := by
  have g := gamePart_prelude s
  simp only [gamePart, Prod.mk.injEq] at g
  obtain ⟨⟨g1, -, -⟩, -, ⟨g2, -, g3, g4, g5, g6⟩, -⟩ := g
  have i := gamePart_increment (charge (flight m c (viewport (rotateGuards s))))
  simp only [gamePart, Prod.mk.injEq] at i
  obtain ⟨-, -, ⟨i1, -, i2, i3, i4, i5⟩, -⟩ := i
  have hx : flight m c (viewport (rotateGuards s)) = viewport (rotateGuards s) := by
    unfold flight
    rw [if_neg (by rw [g1]; exact hf)]
  have hd : ballPart (draw m c s) =
      ballPart (charge (flight m c (viewport (rotateGuards s)))) := by
    unfold draw ballPart
    rw [i1, i2, i3, i4, i5]
  rw [hd, ballPart_charge, hx]
  unfold ballPart
  rw [g2, g3, g4, g5, g6]

/-- Ticks are inputs: the state after `n` ticks of a reachable state is
reachable. -/
theorem reachable_iterate (m : Trig) (c : Clock) (n : ℕ) (s : State) (h : Reachable m s) :
    Reachable m (Nat.iterate (draw m c) n s) := by
  induction n generalizing s with
  | zero => exact h
  | succ k ih =>
    rw [Function.iterate_succ_apply]
    exact ih (draw m c s) (Reachable.next s (draw m c s) (.tick c) h rfl)

/-- The run of `n` ticks ends in the `n`-fold application of `draw`. -/
theorem run_ticks (m : Trig) (c : Clock) (n : ℕ) (s : State) :
    run m s (List.replicate n (.tick c)) = some (Nat.iterate (draw m c) n s) := by
  induction n generalizing s with
  | zero => rfl
  | succ k ih =>
    simp only [List.replicate_succ, run, step, Option.some_bind, Function.iterate_succ_apply]
    exact ih (draw m c s)

/-- With A and F held while Idle (B and S up), `n` ticks add `n` degrees and
`n * 0.2` to the launch speed, and leave the ball and the scores alone. -/
theorem aim_and_charge (m : Trig) (c : Clock) (n : ℕ) (s : State) (h0 : s.flag = 0)
    (hf : s.flag_f = 1) (hs : s.flag_s = 0) (ha : s.rot_a = 1) (hb : s.rot_b = 0)
    (hd : s.canon_rot_dir = 1) (hst : s.canon_rot_status = true ∨ s.canon_rotation ≤ 90) :
    (Nat.iterate (draw m c) n s).flag = 0 ∧
      (Nat.iterate (draw m c) n s).u = s.u + 0.2 * (n : ℚ) ∧
      (Nat.iterate (draw m c) n s).canon_rotation = s.canon_rotation + (n : ℚ) ∧
      (Nat.iterate (draw m c) n s).pos_x = s.pos_x ∧
      (Nat.iterate (draw m c) n s).pos_y = s.pos_y ∧
      scorePart (Nat.iterate (draw m c) n s) = scorePart s := by
  induction n generalizing s with
  | zero => exact ⟨h0, by simp, by simp, rfl, rfl, rfl⟩
  | succ k ih =>
    have hnf : ¬ (s.flag = 1 ∨ s.flag = 2) := by rw [h0]; norm_num
    have e := chargePart_draw_idle m c s h0
    simp only [chargePart, Prod.mk.injEq] at e
    obtain ⟨e1, e2, e3, e4, -⟩ := e
    rw [hf, hs] at e4
    simp only [if_true, zero_ne_one, false_and, if_false] at e4
    have r := rotPart_draw m c s
    have g : rotPart (rotateGuards s) = (s.canon_rotation, 1, 0, true, 1) := by
      unfold rotateGuards rotPart
      rcases hst with hst | hst
      · by_cases h90 : s.canon_rotation ≤ 90 <;> simp [h90, ha, hb, hd, hst]
      · simp [hst, ha, hb, hd]
    simp only [rotPart, Prod.mk.injEq] at r g
    obtain ⟨g1, g2, g3, g4, g5⟩ := g
    rw [g1, g2, g3, g4, g5] at r
    obtain ⟨r1, r2, r3, r4, r5⟩ := r
    have b := ballPart_draw_idle m c s hnf
    simp only [ballPart, Prod.mk.injEq] at b
    obtain ⟨-, -, b3, b4⟩ := b
    have sc := scorePart_draw_idle m c s hnf
    obtain ⟨a1, a2, a3, a4, a5, a6⟩ :=
      ih (draw m c s) e1 (by rw [e2, hf]) (by rw [e3, hs]) r2 r3 r5 (Or.inl r4)
    rw [Function.iterate_succ_apply]
    refine ⟨a1, ?_, ?_, ?_, ?_, ?_⟩
    · rw [a2, e4]; push_cast; ring
    · rw [a3, r1]; push_cast; simp; ring
    · rw [a4, b3]
    · rw [a5, b4]
    · rw [a6, sc]

/-- A tick of a Flying state whose ball is above the ground line, inside the
world and outside the obstacle zones: the flight goes on with the same
trajectory parameters, the displacement is the free-flight one, and the
targets are tested at the position the ball had before the tick. -/
theorem free_tick (m : Trig) (c : Clock) (s : State) (hf : s.flag = 1 ∨ s.flag = 2)
    (hy : s.can_y + s.pos_y > -7.25)
    (hin : ¬ outOfBounds (s.can_x + s.pos_x) (s.can_y + s.pos_y))
    (hno : ¬ inObstacle (s.can_x + s.pos_x) (s.can_y + s.pos_y)) :
    ((draw m c s).flag = 2 ∧ (draw m c s).u = s.u ∧ (draw m c s).angle = s.angle ∧
        (draw m c s).can_x = s.can_x ∧ (draw m c s).can_y = s.can_y ∧
        (draw m c s).start_t = (if s.flag = 1 then c.launch else s.start_t)) ∧
      ((draw m c s).pos_x = s.u * m.cos (DEG2RAD s.angle) *
          (c.update - (if s.flag = 1 then c.launch else s.start_t)) ∧
        (draw m c s).pos_y = s.u * m.sin (DEG2RAD s.angle) *
          (c.update - (if s.flag = 1 then c.launch else s.start_t)) -
            0.5 * 9.8 * (c.update - (if s.flag = 1 then c.launch else s.start_t)) *
              (c.update - (if s.flag = 1 then c.launch else s.start_t))) ∧
      testedPosition m c s = (s.can_x + s.pos_x, s.can_y + s.pos_y) := by
  have e := corePart_draw_inside m c s hf hin
  simp only [corePart, Prod.mk.injEq] at e
  obtain ⟨⟨e1, -, -⟩, ⟨e2, -⟩, e3, e4, e5, e6⟩ := e
  have b := ballPart_draw_free m c s hf hy hin hno
  simp only [ballPart, Prod.mk.injEq] at b
  obtain ⟨-, -, b1, b2⟩ := b
  exact ⟨⟨e1, e2, e3, e4, e5, e6⟩, ⟨b1, b2⟩, testedPosition_above m c s hy⟩

/-- The state `aimStart` is reached by pressing A and F. -/
theorem aimStart_run :
    run polyTrig initState [.key .GLFW_KEY_A .GLFW_PRESS, .key .GLFW_KEY_F .GLFW_PRESS] =
      some aimStart := rfl

/-- After the 25 ticks of aiming and charging the game is Idle, the cannon is
at 25 degrees, the launch speed is 15, and nothing was scored. -/
theorem aimed_facts :
    aimed.flag = 0 ∧ aimed.u = 15 ∧ aimed.canon_rotation = 25 ∧ aimed.pos_x = 0 ∧
      aimed.pos_y = 0 ∧ scorePart aimed = ((1, 1, 1), (0, 0, 0), 0, 0) := by
  obtain ⟨a1, a2, a3, a4, a5, a6⟩ :=
    aim_and_charge polyTrig ⟨0, 0, 0, 0⟩ 25 aimStart rfl rfl rfl rfl rfl rfl (Or.inr (by decide))
  refine ⟨a1, ?_, ?_, a4, a5, a6⟩
  · unfold aimed; rw [a2]; norm_num [aimStart, initState]
  · unfold aimed; rw [a3]; norm_num [aimStart, initState]

/-- The launch: the state `launched` is in its first Flying tick, with the
snapshot taken at 25 degrees and speed 15. -/
theorem launched_facts :
    launched.flag = 1 ∧ launched.u = 15 ∧ launched.angle = 25 ∧
      launched.can_x = -12 + 2 * polyTrig.cos (DEG2RAD (25 + polyTrig.atan (0.5 / 2))) ∧
      launched.can_y = -6.5 + 2 * polyTrig.sin (DEG2RAD (25 + polyTrig.atan (0.5 / 2))) ∧
      launched.pos_x = 0 ∧ launched.pos_y = 0 ∧
      scorePart launched = ((1, 1, 1), (0, 0, 0), 0, 0) := by
  obtain ⟨a1, a2, a3, a4, a5, a6⟩ := aimed_facts
  have e : launched =
      { aimed with
        angle := aimed.canon_rotation
        can_x := -12 + 2 * polyTrig.cos (DEG2RAD (aimed.canon_rotation + polyTrig.atan (0.5 / 2)))
        can_y := -6.5 + 2 * polyTrig.sin (DEG2RAD (aimed.canon_rotation + polyTrig.atan (0.5 / 2)))
        flag := 1
        flag_f := 0 } := by
    unfold launched mouseButton
    simp only [if_pos a1]
  rw [e, ← a6]
  refine ⟨rfl, a2, a3, ?_, ?_, a4, a5, rfl⟩
  · show -12 + 2 * polyTrig.cos (DEG2RAD (aimed.canon_rotation + polyTrig.atan (0.5 / 2))) = _
    rw [a3]
  · show -6.5 + 2 * polyTrig.sin (DEG2RAD (aimed.canon_rotation + polyTrig.atan (0.5 / 2))) = _
    rw [a3]

/-- One free-flight tick of the shot fired from `aimed`, started at clock 1:
a state of that shot at elapsed time `T` goes to the state at elapsed time
`c.update - 1`, and the tick tests the position of elapsed time `T`. -/
theorem shot_tick (c : Clock) (s : State) (T : ℚ) (hf : s.flag = 1 ∨ s.flag = 2)
    (hst : (if s.flag = 1 then c.launch else s.start_t) = 1) (hu : s.u = 15)
    (ha : s.angle = 25)
    (hx : s.can_x = -12 + 2 * polyTrig.cos (DEG2RAD (25 + polyTrig.atan (0.5 / 2))))
    (hy : s.can_y = -6.5 + 2 * polyTrig.sin (DEG2RAD (25 + polyTrig.atan (0.5 / 2))))
    (hpx : s.pos_x = 15 * polyTrig.cos (DEG2RAD 25) * T)
    (hpy : s.pos_y = 15 * polyTrig.sin (DEG2RAD 25) * T - 0.5 * 9.8 * T * T)
    (hg : s.can_y + s.pos_y > -7.25)
    (hin : ¬ outOfBounds (s.can_x + s.pos_x) (s.can_y + s.pos_y))
    (hno : ¬ inObstacle (s.can_x + s.pos_x) (s.can_y + s.pos_y)) :
    ((draw polyTrig c s).flag = 2 ∧ (draw polyTrig c s).start_t = 1 ∧
        (draw polyTrig c s).u = 15 ∧ (draw polyTrig c s).angle = 25 ∧
        (draw polyTrig c s).can_x =
          -12 + 2 * polyTrig.cos (DEG2RAD (25 + polyTrig.atan (0.5 / 2))) ∧
        (draw polyTrig c s).can_y =
          -6.5 + 2 * polyTrig.sin (DEG2RAD (25 + polyTrig.atan (0.5 / 2)))) ∧
      ((draw polyTrig c s).pos_x = 15 * polyTrig.cos (DEG2RAD 25) * (c.update - 1) ∧
        (draw polyTrig c s).pos_y = 15 * polyTrig.sin (DEG2RAD 25) * (c.update - 1) -
          0.5 * 9.8 * (c.update - 1) * (c.update - 1)) ∧
      testedPosition polyTrig c s =
        (-12 + 2 * polyTrig.cos (DEG2RAD (25 + polyTrig.atan (0.5 / 2))) +
            15 * polyTrig.cos (DEG2RAD 25) * T,
          -6.5 + 2 * polyTrig.sin (DEG2RAD (25 + polyTrig.atan (0.5 / 2))) +
            (15 * polyTrig.sin (DEG2RAD 25) * T - 0.5 * 9.8 * T * T)) := by
  obtain ⟨⟨e1, e2, e3, e4, e5, e6⟩, ⟨b1, b2⟩, tp⟩ := free_tick polyTrig c s hf hg hin hno
  rw [hst] at e6 b1 b2
  rw [hu, ha] at b1 b2
  refine ⟨⟨e1, e6, ?_, ?_, ?_, ?_⟩, ⟨b1, b2⟩, ?_⟩
  · rw [e2, hu]
  · rw [e3, ha]
  · rw [e4, hx]
  · rw [e5, hy]
  · rw [tp, hx, hy, hpx, hpy]

/-- The muzzle of the shot, about (-10.19, -5.65), is above the ground line,
inside the world, outside the obstacle zones and outside every hit region. -/
theorem muzzle_clear :
    -6.5 + 2 * polyTrig.sin (DEG2RAD (25 + polyTrig.atan (0.5 / 2))) +
        (15 * polyTrig.sin (DEG2RAD 25) * 0 - 0.5 * 9.8 * 0 * 0) > -7.25 ∧
      ¬ outOfBounds
        (-12 + 2 * polyTrig.cos (DEG2RAD (25 + polyTrig.atan (0.5 / 2))) +
          15 * polyTrig.cos (DEG2RAD 25) * 0)
        (-6.5 + 2 * polyTrig.sin (DEG2RAD (25 + polyTrig.atan (0.5 / 2))) +
          (15 * polyTrig.sin (DEG2RAD 25) * 0 - 0.5 * 9.8 * 0 * 0)) ∧
      ¬ inObstacle
        (-12 + 2 * polyTrig.cos (DEG2RAD (25 + polyTrig.atan (0.5 / 2))) +
          15 * polyTrig.cos (DEG2RAD 25) * 0)
        (-6.5 + 2 * polyTrig.sin (DEG2RAD (25 + polyTrig.atan (0.5 / 2))) +
          (15 * polyTrig.sin (DEG2RAD 25) * 0 - 0.5 * 9.8 * 0 * 0)) ∧
      ¬ hit1
        (-12 + 2 * polyTrig.cos (DEG2RAD (25 + polyTrig.atan (0.5 / 2))) +
          15 * polyTrig.cos (DEG2RAD 25) * 0)
        (-6.5 + 2 * polyTrig.sin (DEG2RAD (25 + polyTrig.atan (0.5 / 2))) +
          (15 * polyTrig.sin (DEG2RAD 25) * 0 - 0.5 * 9.8 * 0 * 0)) ∧
      ¬ hit2
        (-12 + 2 * polyTrig.cos (DEG2RAD (25 + polyTrig.atan (0.5 / 2))) +
          15 * polyTrig.cos (DEG2RAD 25) * 0)
        (-6.5 + 2 * polyTrig.sin (DEG2RAD (25 + polyTrig.atan (0.5 / 2))) +
          (15 * polyTrig.sin (DEG2RAD 25) * 0 - 0.5 * 9.8 * 0 * 0)) ∧
      ¬ hit3
        (-12 + 2 * polyTrig.cos (DEG2RAD (25 + polyTrig.atan (0.5 / 2))) +
          15 * polyTrig.cos (DEG2RAD 25) * 0)
        (-6.5 + 2 * polyTrig.sin (DEG2RAD (25 + polyTrig.atan (0.5 / 2))) +
          (15 * polyTrig.sin (DEG2RAD 25) * 0 - 0.5 * 9.8 * 0 * 0)) := by
  refine ⟨?_, ?_, ?_, ?_, ?_, ?_⟩ <;>
    norm_num [polyTrig, DEG2RAD, outOfBounds, inObstacle, hit1, hit2, hit3]

/-- At elapsed time 0.70 the ball of the shot is at about (-0.67, -3.61):
above the ground line, inside the world, above obstacle zone 1, and inside
the hit region of target 1. -/
theorem shot_at_070 :
    -6.5 + 2 * polyTrig.sin (DEG2RAD (25 + polyTrig.atan (0.5 / 2))) +
        (15 * polyTrig.sin (DEG2RAD 25) * 0.70 - 0.5 * 9.8 * 0.70 * 0.70) > -7.25 ∧
      ¬ outOfBounds
        (-12 + 2 * polyTrig.cos (DEG2RAD (25 + polyTrig.atan (0.5 / 2))) +
          15 * polyTrig.cos (DEG2RAD 25) * 0.70)
        (-6.5 + 2 * polyTrig.sin (DEG2RAD (25 + polyTrig.atan (0.5 / 2))) +
          (15 * polyTrig.sin (DEG2RAD 25) * 0.70 - 0.5 * 9.8 * 0.70 * 0.70)) ∧
      ¬ inObstacle
        (-12 + 2 * polyTrig.cos (DEG2RAD (25 + polyTrig.atan (0.5 / 2))) +
          15 * polyTrig.cos (DEG2RAD 25) * 0.70)
        (-6.5 + 2 * polyTrig.sin (DEG2RAD (25 + polyTrig.atan (0.5 / 2))) +
          (15 * polyTrig.sin (DEG2RAD 25) * 0.70 - 0.5 * 9.8 * 0.70 * 0.70)) ∧
      hit1
        (-12 + 2 * polyTrig.cos (DEG2RAD (25 + polyTrig.atan (0.5 / 2))) +
          15 * polyTrig.cos (DEG2RAD 25) * 0.70)
        (-6.5 + 2 * polyTrig.sin (DEG2RAD (25 + polyTrig.atan (0.5 / 2))) +
          (15 * polyTrig.sin (DEG2RAD 25) * 0.70 - 0.5 * 9.8 * 0.70 * 0.70)) := by
  refine ⟨?_, ?_, ?_, ?_⟩ <;> norm_num [polyTrig, DEG2RAD, outOfBounds, inObstacle, hit1]

/-- At elapsed time 0.71 the ball of the shot is at about (-0.54, -3.62):
above the ground line and still inside the hit region of target 1. -/
theorem shot_at_071 :
    -6.5 + 2 * polyTrig.sin (DEG2RAD (25 + polyTrig.atan (0.5 / 2))) +
        (15 * polyTrig.sin (DEG2RAD 25) * 0.71 - 0.5 * 9.8 * 0.71 * 0.71) > -7.25 ∧
      hit1
        (-12 + 2 * polyTrig.cos (DEG2RAD (25 + polyTrig.atan (0.5 / 2))) +
          15 * polyTrig.cos (DEG2RAD 25) * 0.71)
        (-6.5 + 2 * polyTrig.sin (DEG2RAD (25 + polyTrig.atan (0.5 / 2))) +
          (15 * polyTrig.sin (DEG2RAD 25) * 0.71 - 0.5 * 9.8 * 0.71 * 0.71)) := by
  refine ⟨?_, ?_⟩ <;> norm_num [polyTrig, DEG2RAD, hit1]

/-- The shot at elapsed time 0.70: the state `inFlight` is Flying on the
trajectory of the shot, and no target has been hit yet. -/
theorem inFlight_facts :
    inFlight.flag = 2 ∧ inFlight.start_t = 1 ∧ inFlight.u = 15 ∧ inFlight.angle = 25 ∧
      inFlight.can_x = -12 + 2 * polyTrig.cos (DEG2RAD (25 + polyTrig.atan (0.5 / 2))) ∧
      inFlight.can_y = -6.5 + 2 * polyTrig.sin (DEG2RAD (25 + polyTrig.atan (0.5 / 2))) ∧
      inFlight.pos_x = 15 * polyTrig.cos (DEG2RAD 25) * 0.70 ∧
      inFlight.pos_y = 15 * polyTrig.sin (DEG2RAD 25) * 0.70 - 0.5 * 9.8 * 0.70 * 0.70 ∧
      scorePart inFlight = ((1, 1, 1), (0, 0, 0), 0, 0) := by
  obtain ⟨l1, l2, l3, l4, l5, l6, l7, l8⟩ := launched_facts
  obtain ⟨m1, m2, m3, m4, m5, m6⟩ := muzzle_clear
  have lx : launched.pos_x = 15 * polyTrig.cos (DEG2RAD 25) * 0 := by rw [l6]; ring
  have ly : launched.pos_y = 15 * polyTrig.sin (DEG2RAD 25) * 0 - 0.5 * 9.8 * 0 * 0 := by
    rw [l7]; ring
  obtain ⟨⟨a1, a2, a3, a4, a5, a6⟩, ⟨a7, a8⟩, atp⟩ :=
    shot_tick ⟨1, 1, 1, 1⟩ launched 0 (Or.inl l1) (by rw [if_pos l1]) l2 l3 l4 l5 lx ly
      (by rw [l5, ly]; exact m1) (by rw [l4, l5, lx, ly]; exact m2)
      (by rw [l4, l5, lx, ly]; exact m3)
  have asc := scorePart_draw_flying polyTrig ⟨1, 1, 1, 1⟩ launched (Or.inl l1)
  rw [atp] at asc
  simp only [if_neg m4, if_neg m5, if_neg m6] at asc
  have l8a := l8
  simp only [scorePart, Prod.mk.injEq] at l8a
  obtain ⟨⟨t1, t2, t3⟩, ⟨s1, s2, s3⟩, -, so⟩ := l8a
  rw [t1, t2, t3, s1, s2, s3, so] at asc
  have ax : (draw polyTrig ⟨1, 1, 1, 1⟩ launched).pos_x =
      15 * polyTrig.cos (DEG2RAD 25) * 0 := by rw [a7]; ring
  have ay : (draw polyTrig ⟨1, 1, 1, 1⟩ launched).pos_y =
      15 * polyTrig.sin (DEG2RAD 25) * 0 - 0.5 * 9.8 * 0 * 0 := by rw [a8]; ring
  have a12 : ¬ (draw polyTrig ⟨1, 1, 1, 1⟩ launched).flag = 1 := by rw [a1]; decide
  obtain ⟨⟨b1, b2, b3, b4, b5, b6⟩, ⟨b7, b8⟩, btp⟩ :=
    shot_tick ⟨1.70, 1.70, 1.70, 1.70⟩ (draw polyTrig ⟨1, 1, 1, 1⟩ launched) 0 (Or.inr a1)
      (by rw [if_neg a12]; exact a2) a3 a4 a5 a6 ax ay
      (by rw [a6, ay]; exact m1) (by rw [a5, a6, ax, ay]; exact m2)
      (by rw [a5, a6, ax, ay]; exact m3)
  have bsc := scorePart_draw_flying polyTrig ⟨1.70, 1.70, 1.70, 1.70⟩
    (draw polyTrig ⟨1, 1, 1, 1⟩ launched) (Or.inr a1)
  rw [btp] at bsc
  simp only [if_neg m4, if_neg m5, if_neg m6] at bsc
  have asc1 := asc
  simp only [scorePart, Prod.mk.injEq] at asc1
  obtain ⟨⟨t1, t2, t3⟩, ⟨s1, s2, s3⟩, -, so⟩ := asc1
  rw [t1, t2, t3, s1, s2, s3, so] at bsc
  refine ⟨b1, b2, b3, b4, b5, b6, ?_, ?_, ?_⟩
  · show (draw polyTrig ⟨1.70, 1.70, 1.70, 1.70⟩ (draw polyTrig ⟨1, 1, 1, 1⟩ launched)).pos_x = _
    rw [b7]; ring
  · show (draw polyTrig ⟨1.70, 1.70, 1.70, 1.70⟩ (draw polyTrig ⟨1, 1, 1, 1⟩ launched)).pos_y = _
    rw [b8]; ring
  · show scorePart
      (draw polyTrig ⟨1.70, 1.70, 1.70, 1.70⟩ (draw polyTrig ⟨1, 1, 1, 1⟩ launched)) = _
    rw [bsc]; rfl

/-- The shot after the hit: the state `afterHit` is still Flying on the
trajectory of the shot, at elapsed time 0.71; target 1 is inactive and the
score is 1. -/
theorem afterHit_facts :
    (afterHit.flag = 2 ∧ afterHit.start_t = 1 ∧ afterHit.u = 15 ∧ afterHit.angle = 25 ∧
        afterHit.can_x = -12 + 2 * polyTrig.cos (DEG2RAD (25 + polyTrig.atan (0.5 / 2))) ∧
        afterHit.can_y = -6.5 + 2 * polyTrig.sin (DEG2RAD (25 + polyTrig.atan (0.5 / 2)))) ∧
      (afterHit.pos_x = 15 * polyTrig.cos (DEG2RAD 25) * 0.71 ∧
        afterHit.pos_y = 15 * polyTrig.sin (DEG2RAD 25) * 0.71 - 0.5 * 9.8 * 0.71 * 0.71) ∧
      scorePart afterHit = ((0, 1, 1), (1, 0, 0), 1, 0) := by
  obtain ⟨f1, f2, f3, f4, f5, f6, f7, f8, f9⟩ := inFlight_facts
  obtain ⟨n1, n2, n3, n4⟩ := shot_at_070
  have f12 : ¬ inFlight.flag = 1 := by rw [f1]; decide
  obtain ⟨⟨b1, b2, b3, b4, b5, b6⟩, ⟨b7, b8⟩, btp⟩ :=
    shot_tick ⟨1.71, 1.71, 1.71, 1.71⟩ inFlight 0.70 (Or.inr f1)
      (by rw [if_neg f12]; exact f2) f3 f4 f5 f6 f7 f8
      (by rw [f6, f8]; exact n1) (by rw [f5, f6, f7, f8]; exact n2)
      (by rw [f5, f6, f7, f8]; exact n3)
  have bsc := scorePart_draw_flying polyTrig ⟨1.71, 1.71, 1.71, 1.71⟩ inFlight (Or.inr f1)
  rw [btp] at bsc
  simp only [if_pos n4, if_neg (hit1_not_hit2 _ _ n4), if_neg (hit1_not_hit3 _ _ n4)] at bsc
  have f9a := f9
  simp only [scorePart, Prod.mk.injEq] at f9a
  obtain ⟨⟨-, t2, t3⟩, ⟨-, s2, s3⟩, -, so⟩ := f9a
  rw [t2, t3, s2, s3, so] at bsc
  refine ⟨⟨b1, b2, b3, b4, b5, b6⟩, ⟨?_, ?_⟩, ?_⟩
  · show (draw polyTrig ⟨1.71, 1.71, 1.71, 1.71⟩ inFlight).pos_x = _
    rw [b7]; ring
  · show (draw polyTrig ⟨1.71, 1.71, 1.71, 1.71⟩ inFlight).pos_y = _
    rw [b8]; ring
  · show scorePart (draw polyTrig ⟨1.71, 1.71, 1.71, 1.71⟩ inFlight) = _
    rw [bsc]; rfl

/-- The tick after the hit tests the ball at its position of elapsed time
0.71, which is inside the hit region of target 1 again. -/
theorem afterHit_tested (c : Clock) :
    hit1 (testedPosition polyTrig c afterHit).1 (testedPosition polyTrig c afterHit).2 := by
  obtain ⟨⟨-, -, -, -, a5, a6⟩, ⟨a7, a8⟩, -⟩ := afterHit_facts
  obtain ⟨n1, n2⟩ := shot_at_071
  rw [testedPosition_above polyTrig c afterHit (by rw [a6, a8]; exact n1), a5, a6, a7, a8]
  exact n2

/-- A run is the run of its first part followed by the run of the rest. -/
theorem run_append (m : Trig) (es fs : List Event) (s : State) :
    run m s (es ++ fs) = (run m s es).bind (fun s1 => run m s1 fs) := by
  induction es generalizing s with
  | nil => rfl
  | cons e es ih =>
    simp only [List.cons_append, run]
    cases step m s e with
    | none => rfl
    | some s2 => simp only [Option.some_bind]; exact ih s2

/-- The inputs `aimRun` lead from the initial state to `aimed`. -/
theorem aimRun_run : run polyTrig initState aimRun = some aimed := by
  unfold aimRun
  rw [run_append, aimStart_run, Option.some_bind, run_ticks]
  rfl

/-- The inputs `flightTicks` lead from `launched` to `afterHit`. -/
theorem flightTicks_run : run polyTrig launched flightTicks = some afterHit := rfl

/-- The inputs `hitRun` lead from the initial state to `afterHit`. -/
theorem hitRun_run : run polyTrig initState hitRun = some afterHit := by
  unfold hitRun
  rw [run_append, run_append, aimRun_run, Option.some_bind]
  exact flightTicks_run

/-- The state after the hit is reachable. -/
theorem afterHit_reachable : Reachable polyTrig afterHit :=
  reachable_of_run polyTrig hitRun initState afterHit Reachable.init hitRun_run

/-- Pressing S and running 50 ticks leads from the initial state to `drained`. -/
theorem drained_run :
    run polyTrig initState
        (.key .GLFW_KEY_S .GLFW_PRESS :: List.replicate 50 (.tick ⟨0, 0, 0, 0⟩)) =
      some drained := by
  have h : run polyTrig initState
      (.key .GLFW_KEY_S .GLFW_PRESS :: List.replicate 50 (.tick ⟨0, 0, 0, 0⟩)) =
      run polyTrig { initState with flag_s := 1 } (List.replicate 50 (.tick ⟨0, 0, 0, 0⟩)) := by
    simp only [run, step, keyboard, Option.some_bind]
  rw [h, run_ticks]
  rfl

/-- In `drained` the launch speed is 0. -/
theorem drained_u : drained.u = 0 := by
  have h := hold_S polyTrig ⟨0, 0, 0, 0⟩ 50 { initState with flag_s := 1 } rfl rfl rfl
    (by norm_num [initState])
  rw [run_ticks, Option.map_some', Option.some.injEq] at h
  unfold drained
  rw [h]
  norm_num [initState]

/-- A tick that leaves the projectile Flying is a step of a flight run. -/
theorem flightRun_tick (m : Trig) (c : Clock) (s : State) (es : List Event)
    (h : (draw m c s).flag ≠ 0) :
    flightRun m s (.tick c :: es) = flightRun m (draw m c s) es := by
  simp only [flightRun, step]
  rw [if_neg h]

/-- The tick that stamps the start time of the shot leaves it Flying. -/
theorem stamped_flag : (draw polyTrig ⟨1, 1, 1, 1⟩ launched).flag = 2 := by
  obtain ⟨l1, -, -, l4, l5, l6, l7, -⟩ := launched_facts
  obtain ⟨-, m2, -⟩ := muzzle_clear
  have lx : launched.pos_x = 15 * polyTrig.cos (DEG2RAD 25) * 0 := by rw [l6]; ring
  have ly : launched.pos_y = 15 * polyTrig.sin (DEG2RAD 25) * 0 - 0.5 * 9.8 * 0 * 0 := by
    rw [l7]; ring
  have e := corePart_draw_inside polyTrig ⟨1, 1, 1, 1⟩ launched (Or.inl l1)
    (by rw [l4, l5, lx, ly]; exact m2)
  simp only [corePart, Prod.mk.injEq] at e
  exact e.1.1

/-- The projectile is Flying after each of the inputs `flightTicks`. -/
theorem flightTicks_flightRun : flightRun polyTrig launched flightTicks = some afterHit := by
  have h1 : (draw polyTrig ⟨1, 1, 1, 1⟩ launched).flag ≠ 0 := by rw [stamped_flag]; decide
  have h2 : (draw polyTrig ⟨1.70, 1.70, 1.70, 1.70⟩
      (draw polyTrig ⟨1, 1, 1, 1⟩ launched)).flag ≠ 0 := by
    show inFlight.flag ≠ 0
    rw [inFlight_facts.1]; decide
  have h3 : (draw polyTrig ⟨1.71, 1.71, 1.71, 1.71⟩
      (draw polyTrig ⟨1.70, 1.70, 1.70, 1.70⟩
        (draw polyTrig ⟨1, 1, 1, 1⟩ launched))).flag ≠ 0 := by
    show afterHit.flag ≠ 0
    rw [afterHit_facts.1.1]; decide
  unfold flightTicks
  rw [flightRun_tick _ _ _ _ h1, flightRun_tick _ _ _ _ h2, flightRun_tick _ _ _ _ h3]
  rfl

/-! ## The claims at the run that hits target 1 -/

/-- C3 at the state after a hit.  From the initial state, A and F are held
for 25 ticks (angle 25, speed 15), the left mouse button is released, and the
ball is tested inside target 1 at elapsed time 0.70: target 1 is inactive,
the other two are active, and the score is 1, the number of inactive targets. -/
theorem C3_score_counts_inactive_witness :
    run polyTrig initState hitRun = some afterHit ∧ Reachable polyTrig afterHit ∧
      (afterHit.t1 = 0 ∧ afterHit.t2 = 1 ∧ afterHit.t3 = 1 ∧ afterHit.score1 = 1 ∧
        afterHit.score = 1 ∧ inactiveTargets afterHit = 1 ∧ afterHit.over = 0) ∧
      (afterHit.score = inactiveTargets afterHit ∧
        (afterHit.score = 3 ↔ afterHit.t1 = 0 ∧ afterHit.t2 = 0 ∧ afterHit.t3 = 0) ∧
        (afterHit.over = 1 ↔ afterHit.score = 3)) := by
  have e := afterHit_facts.2.2
  simp only [scorePart, Prod.mk.injEq] at e
  obtain ⟨⟨t1, t2, t3⟩, ⟨s1, -, -⟩, sc, so⟩ := e
  exact ⟨hitRun_run, afterHit_reachable,
    ⟨t1, t2, t3, s1, sc, by simp [inactiveTargets, t1, t2, t3], so⟩,
    C3_score_counts_inactive polyTrig afterHit afterHit_reachable⟩

/-- C4 at the state after a hit, with the tick at clock 1.72 as the run.
Target 1 is inactive before the tick, the tick tests the ball inside the hit
region of target 1 again, and after it target 1 is still inactive and the
score is still 1. -/
theorem C4_deactivation_permanent_witness :
    Reachable polyTrig afterHit ∧
      run polyTrig afterHit [.tick ⟨1.72, 1.72, 1.72, 1.72⟩] =
        some (draw polyTrig ⟨1.72, 1.72, 1.72, 1.72⟩ afterHit) ∧
      (afterHit.t1 = 0 ∧ afterHit.score1 = 1 ∧ afterHit.score = 1) ∧
      hit1 (testedPosition polyTrig ⟨1.72, 1.72, 1.72, 1.72⟩ afterHit).1
        (testedPosition polyTrig ⟨1.72, 1.72, 1.72, 1.72⟩ afterHit).2 ∧
      ((draw polyTrig ⟨1.72, 1.72, 1.72, 1.72⟩ afterHit).t1 = 0 ∧
        afterHit.score ≤ (draw polyTrig ⟨1.72, 1.72, 1.72, 1.72⟩ afterHit).score) ∧
      ((draw polyTrig ⟨1.72, 1.72, 1.72, 1.72⟩ afterHit).t1 = afterHit.t1 ∧
        (draw polyTrig ⟨1.72, 1.72, 1.72, 1.72⟩ afterHit).score1 = afterHit.score1 ∧
        (draw polyTrig ⟨1.72, 1.72, 1.72, 1.72⟩ afterHit).score = afterHit.score) := by
  have e := afterHit_facts.2.2
  simp only [scorePart, Prod.mk.injEq] at e
  obtain ⟨⟨t1, -, -⟩, ⟨s1, -, -⟩, sc, -⟩ := e
  have h := C4_deactivation_permanent polyTrig afterHit
    (draw polyTrig ⟨1.72, 1.72, 1.72, 1.72⟩ afterHit) [.tick ⟨1.72, 1.72, 1.72, 1.72⟩]
    afterHit_reachable rfl
  exact ⟨afterHit_reachable, rfl, ⟨t1, s1, sc⟩, afterHit_tested _, ⟨h.1.1 t1, h.1.2.2.2⟩,
    (h.2 ⟨1.72, 1.72, 1.72, 1.72⟩).1 t1 (afterHit_tested _)⟩

/-- C5 (amended) at the run that presses S and holds it for 50 ticks: the
launch speed goes from 10 down to 0, and not below. -/
theorem C5_power_nonneg_witness :
    run polyTrig initState
        (.key .GLFW_KEY_S .GLFW_PRESS :: List.replicate 50 (.tick ⟨0, 0, 0, 0⟩)) =
        some drained ∧
      drained.u = 0 ∧ 0 ≤ drained.u :=
  ⟨drained_run, drained_u,
    C5_power_nonneg polyTrig
      (.key .GLFW_KEY_S .GLFW_PRESS :: List.replicate 50 (.tick ⟨0, 0, 0, 0⟩)) drained
      drained_run⟩

/-- C6 at the shot that hits target 1: the snapshot taken when the left mouse
button is released at `aimed` (angle 25, speed 15) is still in place after
the three ticks of the flight. -/
theorem C6_launch_snapshot_witness :
    (aimed.flag = 0 ∧ aimed.canon_rotation = 25 ∧ aimed.u = 15) ∧
      flightRun polyTrig (mouseButton polyTrig .GLFW_MOUSE_BUTTON_LEFT .GLFW_RELEASE aimed)
        flightTicks = some afterHit ∧
      (afterHit.angle = aimed.canon_rotation ∧
        afterHit.can_x =
          -12 + 2 * polyTrig.cos (DEG2RAD (aimed.canon_rotation + polyTrig.atan (0.5 / 2))) ∧
        afterHit.can_y =
          -6.5 + 2 * polyTrig.sin (DEG2RAD (aimed.canon_rotation + polyTrig.atan (0.5 / 2))) ∧
        afterHit.u = aimed.u) :=
  ⟨⟨aimed_facts.1, aimed_facts.2.2.1, aimed_facts.2.1⟩, flightTicks_flightRun,
    C6_launch_snapshot polyTrig aimed afterHit flightTicks aimed_facts.1
      (Or.inl flightTicks_flightRun)⟩

end ShootingCanon
